import Mathlib

/-!
# DocBook: appointment scheduling over a browser-local store

A shallow embedding of the storage layer and the first-run seeding (`storage.js`), the
login and registration handlers (`auth.js`), the patient booking, rescheduling and
rating handlers (`patient.js`), the doctor lifecycle, profile and availability
handlers (`doctor.js`) and the admin handlers (`admin.js`).

The script `app.js` is not embedded. As shipped it does not parse: in the body of
`forceRefreshSampleData` the lines `Clear existing data` and `Reinitialize` stand
without their `//`, so loading the script ends with a `SyntaxError` and none of its
functions, `exportData` and `importData` among them, is defined.

Conventions of the embedding:

* `localStorage` is the record `Store`; a key that was never written is `none`. A
  JSON text in the store is identified with the value it denotes.
* JavaScript objects are records; a property that may be missing is an `Option`.
* Everything the handlers read from the browser rather than from the store is an
  explicit argument: the fresh id of `generateId()`, the timestamp of
  `new Date().toISOString()`, the answer of a `confirm(...)` dialog, the form
  fields, and the weekday name computed by
  `new Date(date).toLocaleDateString('en-US', { weekday: 'long' }).toLowerCase()`,
  which is passed as the function `weekdayOf`. For a host whose local time is UTC plus
  a number of minutes, that function is `hostWeekday`; it is compared with the
  weekday of the date, `weekdayOfDate`. The string method `toLowerCase` of the search
  is passed as a function as well.
* A call that ends with an uncaught exception returns `none`.
* A number other than the hash of a password is a double, written as the rational
  number it denotes; an arithmetic operation rounds its exact result to the nearest
  double (`roundToDouble`), and a comparison is exact.
* `alert(...)` and the re-rendering calls have no effect on the store; the branch
  a handler takes is returned as an outcome value.
* A store as the code writes it has templates whose entries name a day of the week
  and a time (`WellFormedTemplates`) and appointments that carry a date and a time
  (`WellFormedAppointments`): the templates are written from
  `generateSampleAvailability` only, and the date and the time of an appointment by
  the seed and, behind the check `!date || !time`, by a booking or a reschedule.
-/

namespace DocBook

/-! ## Data model -/

/-- One entry of a doctor's weekly template: `{ day, time, available }`. -/
structure Slot where
  day : String
  time : String
  available : Bool
deriving DecidableEq, Repr

/-- A stored user record. The doctor-only properties are optional. -/
structure User where
  id : String
  name : String
  email : String
  passwordHash : String
  role : String
  approved : Bool
  createdAt : String
  specialty : Option String := none
  location : Option String := none
  bio : Option String := none
  rating : Option Rat := none
  availability : Option (List Slot) := none
deriving DecidableEq, Repr

/-- A stored appointment record. -/
structure Appointment where
  id : String
  doctorId : String
  patientId : String
  date : String
  time : String
  status : String
  reason : String
  createdAt : String
deriving DecidableEq, Repr

/-- The object handed to `AppointmentStorage.create`. -/
structure AppointmentData where
  doctorId : String
  patientId : String
  date : String
  time : String
  reason : String
deriving DecidableEq, Repr

/-- An object spread over a stored appointment by `AppointmentStorage.update`:
every property may be present or missing. -/
structure AppointmentUpdates where
  id : Option String := none
  doctorId : Option String := none
  patientId : Option String := none
  date : Option String := none
  time : Option String := none
  status : Option String := none
  reason : Option String := none
  createdAt : Option String := none
deriving DecidableEq, Repr

/-- The contents of `localStorage` under the four `STORAGE_KEYS`. -/
structure Store where
  users : Option (List User)
  appointments : Option (List Appointment)
  currentUser : Option User
  initialized : Bool
deriving DecidableEq, Repr

/-! ## Array and string primitives of the host language -/

/-- The array method `findIndex`: position of the first element satisfying `p`;
`none` stands for the result `-1`. -/
def findIndex {α : Type} (p : α → Bool) : List α → Option Nat
  | [] => none
  | x :: xs => if p x then some 0 else (findIndex p xs).map (· + 1)

/-- The UTF-16 code units of a string, the sequence that `<` and `>=` compare. -/
def utf16Units (s : String) : List Nat :=
  s.toList.flatMap fun c =>
    if c.toNat < 0x10000 then [c.toNat]
    else [0xD800 + (c.toNat - 0x10000) / 0x400, 0xDC00 + (c.toNat - 0x10000) % 0x400]

/-- Lexicographic `<` on code-unit sequences. -/
def unitsLt : List Nat → List Nat → Bool
  | [], [] => false
  | [], _ :: _ => true
  | _ :: _, [] => false
  | a :: as, b :: bs => a < b || (a == b && unitsLt as bs)

/-- The operator `a < b` on two strings. -/
def strLt (a b : String) : Bool := unitsLt (utf16Units a) (utf16Units b)

/-- The operator `a >= b` on two strings. -/
def strGe (a b : String) : Bool := !strLt a b

/-! ## Dates and numbers of the host language -/

/-- The names that `toLocaleDateString('en-US', { weekday: 'long' })` gives to the days
of the week, in lower case, Sunday first. -/
def weekdayNames : List String :=
  ["sunday", "monday", "tuesday", "wednesday", "thursday", "friday", "saturday"]

/-- The value of a decimal digit. -/
def digitValue (c : Char) : Option Nat :=
  if c.isDigit then some (c.toNat - 48) else none

/-- The number of days of a month of the Gregorian calendar. -/
def daysInMonth (year month : Nat) : Nat :=
  if month = 2 then
    if year % 4 = 0 ∧ (year % 100 ≠ 0 ∨ year % 400 = 0) then 29 else 28
  else if month = 4 ∨ month = 6 ∨ month = 9 ∨ month = 11 then 30
  else 31

/-- The year, month and day of a calendar date written `YYYY-MM-DD`, which is the
form in which a date field of the page and `getDateString` give a date; `none` for
any other string, the empty string of an unset date field among them. -/
def parseCalendarDate (date : String) : Option (Nat × Nat × Nat) :=
  match date.toList with
  | [y1, y2, y3, y4, '-', m1, m2, '-', d1, d2] =>
    match digitValue y1, digitValue y2, digitValue y3, digitValue y4,
        digitValue m1, digitValue m2, digitValue d1, digitValue d2 with
    | some a, some b, some c, some d, some e, some f, some g, some h =>
      let year := 1000 * a + 100 * b + 10 * c + d
      let month := 10 * e + f
      let day := 10 * g + h
      if 1 ≤ month ∧ month ≤ 12 ∧ 1 ≤ day ∧ day ≤ daysInMonth year month then
        some (year, month, day)
      else none
    | _, _, _, _, _, _, _, _ => none
  | _ => none

/-- The number of days from 1970-01-01 to a date of the Gregorian calendar. -/
def daysSinceEpoch (year month day : Nat) : Int :=
  let y : Int := if month ≤ 2 then (year : Int) - 1 else year
  let era : Int := y / 400
  let yearOfEra : Int := y - era * 400
  let monthFromMarch : Int := if month ≤ 2 then (month : Int) + 9 else (month : Int) - 3
  let dayOfYear : Int := (153 * monthFromMarch + 2) / 5 + day - 1
  let dayOfEra : Int := yearOfEra * 365 + yearOfEra / 4 - yearOfEra / 100 + dayOfYear
  era * 146097 + dayOfEra - 719468

/-- The name of the day that lies `dayNumber` days from 1970-01-01, a Thursday. -/
def weekdayName (dayNumber : Int) : String :=
  weekdayNames.getD ((dayNumber + 4) % 7).toNat "invalid date"

/-- The weekday of a calendar date written `YYYY-MM-DD`. -/
def weekdayOfDate (date : String) : String :=
  match parseCalendarDate date with
  | none => "invalid date"
  | some (year, month, day) => weekdayName (daysSinceEpoch year month day)

/-- The value of
`new Date(date).toLocaleDateString('en-US', { weekday: 'long' }).toLowerCase()` for a
calendar date written `YYYY-MM-DD`, in a host whose local time is UTC plus
`offsetMinutes`: `new Date(date)` is midnight UTC of that date, and the day that is
named is the local day of that instant. A string that is no calendar date, the empty
string among them, has the name of an invalid date. -/
def hostWeekday (offsetMinutes : Int) (date : String) : String :=
  match parseCalendarDate date with
  | none => "invalid date"
  | some (year, month, day) =>
    weekdayName ((daysSinceEpoch year month day * 1440 + offsetMinutes) / 1440)

/-- Round to the nearest integer, a tie going to the even one. -/
def roundHalfEven (q : Rat) : Int :=
  if q - ⌊q⌋ < 1 / 2 then ⌊q⌋
  else if q - ⌊q⌋ > 1 / 2 then ⌊q⌋ + 1
  else if ⌊q⌋ % 2 = 0 then ⌊q⌋ else ⌊q⌋ + 1

/-- The exponent of the unit in the last place of the doubles around `x`: 53
significant bits, and never below the exponent -1074 of the least positive double. -/
def ulpExponent (x : Rat) : Int := max (Int.log 2 |x| - 52) (-1074)

/-- The double (IEEE 754 binary64) nearest to `x`, a tie going to the even
significand: the value that an arithmetic operation of the host stores when its exact
result is `x`. A double is written as the rational number it denotes. -/
def roundToDouble (x : Rat) : Rat :=
  (roundHalfEven (x / 2 ^ ulpExponent x) : Rat) * 2 ^ ulpExponent x

/-! ## storage.js -/

/-- Source: `AppointmentStorage.getAll`; a key that was never written reads as the
empty array. -/
def AppointmentStorage.getAll (s : Store) : List Appointment :=
  match s.appointments with
  | some appointments => appointments
  | none => []

namespace UserStorage

/-- Source: `UserStorage.getAll`; a key that was never written reads as the empty
array. -/
def getAll (s : Store) : List User :=
  match s.users with
  | some users => users
  | none => []

/-- Source: `UserStorage.getById`. -/
def getById (s : Store) (id : String) : Option User :=
  (getAll s).find? fun user => user.id == id

/-- Source: `UserStorage.delete`. -/
def delete (s : Store) (id : String) : Store :=
  let users := getAll s
  let filteredUsers := users.filter fun user => user.id != id
  let s1 := { s with users := some filteredUsers }
  let appointments := AppointmentStorage.getAll s1
  let filteredAppointments := appointments.filter fun apt =>
    apt.doctorId != id && apt.patientId != id
  { s1 with appointments := some filteredAppointments }

end UserStorage

namespace AppointmentStorage

/-- Source: `AppointmentStorage.getById`. -/
def getById (s : Store) (id : String) : Option Appointment :=
  (getAll s).find? fun apt => apt.id == id

/-- Source: `AppointmentStorage.getByDoctor`. -/
def getByDoctor (s : Store) (doctorId : String) : List Appointment :=
  (getAll s).filter fun apt => apt.doctorId == doctorId

/-- Source: `AppointmentStorage.create`; `newId` is the value of `generateId()` and
`now` the value of `new Date().toISOString()`. -/
def create (newId now : String) (s : Store) (appointmentData : AppointmentData) :
    Appointment × Store :=
  let appointments := getAll s
  let newAppointment : Appointment :=
    { id := newId
      doctorId := appointmentData.doctorId
      patientId := appointmentData.patientId
      date := appointmentData.date
      time := appointmentData.time
      reason := appointmentData.reason
      status := "pending"
      createdAt := now }
  (newAppointment, { s with appointments := some (appointments ++ [newAppointment]) })

/-- The object spread `{ ...apt, ...updates }`. -/
def merge (apt : Appointment) (updates : AppointmentUpdates) : Appointment :=
  { id := updates.id.getD apt.id
    doctorId := updates.doctorId.getD apt.doctorId
    patientId := updates.patientId.getD apt.patientId
    date := updates.date.getD apt.date
    time := updates.time.getD apt.time
    status := updates.status.getD apt.status
    reason := updates.reason.getD apt.reason
    createdAt := updates.createdAt.getD apt.createdAt }

/-- Source: `AppointmentStorage.update`; the result `none` is `null`. -/
def update (s : Store) (id : String) (updates : AppointmentUpdates) :
    Option Appointment × Store :=
  let appointments := getAll s
  match findIndex (fun apt => apt.id == id) appointments with
  | some index =>
    let appointments1 := appointments.modify (fun apt => merge apt updates) index
    (appointments1[index]?, { s with appointments := some appointments1 })
  | none => (none, s)

/-- Source: `AppointmentStorage.delete`. -/
def delete (s : Store) (id : String) : Store :=
  let appointments := getAll s
  let filteredAppointments := appointments.filter fun apt => apt.id != id
  { s with appointments := some filteredAppointments }

/-- Source: the callback of `filter` shared by `getUpcoming` and `getHistory`:
`role === 'patient' ? apt.patientId === userId : apt.doctorId === userId`. -/
def isUserAppointment (userId role : String) (apt : Appointment) : Bool :=
  if role == "patient" then apt.patientId == userId else apt.doctorId == userId

/-- Source: `AppointmentStorage.getUpcoming`; `today` is the value of
`new Date().toISOString().split('T')[0]`. -/
def getUpcoming (today : String) (s : Store) (userId role : String) : List Appointment :=
  (getAll s).filter fun apt =>
    isUserAppointment userId role apt && strGe apt.date today && apt.status != "cancelled"

/-- Source: `AppointmentStorage.getHistory`. -/
def getHistory (today : String) (s : Store) (userId role : String) : List Appointment :=
  (getAll s).filter fun apt =>
    isUserAppointment userId role apt &&
      (strLt apt.date today || apt.status == "completed" || apt.status == "cancelled")

end AppointmentStorage

/-- Source: `getCurrentUser` of auth.js, which is `SessionStorage.getCurrentUser`. -/
def getCurrentUser (s : Store) : Option User := s.currentUser

/-! ## patient.js -/

/-- Source: `isSlotAvailable`. -/
def isSlotAvailable (weekdayOf : String → String) (s : Store)
    (doctorId date time : String) : Bool :=
  match UserStorage.getById s doctorId with
  | none => false
  | some doctor =>
    match doctor.availability with
    | none => false
    | some availability =>
      let dayOfWeek := weekdayOf date
      let isAvailable := availability.any fun slot =>
        slot.day == dayOfWeek && slot.time == time && slot.available
      if !isAvailable then false
      else
        let existingAppointments := AppointmentStorage.getByDoctor s doctorId
        let isBooked := existingAppointments.any fun apt =>
          apt.date == date && apt.time == time && apt.status != "cancelled"
        !isBooked

/-- The form fields read by `handleBookingSubmission`. -/
structure BookingForm where
  doctorId : String
  date : String
  time : String
  reason : String
deriving DecidableEq, Repr

/-- The branch taken by `handleBookingSubmission`. -/
inductive BookingOutcome where
  /-- The branch `if (!currentUser) return`. -/
  | notLoggedIn
  /-- The alert `Please select both date and time`. -/
  | missingDateOrTime
  /-- The alert `This time slot is not available. Please choose another time.` -/
  | slotUnavailable
  /-- The alert `Appointment booked successfully!` -/
  | booked (appointment : Appointment)
deriving DecidableEq, Repr

/-- Source: `handleBookingSubmission`. `AppointmentStorage.create` always returns the
new record, so the branch `Failed to book appointment` is never taken. -/
def handleBookingSubmission (weekdayOf : String → String) (newId now : String)
    (s : Store) (form : BookingForm) : BookingOutcome × Store :=
  match getCurrentUser s with
  | none => (.notLoggedIn, s)
  | some currentUser =>
    if form.date == "" || form.time == "" then (.missingDateOrTime, s)
    else if !isSlotAvailable weekdayOf s form.doctorId form.date form.time then
      (.slotUnavailable, s)
    else
      let appointmentData : AppointmentData :=
        { doctorId := form.doctorId
          patientId := currentUser.id
          date := form.date
          time := form.time
          reason := if form.reason == "" then "General consultation" else form.reason }
      let created := AppointmentStorage.create newId now s appointmentData
      (.booked created.1, created.2)

/-- The form fields read by `handleRescheduleSubmission`. -/
structure RescheduleForm where
  appointmentId : String
  newDate : String
  newTime : String
deriving DecidableEq, Repr

/-- The branch taken by `handleRescheduleSubmission`. -/
inductive RescheduleOutcome where
  /-- The alert `Please select both date and time`. -/
  | missingDateOrTime
  /-- The branch `if (!appointment) return`. -/
  | notFound
  /-- The alert `This time slot is not available. Please choose another time.` -/
  | slotUnavailable
  /-- The alert `Appointment rescheduled successfully!` -/
  | rescheduled (updated : Appointment)
  /-- The alert `Failed to reschedule appointment.` -/
  | failed
deriving DecidableEq, Repr

/-- Source: `handleRescheduleSubmission`. -/
def handleRescheduleSubmission (weekdayOf : String → String) (s : Store)
    (form : RescheduleForm) : RescheduleOutcome × Store :=
  if form.newDate == "" || form.newTime == "" then (.missingDateOrTime, s)
  else
    match AppointmentStorage.getById s form.appointmentId with
    | none => (.notFound, s)
    | some appointment =>
      if !isSlotAvailable weekdayOf s appointment.doctorId form.newDate form.newTime then
        (.slotUnavailable, s)
      else
        match AppointmentStorage.update s form.appointmentId
            { date := some form.newDate, time := some form.newTime,
              status := some "pending" } with
        | (some updated, s1) => (.rescheduled updated, s1)
        | (none, s1) => (.failed, s1)

/-- The branch taken by a handler that overwrites the status of an appointment. -/
inductive StatusOutcome where
  /-- The `confirm(...)` dialog was answered with Cancel: the handler returns. -/
  | dismissed
  /-- The success alert, `AppointmentStorage.update` having returned the record. -/
  | updated (appointment : Appointment)
  /-- The failure alert, `AppointmentStorage.update` having returned `null`. -/
  | failed
deriving DecidableEq, Repr

/-- The common tail of the status handlers: `if (updated) ... else ...`. -/
def statusResult (r : Option Appointment × Store) : StatusOutcome × Store :=
  match r with
  | (some updated, s1) => (.updated updated, s1)
  | (none, s1) => (.failed, s1)

/-- Source: `cancelAppointment`; `confirmed` is the answer of the `confirm` dialog. -/
def cancelAppointment (confirmed : Bool) (s : Store) (appointmentId : String) :
    StatusOutcome × Store :=
  if !confirmed then (.dismissed, s)
  else statusResult (AppointmentStorage.update s appointmentId { status := some "cancelled" })

/-- Source: `canModify` in `createPatientAppointmentCard`: the Reschedule button. -/
def canModify (isHistory : Bool) (appointment : Appointment) : Bool :=
  !isHistory && appointment.status == "pending"

/-- Source: `canCancel` in `createPatientAppointmentCard`: the Cancel button. -/
def canCancel (isHistory : Bool) (appointment : Appointment) : Bool :=
  !isHistory && (appointment.status == "pending" || appointment.status == "confirmed")

/-! ## doctor.js -/

/-- Source: `approveAppointment`. -/
def approveAppointment (s : Store) (appointmentId : String) : StatusOutcome × Store :=
  statusResult (AppointmentStorage.update s appointmentId { status := some "confirmed" })

/-- Source: `declineAppointment`; `confirmed` is the answer of the `confirm` dialog. -/
def declineAppointment (confirmed : Bool) (s : Store) (appointmentId : String) :
    StatusOutcome × Store :=
  if !confirmed then (.dismissed, s)
  else statusResult (AppointmentStorage.update s appointmentId { status := some "cancelled" })

/-- Source: `completeAppointment`. -/
def completeAppointment (s : Store) (appointmentId : String) : StatusOutcome × Store :=
  statusResult (AppointmentStorage.update s appointmentId { status := some "completed" })

/-- Source: `canApprove` in `createDoctorAppointmentCard`: the Approve and Decline
buttons. -/
def canApprove (isHistory : Bool) (appointment : Appointment) : Bool :=
  !isHistory && appointment.status == "pending"

/-- Source: `canComplete` in `createDoctorAppointmentCard`: the Mark Complete button. -/
def canComplete (isHistory : Bool) (appointment : Appointment) : Bool :=
  !isHistory && appointment.status == "confirmed"

/-! ## admin.js -/

/-- Source: `forceApproveAppointment`. -/
def forceApproveAppointment (s : Store) (appointmentId : String) : StatusOutcome × Store :=
  statusResult (AppointmentStorage.update s appointmentId { status := some "confirmed" })

/-- Source: `deleteAppointment`; `confirmed` is the answer of the `confirm` dialog. -/
def deleteAppointment (confirmed : Bool) (s : Store) (appointmentId : String) : Store :=
  if !confirmed then s else AppointmentStorage.delete s appointmentId

/-- Source: the condition `appointment.status === 'pending'` under which
`createAdminAppointmentCard` renders the Force Approve button. -/
def canForceApprove (appointment : Appointment) : Bool :=
  appointment.status == "pending"

/-! ## Users: storage.js, auth.js, doctor.js, patient.js, admin.js -/

/-- The object handed to `UserStorage.create`. `handleRegister` fills the name, the
email, the password and the role, and for a doctor the specialty, the location and the
bio; any other property of a user record may be carried as well. -/
structure UserData where
  name : String
  email : String
  password : String
  role : String
  id : Option String := none
  passwordHash : Option String := none
  approved : Option Bool := none
  createdAt : Option String := none
  specialty : Option String := none
  location : Option String := none
  bio : Option String := none
  rating : Option Rat := none
  availability : Option (List Slot) := none
deriving DecidableEq, Repr

/-- An object spread over a stored user by `UserStorage.update`: `none` is a property
that the object does not name. For a property that a user record may lack, `some none`
is the property named with the value `undefined`. -/
structure UserUpdates where
  id : Option String := none
  name : Option String := none
  email : Option String := none
  passwordHash : Option String := none
  role : Option String := none
  approved : Option Bool := none
  createdAt : Option String := none
  specialty : Option (Option String) := none
  location : Option (Option String) := none
  bio : Option (Option String) := none
  rating : Option (Option Rat) := none
  availability : Option (Option (List Slot)) := none
deriving DecidableEq, Repr

/-- The conversion of a number to a signed 32-bit integer, as done by `<<` and `&`. -/
def toInt32 (x : Int) : Int := (x + 2147483648) % 4294967296 - 2147483648

/-- Source: `hashPassword`. The loop runs over the UTF-16 code units of the password;
`hash << 5` and `hash & hash` convert to a signed 32-bit integer, the subtraction and
the addition in between are exact. -/
def hashPassword (password : String) : String :=
  toString ((utf16Units password).foldl
    (fun (hash : Int) (char : Nat) => toInt32 ((toInt32 (hash * 32) - hash) + char)) 0)

/-- Source: `generateSampleAvailability`. -/
def generateSampleAvailability : List Slot :=
  let days := ["monday", "tuesday", "wednesday", "thursday", "friday"]
  let times := ["09:00", "10:00", "11:00", "14:00", "15:00", "16:00"]
  days.flatMap fun day => times.map fun time => { day := day, time := time, available := true }

namespace UserStorage

/-- Source: `UserStorage.getByEmail`. -/
def getByEmail (s : Store) (email : String) : Option User :=
  (getAll s).find? fun user => user.email == email

/-- Source: `UserStorage.create`; `newId` is the value of `generateId()` and `now` the
value of `new Date().toISOString()`. The spread of `userData` comes after `id` and
before `passwordHash`, `approved` and `createdAt`. -/
def create (newId now : String) (s : Store) (userData : UserData) : User × Store :=
  let users := getAll s
  let newUser : User :=
    { id := userData.id.getD newId
      name := userData.name
      email := userData.email
      role := userData.role
      specialty := userData.specialty
      location := userData.location
      bio := userData.bio
      passwordHash := hashPassword userData.password
      approved := userData.role == "patient" || userData.role == "admin"
      createdAt := now
      rating := if userData.role == "doctor" then some 0 else userData.rating
      availability :=
        if userData.role == "doctor" then some generateSampleAvailability
        else userData.availability }
  (newUser, { s with users := some (users ++ [newUser]) })

/-- The object spread `{ ...user, ...updates }`. -/
def merge (user : User) (updates : UserUpdates) : User :=
  { id := updates.id.getD user.id
    name := updates.name.getD user.name
    email := updates.email.getD user.email
    passwordHash := updates.passwordHash.getD user.passwordHash
    role := updates.role.getD user.role
    approved := updates.approved.getD user.approved
    createdAt := updates.createdAt.getD user.createdAt
    specialty := updates.specialty.getD user.specialty
    location := updates.location.getD user.location
    bio := updates.bio.getD user.bio
    rating := updates.rating.getD user.rating
    availability := updates.availability.getD user.availability }

/-- Source: `UserStorage.update`; the result `none` is `null`. -/
def update (s : Store) (id : String) (updates : UserUpdates) : Option User × Store :=
  let users := getAll s
  match findIndex (fun user => user.id == id) users with
  | some index =>
    let users1 := users.modify (fun user => merge user updates) index
    (users1[index]?, { s with users := some users1 })
  | none => (none, s)

/-- Source: `UserStorage.getDoctors`. -/
def getDoctors (s : Store) : List User :=
  (getAll s).filter fun user => user.role == "doctor"

/-- Source: `UserStorage.getApprovedDoctors`. -/
def getApprovedDoctors (s : Store) : List User :=
  (getAll s).filter fun user => user.role == "doctor" && user.approved

/-- Source: `UserStorage.getPendingDoctors`. -/
def getPendingDoctors (s : Store) : List User :=
  (getAll s).filter fun user => user.role == "doctor" && !user.approved

end UserStorage

namespace SessionStorage

/-- Source: `SessionStorage.setCurrentUser`. -/
def setCurrentUser (s : Store) (user : User) : Store :=
  { s with currentUser := some user }

/-- Source: `SessionStorage.getCurrentUser`. Every call parses the stored text anew:
the caller gets a copy of the snapshot, not an object shared with the store. -/
def getCurrentUser (s : Store) : Option User := s.currentUser

/-- Source: `SessionStorage.clearCurrentUser`. -/
def clearCurrentUser (s : Store) : Store :=
  { s with currentUser := none }

end SessionStorage

/-- Source: `updateAdminCredentials`. -/
def updateAdminCredentials (newId now : String) (s : Store) : Store :=
  let users := UserStorage.getAll s
  match users.find? fun user => user.role == "admin" with
  | some adminUser =>
    if adminUser.email != "admin@docbook.com" then
      (UserStorage.update s adminUser.id
        { email := some "admin@docbook.com"
          passwordHash := some (hashPassword "Admin123") }).2
    else s
  | none =>
    let newAdmin : User :=
      { id := newId
        name := "Admin User"
        email := "admin@docbook.com"
        passwordHash := hashPassword "Admin123"
        role := "admin"
        approved := true
        createdAt := now }
    { s with users := some (users ++ [newAdmin]) }

/-- The values that the first run of `initializeApp` takes from the host: the results
of the seven calls of `generateId()`, of the seven calls of
`new Date().toISOString()`, and of `getDateString(7)` and `getDateString(14)`. -/
structure SeedValues where
  patientId : String
  doctor1Id : String
  doctor2Id : String
  doctor3Id : String
  adminId : String
  appointment1Id : String
  appointment2Id : String
  patientCreatedAt : String
  doctor1CreatedAt : String
  doctor2CreatedAt : String
  doctor3CreatedAt : String
  adminCreatedAt : String
  appointment1CreatedAt : String
  appointment2CreatedAt : String
  dateIn7Days : String
  dateIn14Days : String
deriving DecidableEq, Repr

/-- Source: `sampleUsers` in `initializeApp`. A decimal literal such as `4.8` is the
double nearest to it. -/
def sampleUsers (seed : SeedValues) : List User :=
  [ { id := seed.patientId
      name := "John Patient"
      email := "patient@example.com"
      passwordHash := hashPassword "password123"
      role := "patient"
      approved := true
      createdAt := seed.patientCreatedAt },
    { id := seed.doctor1Id
      name := "Dr. Sarah Wilson"
      email := "doctor@example.com"
      passwordHash := hashPassword "password123"
      role := "doctor"
      specialty := some "Cardiology"
      location := some "New York, NY"
      bio := some "Experienced cardiologist with 15 years of practice. Specializing in heart disease prevention and treatment."
      approved := true
      rating := some (roundToDouble (24 / 5))
      availability := some generateSampleAvailability
      createdAt := seed.doctor1CreatedAt },
    { id := seed.doctor2Id
      name := "Dr. Michael Chen"
      email := "doctor2@example.com"
      passwordHash := hashPassword "password123"
      role := "doctor"
      specialty := some "Dermatology"
      location := some "Los Angeles, CA"
      bio := some "Board-certified dermatologist focusing on skin cancer prevention and cosmetic dermatology."
      approved := true
      rating := some (roundToDouble (49 / 10))
      availability := some generateSampleAvailability
      createdAt := seed.doctor2CreatedAt },
    { id := seed.doctor3Id
      name := "Dr. Emily Rodriguez"
      email := "doctor3@example.com"
      passwordHash := hashPassword "password123"
      role := "doctor"
      specialty := some "Pediatrics"
      location := some "Chicago, IL"
      bio := some "Pediatrician dedicated to providing comprehensive care for children from infancy through adolescence."
      approved := true
      rating := some (roundToDouble (47 / 10))
      availability := some generateSampleAvailability
      createdAt := seed.doctor3CreatedAt },
    { id := seed.adminId
      name := "Admin User"
      email := "admin@docbook.com"
      passwordHash := hashPassword "Admin123"
      role := "admin"
      approved := true
      createdAt := seed.adminCreatedAt } ]

/-- Source: `sampleAppointments` in `initializeApp`. -/
def sampleAppointments (seed : SeedValues) : List Appointment :=
  [ { id := seed.appointment1Id
      doctorId := seed.doctor1Id
      patientId := seed.patientId
      date := seed.dateIn7Days
      time := "10:00"
      status := "confirmed"
      reason := "Regular checkup"
      createdAt := seed.appointment1CreatedAt },
    { id := seed.appointment2Id
      doctorId := seed.doctor2Id
      patientId := seed.patientId
      date := seed.dateIn14Days
      time := "14:30"
      status := "pending"
      reason := "Skin consultation"
      createdAt := seed.appointment2CreatedAt } ]

/-- Source: `initializeApp`; `newId` and `now` are the host values that
`updateAdminCredentials` takes when it creates the admin. -/
def initializeApp (seed : SeedValues) (newId now : String) (s : Store) : Store :=
  if !s.initialized then
    { s with
      users := some (sampleUsers seed)
      appointments := some (sampleAppointments seed)
      initialized := true }
  else updateAdminCredentials newId now s

/-- The branch taken by `handleLogin`. -/
inductive LoginOutcome where
  /-- The message `User not found`. -/
  | notFound
  /-- The message `Invalid password`. -/
  | invalidCredential
  /-- The message `Your account is pending approval by an administrator`. -/
  | pendingApproval
  /-- The message `Login successful!` -/
  | loggedIn (user : User)
deriving DecidableEq, Repr

/-- Source: `handleLogin`. -/
def handleLogin (s : Store) (email password : String) : LoginOutcome × Store :=
  match UserStorage.getByEmail s email with
  | none => (.notFound, s)
  | some user =>
    if user.passwordHash != hashPassword password then (.invalidCredential, s)
    else if user.role == "doctor" && !user.approved then (.pendingApproval, s)
    else (.loggedIn user, SessionStorage.setCurrentUser s user)

/-- The form fields read by `handleRegister`; the last three are read only when the
role is doctor. -/
structure RegisterForm where
  name : String
  email : String
  password : String
  role : String
  specialty : String := ""
  location : String := ""
  bio : String := ""
deriving DecidableEq, Repr

/-- The branch taken by `handleRegister`. -/
inductive RegisterOutcome where
  /-- The message `Please fill in all required fields`. -/
  | missingFields
  /-- The message `Password must be at least 6 characters long`. -/
  | passwordTooShort
  /-- The message `Admin registration is not allowed`. -/
  | adminNotAllowed
  /-- The message `User with this email already exists`. -/
  | emailExists
  /-- The message `Please fill in all doctor fields`. -/
  | missingDoctorFields
  /-- The messages `Registration successful!` -/
  | registered (newUser : User)
deriving DecidableEq, Repr

/-- Source: `handleRegister`; `password.length` counts UTF-16 code units. -/
def handleRegister (newId now : String) (s : Store) (form : RegisterForm) :
    RegisterOutcome × Store :=
  if form.name == "" || form.email == "" || form.password == "" || form.role == "" then
    (.missingFields, s)
  else if (utf16Units form.password).length < 6 then (.passwordTooShort, s)
  else if form.role == "admin" then (.adminNotAllowed, s)
  else if (UserStorage.getByEmail s form.email).isSome then (.emailExists, s)
  else
    let userData : UserData :=
      { name := form.name, email := form.email, password := form.password,
        role := form.role }
    if form.role == "doctor" then
      if form.specialty == "" || form.location == "" then (.missingDoctorFields, s)
      else
        let doctorData : UserData :=
          { userData with
            specialty := some form.specialty
            location := some form.location
            bio := some (if form.bio == "" then "" else form.bio) }
        let created := UserStorage.create newId now s doctorData
        (.registered created.1, created.2)
    else
      let created := UserStorage.create newId now s userData
      (.registered created.1, created.2)

/-- The branch taken by a handler that updates a stored user. -/
inductive UserOutcome where
  /-- The handler returned before any update: nobody is logged in, the dialog was
  dismissed, the input was turned down or the id does not resolve. -/
  | skipped
  /-- The success alert, `UserStorage.update` having returned the record. -/
  | updated (user : User)
  /-- The failure alert, `UserStorage.update` having returned `null`. -/
  | failed
deriving DecidableEq, Repr

/-- Source: `handleProfileUpdate` of doctor.js. -/
def handleProfileUpdate (s : Store) (bio specialty location : String) :
    UserOutcome × Store :=
  match getCurrentUser s with
  | none => (.skipped, s)
  | some currentUser =>
    match UserStorage.update s currentUser.id
        { bio := some (some bio), specialty := some (some specialty),
          location := some (some location) } with
    | (some updated, s1) => (.updated updated, SessionStorage.setCurrentUser s1 updated)
    | (none, s1) => (.failed, s1)

/-- The change that `toggleAvailability` makes to the array `currentUser.availability`:
the entry found by `findIndex` has its flag negated, and when there is none the entry
`{ day, time, available: true }` is pushed. In the specification this is `toggleSlot`. -/
def toggleSlot (availability : List Slot) (day time : String) : List Slot :=
  match findIndex (fun s => s.day == day && s.time == time) availability with
  | some slotIndex =>
    availability.modify (fun s => { s with available := !s.available }) slotIndex
  | none => availability ++ [{ day := day, time := time, available := true }]

/-- Source: `toggleAvailability`. The object `currentUser` is the copy returned by
`getCurrentUser()`; the handler changes its availability array and then only toggles a
class of the page element. It writes nothing to `localStorage`. The first component is
the local object as it is when the handler returns, `none` when it returned at once. -/
def toggleAvailability (s : Store) (day time : String) : Option User × Store :=
  match getCurrentUser s with
  | none => (none, s)
  | some currentUser =>
    match currentUser.availability with
    | none => (none, s)
    | some availability =>
      (some { currentUser with availability := some (toggleSlot availability day time) }, s)

/-- Source: `saveAvailability`. -/
def saveAvailability (s : Store) : UserOutcome × Store :=
  match getCurrentUser s with
  | none => (.skipped, s)
  | some currentUser =>
    match UserStorage.update s currentUser.id
        { availability := some currentUser.availability } with
    | (some updated, s1) => (.updated updated, SessionStorage.setCurrentUser s1 updated)
    | (none, s1) => (.failed, s1)

/-- Source: `approveDoctor` of admin.js. -/
def approveDoctor (s : Store) (doctorId : String) : UserOutcome × Store :=
  match UserStorage.update s doctorId { approved := some true } with
  | (some updated, s1) => (.updated updated, s1)
  | (none, s1) => (.failed, s1)

/-- Source: `rateDoctor` of patient.js; `numRating` is the value of
`parseFloat(prompt(...))`, `none` standing for `NaN`; an infinity is turned down as
every number outside 1 to 5 is. The numbers are doubles: the sum
`currentRating + numRating` is rounded to the nearest double, and so is its quotient
by 2; the comparisons are exact. -/
def rateDoctor (numRating : Option Rat) (s : Store) (doctorId : String) : Store :=
  match numRating with
  | none => s
  | some n =>
    if n < 1 ∨ n > 5 then s
    else
      match UserStorage.getById s doctorId with
      | none => s
      | some doctor =>
        let currentRating := doctor.rating.getD 0
        let newRating :=
          if currentRating > 0 then roundToDouble (roundToDouble (currentRating + n) / 2)
          else n
        (UserStorage.update s doctorId { rating := some (some newRating) }).2

/-- The method `includes` on code-unit sequences: `needle` occurs in `hay`. -/
def unitsInclude (hay needle : List Nat) : Bool :=
  hay.tails.any fun t => needle.isPrefixOf t

/-- The string method `s.includes(sub)`. -/
def includes (s sub : String) : Bool := unitsInclude (utf16Units s) (utf16Units sub)

namespace SearchUtils

/-- Source: `matchesQuery` in `searchDoctors`. The operands of `||` are evaluated from
the left until one is true; `none` is the `TypeError` raised by `toLowerCase` on a
specialty or location that the record lacks. -/
def matchesQuery (toLowerCase : String → String) (doctor : User) (query : String) :
    Option Bool :=
  if query == "" then some true
  else if includes (toLowerCase doctor.name) (toLowerCase query) then some true
  else
    match doctor.specialty with
    | none => none
    | some doctorSpecialty =>
      if includes (toLowerCase doctorSpecialty) (toLowerCase query) then some true
      else
        match doctor.location with
        | none => none
        | some doctorLocation =>
          some (includes (toLowerCase doctorLocation) (toLowerCase query))

/-- Source: `matchesSpecialty` in `searchDoctors`. -/
def matchesSpecialty (doctor : User) (specialty : String) : Bool :=
  specialty == "" || doctor.specialty == some specialty

/-- Source: `matchesLocation` in `searchDoctors`. -/
def matchesLocation (toLowerCase : String → String) (doctor : User) (location : String) :
    Option Bool :=
  if location == "" then some true
  else
    match doctor.location with
    | none => none
    | some doctorLocation =>
      some (includes (toLowerCase doctorLocation) (toLowerCase location))

/-- The callback that `searchDoctors` hands to `filter`: the three constants are
computed and joined by `&&`. -/
def matchesAll (toLowerCase : String → String) (query specialty location : String)
    (doctor : User) : Option Bool :=
  match matchesQuery toLowerCase doctor query with
  | none => none
  | some q =>
    match matchesLocation toLowerCase doctor location with
    | none => none
    | some l => some (q && matchesSpecialty doctor specialty && l)

/-- The array method `filter` with a callback that may throw: the first exception
ends the whole call. -/
def filterThrowing {α : Type} (p : α → Option Bool) : List α → Option (List α)
  | [] => some []
  | x :: xs =>
    match p x with
    | none => none
    | some b =>
      match filterThrowing p xs with
      | none => none
      | some rest => some (if b then x :: rest else rest)

/-- Source: `SearchUtils.searchDoctors`; `toLowerCase` is the string method of the
host, and `none` is an uncaught `TypeError`. -/
def searchDoctors (toLowerCase : String → String) (s : Store)
    (query specialty location : String) : Option (List User) :=
  let doctors := UserStorage.getApprovedDoctors s
  filterThrowing (matchesAll toLowerCase query specialty location) doctors

end SearchUtils

/-! ## Slot uniqueness -/

/-- An appointment occupies the triple `(doctorId, date, time)` when it carries that
triple and its status is not cancelled. -/
def occupies (doctorId date time : String) (apt : Appointment) : Bool :=
  apt.doctorId == doctorId && apt.date == date && apt.time == time &&
    apt.status != "cancelled"

/-- The non-cancelled appointments stored for the triple `(doctorId, date, time)`. -/
def occupants (appointments : List Appointment) (doctorId date time : String) :
    List Appointment :=
  appointments.filter (occupies doctorId date time)

/-- Slot uniqueness: every triple `(doctorId, date, time)` has at most one
non-cancelled appointment. -/
def SlotUnique (appointments : List Appointment) : Prop :=
  ∀ doctorId date time : String, (occupants appointments doctorId date time).length ≤ 1

/-- The three conditions under which a slot is available: the id resolves to a user
with an availability list, the list has an enabled entry for the weekday of `date`
and for `time`, and every stored appointment of the doctor at that date and time is
cancelled. -/
def SlotFree (weekdayOf : String → String) (s : Store) (doctorId date time : String) :
    Prop :=
  (∃ doctor availability,
      UserStorage.getById s doctorId = some doctor ∧
      doctor.availability = some availability ∧
      ∃ slot ∈ availability,
        slot.day = weekdayOf date ∧ slot.time = time ∧ slot.available = true) ∧
    ∀ apt ∈ AppointmentStorage.getAll s,
      apt.doctorId = doctorId → apt.date = date → apt.time = time →
        apt.status = "cancelled"

/-- The record written by a successful booking of `form` by `currentUser`. -/
def bookedAppointment (newId now : String) (currentUser : User) (form : BookingForm) :
    Appointment :=
  { id := newId
    doctorId := form.doctorId
    patientId := currentUser.id
    date := form.date
    time := form.time
    status := "pending"
    reason := if form.reason == "" then "General consultation" else form.reason
    createdAt := now }

/-- The record `{ ...appointment, status }` written by the status handlers. -/
def withStatus (appointment : Appointment) (status : String) : Appointment :=
  { appointment with status := status }

/-- The record `{ ...appointment, date: newDate, time: newTime, status: 'pending' }`
written by a successful reschedule. -/
def rescheduledAppointment (appointment : Appointment) (newDate newTime : String) :
    Appointment :=
  { appointment with date := newDate, time := newTime, status := "pending" }

/-- A handler is a direct overwrite of the status with `status`: on an id that
resolves to the record `a` it replaces that record, in place, by `a` with the new
status, every other record and the order staying as they were, and returns the new
record; on an id that does not resolve, `AppointmentStorage.update` returns `null`,
the handler reports failure and the store is unchanged. -/
def OverwritesStatus (handler : Store → String → StatusOutcome × Store)
    (status : String) : Prop :=
  ∀ (s : Store) (id : String),
    (∀ a, AppointmentStorage.getById s id = some a →
      ∃ l1 l2, AppointmentStorage.getAll s = l1 ++ a :: l2 ∧ (∀ y ∈ l1, y.id ≠ id) ∧
        handler s id =
          (.updated (withStatus a status),
            { s with appointments := some (l1 ++ withStatus a status :: l2) })) ∧
    (AppointmentStorage.getById s id = none →
      AppointmentStorage.update s id { status := some status } = (none, s) ∧
        handler s id = (.failed, s))

/-- The participant of an appointment for a role: the patientId when the role is
patient, the doctorId otherwise. -/
def participantId (role : String) (apt : Appointment) : String :=
  if role = "patient" then apt.patientId else apt.doctorId

/-- Upcoming, in the words of the specification: the appointments of which the user is
the participant, with `date >= today` and status other than cancelled. -/
def listUpcoming (today : String) (appointments : List Appointment)
    (userId role : String) : List Appointment :=
  appointments.filter fun apt =>
    decide (participantId role apt = userId ∧ strGe apt.date today = true ∧
      apt.status ≠ "cancelled")

/-- History, in the words of the specification: the appointments of which the user is
the participant, with `date < today` or status completed or cancelled. -/
def listHistory (today : String) (appointments : List Appointment)
    (userId role : String) : List Appointment :=
  appointments.filter fun apt =>
    decide (participantId role apt = userId ∧
      (strLt apt.date today = true ∨ apt.status = "completed" ∨ apt.status = "cancelled"))

/-- The id and the role of every stored user, in stored order. -/
def idsAndRoles (s : Store) : List (String × String) :=
  (UserStorage.getAll s).map fun user => (user.id, user.role)

/-- The users have pairwise distinct emails. -/
def EmailsUnique (users : List User) : Prop :=
  (users.map fun user => user.email).Nodup

/-- An availability list has at most one entry per `(day, time)`. -/
def SlotsUnique (availability : List Slot) : Prop :=
  (availability.map fun slot => (slot.day, slot.time)).Nodup

/-- The entry `slot` with its flag negated. -/
def flipped (slot : Slot) : Slot :=
  { slot with available := !slot.available }

/-- A registration form is valid when it passes the checks of `handleRegister` on the
fields themselves: name, email, password and role are filled in, the password has at
least six code units, and a doctor has a specialty and a location. -/
def ValidRegistration (form : RegisterForm) : Prop :=
  form.name ≠ "" ∧ form.email ≠ "" ∧ form.password ≠ "" ∧ form.role ≠ "" ∧
    6 ≤ (utf16Units form.password).length ∧
    (form.role = "doctor" → form.specialty ≠ "" ∧ form.location ≠ "")

/-- The object that `handleRegister` hands to `UserStorage.create`. -/
def registrationData (form : RegisterForm) : UserData :=
  if form.role = "doctor" then
    { name := form.name, email := form.email, password := form.password,
      role := form.role, specialty := some form.specialty,
      location := some form.location, bio := some form.bio }
  else
    { name := form.name, email := form.email, password := form.password,
      role := form.role }

/-- Case-insensitive substring: `sub` occurs in `text` once both are put in lower
case. -/
def containsIgnoringCase (toLowerCase : String → String) (text sub : String) : Bool :=
  includes (toLowerCase text) (toLowerCase sub)

/-- The three search predicates in the words of the specification, joined by and: the
query is empty or a case-insensitive substring of the name, the specialty or the
location; the specialty is empty or equal to that of the doctor; the location is
empty or a case-insensitive substring of that of the doctor. -/
def matchesSearch (toLowerCase : String → String) (query specialty location : String)
    (doctor : User) : Bool :=
  (query == "" || containsIgnoringCase toLowerCase doctor.name query ||
      doctor.specialty.any (fun text => containsIgnoringCase toLowerCase text query) ||
      doctor.location.any (fun text => containsIgnoringCase toLowerCase text query)) &&
    (specialty == "" || doctor.specialty == some specialty) &&
    (location == "" ||
      doctor.location.any (fun text => containsIgnoringCase toLowerCase text location))

/-- The sum over `i` of `charCode(p[i]) * 31 ^ (n - 1 - i)` for the code units of a
string of `n` code units: the head has the exponent that is the length of the tail. -/
def weightedSum : List Nat → Int
  | [] => 0
  | char :: rest => (char : Int) * 31 ^ rest.length + weightedSum rest

/-- The mean `(old + input) / 2` as double arithmetic gives it: the sum is rounded to
the nearest double, and so is its half. -/
def doubleMean (old input : Rat) : Rat :=
  roundToDouble (roundToDouble (old + input) / 2)

/-- The rating that an accepted call of `rateDoctor` writes: the mean, in double
arithmetic, of the current rating and the input when the current rating is above 0,
and the input itself when the current rating is 0 or the record has none. -/
def newRatingOf (doctor : User) (input : Rat) : Rat :=
  if doctor.rating.getD 0 > 0 then doubleMean (doctor.rating.getD 0) input else input

/-- Every stored rating lies between 0 and 5. -/
def RatingsInRange (users : List User) : Prop :=
  ∀ u ∈ users, ∀ r, u.rating = some r → 0 ≤ r ∧ r ≤ 5

/-- The templates are as the code writes them: every entry of a stored availability
list names a day of the week and carries a time. The code writes a template in
`UserStorage.create` and in the seed, both times the list of
`generateSampleAvailability`, and in `saveAvailability`, which stores the list of the
session copy of such a record. -/
def WellFormedTemplates (s : Store) : Prop :=
  ∀ user ∈ UserStorage.getAll s, ∀ slot ∈ user.availability.getD [],
    slot.day ∈ weekdayNames ∧ slot.time ≠ ""

instance (s : Store) : Decidable (WellFormedTemplates s) := by
  unfold WellFormedTemplates
  infer_instance

/-- The appointments are as the code writes them: every stored appointment carries a
date and a time. The code writes the date and the time of an appointment in
`handleBookingSubmission` and in `handleRescheduleSubmission`, both behind the check
`!date || !time`, and in the seed, with the date of `getDateString` and a fixed
time. -/
def WellFormedAppointments (s : Store) : Prop :=
  ∀ apt ∈ AppointmentStorage.getAll s, apt.date ≠ "" ∧ apt.time ≠ ""

instance (s : Store) : Decidable (WellFormedAppointments s) := by
  unfold WellFormedAppointments
  infer_instance

/-! ## Sample data for the worked examples -/

/-- Weekday names of the two dates used in the examples; any other string, not being
one of them, is given the name that the host gives to an unparsable date. -/
def sampleWeekdayOf (date : String) : String :=
  if date == "2030-01-07" then "monday"
  else if date == "2030-01-08" then "tuesday"
  else "invalid date"

/-- A doctor who receives on Mondays at 10:00 and Tuesdays at 09:00. -/
def sampleDoctor : User :=
  { id := "d1", name := "Sarah Wilson", email := "doctor@example.com",
    passwordHash := "0", role := "doctor", approved := true, createdAt := "t0",
    specialty := some "Cardiology", location := some "New York, NY",
    availability := some [⟨"monday", "10:00", true⟩, ⟨"tuesday", "09:00", true⟩] }

/-- A patient. -/
def samplePatient : User :=
  { id := "p1", name := "John Patient", email := "patient@example.com",
    passwordHash := "0", role := "patient", approved := true, createdAt := "t0" }

/-- A second patient. -/
def otherPatient : User :=
  { id := "p2", name := "Jane Patient", email := "jane@example.com",
    passwordHash := "0", role := "patient", approved := true, createdAt := "t0" }

/-- A store with the sample doctor and patients, no appointment, and the sample
patient logged in. -/
def sampleStore : Store :=
  { users := some [sampleDoctor, samplePatient, otherPatient]
    appointments := some []
    currentUser := some samplePatient
    initialized := true }

/-- A booking form for the sample doctor, Monday 2030-01-07 at 10:00. -/
def sampleForm : BookingForm :=
  { doctorId := "d1", date := "2030-01-07", time := "10:00", reason := "" }

/-- An appointment of the sample patient with the sample doctor on Monday 2030-01-07
at 10:00 that was cancelled. -/
def cancelledVisit : Appointment :=
  { id := "a1", doctorId := "d1", patientId := "p1", date := "2030-01-07",
    time := "10:00", status := "cancelled", reason := "Regular checkup",
    createdAt := "t1" }

/-- An appointment of the other patient booked into the slot that `cancelledVisit`
freed. -/
def laterVisit : Appointment :=
  { id := "a2", doctorId := "d1", patientId := "p2", date := "2030-01-07",
    time := "10:00", status := "pending", reason := "General consultation",
    createdAt := "t2" }

/-- The sample store after the sample patient booked and cancelled, and the other
patient booked the freed slot. -/
def reusedSlotStore : Store :=
  { sampleStore with appointments := some [cancelledVisit, laterVisit] }

/-- A reschedule form moving appointment `a2` to Tuesday 2030-01-08 at 09:00. -/
def sampleReschedule : RescheduleForm :=
  { appointmentId := "a2", newDate := "2030-01-08", newTime := "09:00" }

/-- A visit of the sample patient that took place, marked completed by the doctor. -/
def completedVisit : Appointment :=
  { id := "a0", doctorId := "d1", patientId := "p1", date := "2029-12-31",
    time := "10:00", status := "completed", reason := "Regular checkup",
    createdAt := "t0" }

/-- The sample store holding the completed visit only. -/
def completedVisitStore : Store :=
  { sampleStore with appointments := some [completedVisit] }

/-- A reschedule form moving appointment `a0` to Monday 2030-01-07 at 10:00. -/
def reopenForm : RescheduleForm :=
  { appointmentId := "a0", newDate := "2030-01-07", newTime := "10:00" }

/-- An appointment of the sample patient with the sample doctor on Monday 2030-01-07
at 10:00 that the doctor has approved. -/
def confirmedVisit : Appointment :=
  { id := "a5", doctorId := "d1", patientId := "p1", date := "2030-01-07",
    time := "10:00", status := "confirmed", reason := "Regular checkup",
    createdAt := "t5" }

/-- The sample store holding the confirmed visit only. -/
def confirmedVisitStore : Store :=
  { sampleStore with appointments := some [confirmedVisit] }

/-- The registration form of a new doctor. -/
def doctorForm : RegisterForm :=
  { name := "Emily Rodriguez", email := "emily@example.com", password := "password123",
    role := "doctor", specialty := "Pediatrics", location := "Chicago, IL",
    bio := "Pediatrician" }

/-- The registration form of a new patient. -/
def patientForm : RegisterForm :=
  { name := "Mary Major", email := "mary@example.com", password := "password123",
    role := "patient" }

/-- A registration form with the role admin. -/
def adminForm : RegisterForm :=
  { name := "Root", email := "root@example.com", password := "password123",
    role := "admin" }

/-- A registration form with the email of the sample patient. -/
def takenEmailForm : RegisterForm :=
  { name := "John Again", email := "patient@example.com", password := "password123",
    role := "patient" }

/-- A patient whose stored hash is that of the password `password123`. -/
def registeredPatient : User :=
  { id := "p7", name := "Mary Major", email := "mary@example.com",
    passwordHash := "1403730359", role := "patient", approved := true,
    createdAt := "t7" }

/-- A doctor with the same password who is not yet approved. -/
def pendingDoctor : User :=
  { id := "d7", name := "Emily Rodriguez", email := "emily@example.com",
    passwordHash := "1403730359", role := "doctor", approved := false,
    createdAt := "t7", specialty := some "Pediatrics", location := some "Chicago, IL",
    bio := some "Pediatrician", rating := some 0,
    availability := some generateSampleAvailability }

/-- A store with these two users and nobody logged in. -/
def loginStore : Store :=
  { users := some [registeredPatient, pendingDoctor]
    appointments := some []
    currentUser := none
    initialized := true }

/-- A lower-casing of the letters `A` to `Z`, which is what the host method does on
the strings of the examples. -/
def sampleToLowerCase (text : String) : String :=
  String.mk (text.toList.map Char.toLower)

/-- A store with the approved sample doctor, the unapproved doctor and a patient. -/
def searchStore : Store :=
  { users := some [sampleDoctor, pendingDoctor, samplePatient]
    appointments := some []
    currentUser := some samplePatient
    initialized := true }

/-- The sample store with the sample doctor logged in. -/
def doctorSessionStore : Store :=
  { sampleStore with currentUser := some sampleDoctor }

/-- The sample doctor as registration leaves a doctor: with the rating 0. -/
def freshDoctor : User :=
  { sampleDoctor with rating := some 0 }

/-- A store with that doctor and the sample patient. -/
def freshDoctorStore : Store :=
  { sampleStore with users := some [freshDoctor, samplePatient] }

/-- The sample doctor with the rating 4. -/
def ratedDoctor : User :=
  { sampleDoctor with rating := some 4 }

/-- A store with that doctor and the sample patient. -/
def ratedDoctorStore : Store :=
  { sampleStore with users := some [ratedDoctor, samplePatient] }

/-- Host values for a first run. -/
def sampleSeed : SeedValues :=
  { patientId := "s1", doctor1Id := "s2", doctor2Id := "s3", doctor3Id := "s4",
    adminId := "s5", appointment1Id := "s6", appointment2Id := "s7",
    patientCreatedAt := "t0", doctor1CreatedAt := "t0", doctor2CreatedAt := "t0",
    doctor3CreatedAt := "t0", adminCreatedAt := "t0", appointment1CreatedAt := "t0",
    appointment2CreatedAt := "t0", dateIn7Days := "2030-01-08",
    dateIn14Days := "2030-01-15" }

/-- An admin with the canonical email and a hash that is not the one of `Admin123`. -/
def staleAdmin : User :=
  { id := "adm", name := "Admin User", email := "admin@docbook.com",
    passwordHash := "0", role := "admin", approved := true, createdAt := "t0" }

/-- An initialized store holding that admin only. -/
def staleAdminStore : Store :=
  { users := some [staleAdmin]
    appointments := some []
    currentUser := none
    initialized := true }

/-- An admin with the email of an earlier seed. -/
def oldAdmin : User :=
  { id := "adm", name := "Admin User", email := "admin@example.com",
    passwordHash := "-904517469", role := "admin", approved := true, createdAt := "t0" }

/-- An initialized store in which a patient carries the id of the admin and comes
first. -/
def sharedIdStore : Store :=
  { users := some [{ samplePatient with id := "adm" }, oldAdmin]
    appointments := some []
    currentUser := none
    initialized := true }

/-- A patient registered with the email `admin@docbook.com`, which the registration
accepts when no stored user holds it. -/
def squatter : User :=
  { id := "p9", name := "Sam Squatter", email := "admin@docbook.com",
    passwordHash := "1403730359", role := "patient", approved := true,
    createdAt := "t9" }

/-- An initialized store with the admin of an earlier seed and that patient. -/
def oldAdminStore : Store :=
  { users := some [oldAdmin, squatter]
    appointments := some []
    currentUser := none
    initialized := true }

/-- A reschedule form moving the cancelled appointment `a1` to Tuesday 2030-01-08 at
09:00. -/
def reviveForm : RescheduleForm :=
  { appointmentId := "a1", newDate := "2030-01-08", newTime := "09:00" }

/-- The sample store holding the pending appointment `a2` only. -/
def pendingVisitStore : Store :=
  { sampleStore with appointments := some [laterVisit] }

/-- The store of a browser in which the page was never opened: no key is written. -/
def emptyStore : Store :=
  { users := none, appointments := none, currentUser := none, initialized := false }

/-- Host values for a first run on Monday 2029-12-31: the dates that `getDateString`
gives for seven and for fourteen days later are Mondays. -/
def mondaySeed : SeedValues :=
  { sampleSeed with dateIn7Days := "2030-01-07", dateIn14Days := "2030-01-14" }

/-- The store after that first run. -/
def firstRunStore : Store := initializeApp mondaySeed "n1" "t1" emptyStore

/-- The appointment of the seed with Dr. Wilson, on Monday 2030-01-07 at 10:00. -/
def seededVisit : Appointment :=
  { id := "s6", doctorId := "s2", patientId := "s1", date := "2030-01-07",
    time := "10:00", status := "confirmed", reason := "Regular checkup",
    createdAt := "t0" }

/-- The offset of the local time of America/New_York from UTC in January, in minutes:
five hours behind. -/
def newYorkOffset : Int := -300

/-- The store after that first run and the login of the seeded patient. -/
def patientSessionStore : Store :=
  (handleLogin firstRunStore "patient@example.com" "password123").2

/-- The booking form of the seeded patient for Dr. Wilson, Monday 2030-01-07 at
10:00. -/
def mondayForm : BookingForm :=
  { doctorId := "s2", date := "2030-01-07", time := "10:00", reason := "" }

/-! ## Lemmas on the array primitives -/

theorem findIndex_eq_none {α : Type} (p : α → Bool) (l : List α) :
    findIndex p l = none ↔ ∀ x ∈ l, p x = false := by
  induction l with
  | nil => simp [findIndex]
  | cons x xs ih =>
    by_cases hx : p x = true
    · simp [findIndex, hx]
    · simp only [Bool.not_eq_true] at hx
      simp [findIndex, hx, ih]

theorem findIndex_eq_some {α : Type} (p : α → Bool) (l : List α) (i : Nat)
    (h : findIndex p l = some i) :
    ∃ l1 x l2, l = l1 ++ x :: l2 ∧ l1.length = i ∧ p x = true ∧ ∀ y ∈ l1, p y = false := by
  induction l generalizing i with
  | nil => simp [findIndex] at h
  | cons a as ih =>
    by_cases ha : p a = true
    · simp only [findIndex, ha, if_true, Option.some.injEq] at h
      exact ⟨[], a, as, by simp, by simpa using h, ha, by simp⟩
    · simp only [Bool.not_eq_true] at ha
      cases hfi : findIndex p as with
      | none => simp [findIndex, ha, hfi] at h
      | some j =>
        simp only [findIndex, ha, hfi, Bool.false_eq_true, if_false, Option.map_some',
          Option.some.injEq] at h
        obtain ⟨l1, x, l2, hl, hlen, hx, hall⟩ := ih j hfi
        refine ⟨a :: l1, x, l2, by simp [hl], by simp [hlen, h], hx, ?_⟩
        intro y hy
        rcases List.mem_cons.mp hy with rfl | hy
        · exact ha
        · exact hall y hy

theorem modify_append_cons {α : Type} (f : α → α) (l1 : List α) (x : α) (l2 : List α) :
    (l1 ++ x :: l2).modify f l1.length = l1 ++ f x :: l2 := by
  induction l1 with
  | nil => rfl
  | cons a as ih => simpa using ih

theorem find_append_cons {α : Type} (p : α → Bool) (l1 : List α) (x : α) (l2 : List α)
    (hx : p x = true) (hall : ∀ y ∈ l1, p y = false) :
    (l1 ++ x :: l2).find? p = some x := by
  induction l1 with
  | nil => simp [hx]
  | cons a as ih =>
    have ha : p a = false := hall a (by simp)
    simp only [List.cons_append, List.find?_cons, ha]
    exact ih fun y hy => hall y (by simp [hy])

theorem findIndex_append_cons {α : Type} (p : α → Bool) (l1 : List α) (x : α)
    (l2 : List α) (hx : p x = true) (hall : ∀ y ∈ l1, p y = false) :
    findIndex p (l1 ++ x :: l2) = some l1.length := by
  induction l1 with
  | nil => simp [findIndex, hx]
  | cons a as ih =>
    have ha : p a = false := hall a (by simp)
    have := ih fun y hy => hall y (by simp [hy])
    simp [findIndex, ha, this]

theorem getElem?_append_cons_length {α : Type} (l1 : List α) (x : α) (l2 : List α) :
    (l1 ++ x :: l2)[l1.length]? = some x := by
  induction l1 with
  | nil => simp
  | cons a as ih => simpa using ih

/-! ## Lemmas on the appointment repository -/

theorem getById_split (s : Store) (id : String) (a : Appointment)
    (h : AppointmentStorage.getById s id = some a) :
    ∃ l1 l2, AppointmentStorage.getAll s = l1 ++ a :: l2 ∧ a.id = id ∧
      ∀ y ∈ l1, y.id ≠ id := by
  unfold AppointmentStorage.getById at h
  obtain ⟨ha, l1, l2, hl, hall⟩ := List.find?_eq_some.mp h
  refine ⟨l1, l2, hl, by simpa using ha, ?_⟩
  intro y hy
  simpa using hall y hy

theorem getById_of_split (s : Store) (id : String) (a : Appointment)
    (l1 l2 : List Appointment) (hl : AppointmentStorage.getAll s = l1 ++ a :: l2)
    (ha : a.id = id) (hall : ∀ y ∈ l1, y.id ≠ id) :
    AppointmentStorage.getById s id = some a := by
  unfold AppointmentStorage.getById
  rw [hl]
  exact find_append_cons _ l1 a l2 (by simp [ha]) (fun y hy => by simpa using hall y hy)

theorem getById_eq_none (s : Store) (id : String) :
    AppointmentStorage.getById s id = none ↔
      ∀ y ∈ AppointmentStorage.getAll s, y.id ≠ id := by
  unfold AppointmentStorage.getById
  simp [List.find?_eq_none]

theorem update_of_split (s : Store) (id : String) (updates : AppointmentUpdates)
    (a : Appointment) (l1 l2 : List Appointment)
    (hl : AppointmentStorage.getAll s = l1 ++ a :: l2)
    (ha : a.id = id) (hall : ∀ y ∈ l1, y.id ≠ id) :
    AppointmentStorage.update s id updates =
      (some (AppointmentStorage.merge a updates),
        { s with appointments := some (l1 ++ AppointmentStorage.merge a updates :: l2) }) := by
  have hidx : findIndex (fun apt : Appointment => apt.id == id) (l1 ++ a :: l2)
      = some l1.length :=
    findIndex_append_cons _ l1 a l2 (by simp [ha]) (fun y hy => by simpa using hall y hy)
  unfold AppointmentStorage.update
  simp only [hl, hidx, modify_append_cons, getElem?_append_cons_length]

theorem update_of_getById_none (s : Store) (id : String) (updates : AppointmentUpdates)
    (h : AppointmentStorage.getById s id = none) :
    AppointmentStorage.update s id updates = (none, s) := by
  have hnone : findIndex (fun apt : Appointment => apt.id == id)
      (AppointmentStorage.getAll s) = none := by
    rw [findIndex_eq_none]
    intro x hx
    simpa using (getById_eq_none s id).mp h x hx
  unfold AppointmentStorage.update
  simp only [hnone]

/-- Every run of `AppointmentStorage.update` is one of two: the id does not resolve
and nothing is written, or the first record carrying the id is replaced in place by
its merge with the updates. -/
theorem update_cases (s : Store) (id : String) (updates : AppointmentUpdates) :
    (AppointmentStorage.getById s id = none ∧
      AppointmentStorage.update s id updates = (none, s)) ∨
    ∃ a l1 l2, AppointmentStorage.getById s id = some a ∧
      AppointmentStorage.getAll s = l1 ++ a :: l2 ∧ a.id = id ∧ (∀ y ∈ l1, y.id ≠ id) ∧
      AppointmentStorage.update s id updates =
        (some (AppointmentStorage.merge a updates),
          { s with appointments := some (l1 ++ AppointmentStorage.merge a updates :: l2) }) := by
  cases h : AppointmentStorage.getById s id with
  | none => exact Or.inl ⟨rfl, update_of_getById_none s id updates h⟩
  | some a =>
    obtain ⟨l1, l2, hl, ha, hall⟩ := getById_split s id a h
    exact Or.inr ⟨a, l1, l2, rfl, hl, ha, hall, update_of_split s id updates a l1 l2 hl ha hall⟩

/-! ## Availability -/

theorem isSlotAvailable_eq_true_iff (weekdayOf : String → String) (s : Store)
    (doctorId date time : String) :
    isSlotAvailable weekdayOf s doctorId date time = true ↔
      SlotFree weekdayOf s doctorId date time := by
  unfold SlotFree
  unfold isSlotAvailable
  cases hd : UserStorage.getById s doctorId with
  | none => simp
  | some doctor =>
    cases hav : doctor.availability with
    | none => simp [hav]
    | some availability =>
      simp only [Option.some.injEq, exists_and_left, exists_eq_left', hav]
      by_cases hany : availability.any (fun slot =>
          slot.day == weekdayOf date && slot.time == time && slot.available) = true
      · have hex : ∃ slot ∈ availability,
            slot.day = weekdayOf date ∧ slot.time = time ∧ slot.available = true := by
          obtain ⟨slot, hmem, hp⟩ := List.any_eq_true.mp hany
          exact ⟨slot, hmem, by simpa [and_assoc] using hp⟩
        simp only [hany, Bool.not_true, Bool.false_eq_true, if_false, Bool.not_eq_true']
        rw [List.any_eq_false]
        constructor
        · intro h
          refine ⟨hex, ?_⟩
          intro apt hapt h1 h2 h3
          have hmem : apt ∈ AppointmentStorage.getByDoctor s doctorId := by
            simp [AppointmentStorage.getByDoctor, hapt, h1]
          have := h apt hmem
          simpa [h2, h3] using this
        · rintro ⟨_, h⟩ apt hapt
          simp only [AppointmentStorage.getByDoctor, List.mem_filter, beq_iff_eq] at hapt
          intro hp
          simp only [Bool.and_eq_true, beq_iff_eq, bne_iff_ne, ne_eq] at hp
          exact hp.2 (h apt hapt.1 hapt.2 hp.1.1 hp.1.2)
      · have hnex : ¬ ∃ slot ∈ availability,
            slot.day = weekdayOf date ∧ slot.time = time ∧ slot.available = true := by
          rintro ⟨slot, hmem, h1, h2, h3⟩
          exact hany (List.any_eq_true.mpr ⟨slot, hmem, by simp [h1, h2, h3]⟩)
        simp only [Bool.not_eq_true] at hany
        simp [hany, hnex]

/-- The result of `isSlotAvailable(doctorId, date, time)` in terms of the day name
`weekdayOf date` that the host computes, whichever it is: the result is true exactly
when (1) the id resolves to a stored user that has an availability list, (2) that list
has an entry whose day is that name, whose time is `time` and whose flag is true, and
(3) every stored appointment with that doctorId, that date and that time has status
cancelled; in every other case it is false. -/
theorem isSlotAvailable_characterisation (weekdayOf : String → String) (s : Store)
    (doctorId date time : String) :
    (isSlotAvailable weekdayOf s doctorId date time = true ↔
      (∃ doctor availability,
          UserStorage.getById s doctorId = some doctor ∧
          doctor.availability = some availability ∧
          ∃ slot ∈ availability,
            slot.day = weekdayOf date ∧ slot.time = time ∧ slot.available = true) ∧
        ∀ apt ∈ AppointmentStorage.getAll s,
          apt.doctorId = doctorId → apt.date = date → apt.time = time →
            apt.status = "cancelled") ∧
    (isSlotAvailable weekdayOf s doctorId date time = false ↔
      ¬ ((∃ doctor availability,
          UserStorage.getById s doctorId = some doctor ∧
          doctor.availability = some availability ∧
          ∃ slot ∈ availability,
            slot.day = weekdayOf date ∧ slot.time = time ∧ slot.available = true) ∧
        ∀ apt ∈ AppointmentStorage.getAll s,
          apt.doctorId = doctorId → apt.date = date → apt.time = time →
            apt.status = "cancelled")) := by
  have key := isSlotAvailable_eq_true_iff weekdayOf s doctorId date time
  unfold SlotFree at key
  refine ⟨key, ?_⟩
  rw [← key]
  simp

/-! ## Booking -/

theorem handleBooking_of_free (weekdayOf : String → String) (newId now : String)
    (s : Store) (form : BookingForm) (currentUser : User)
    (hUser : getCurrentUser s = some currentUser) (hDate : form.date ≠ "")
    (hTime : form.time ≠ "")
    (hFree : isSlotAvailable weekdayOf s form.doctorId form.date form.time = true) :
    handleBookingSubmission weekdayOf newId now s form =
      (.booked (bookedAppointment newId now currentUser form),
        { s with appointments := some (AppointmentStorage.getAll s ++
            [bookedAppointment newId now currentUser form]) }) := by
  simp [handleBookingSubmission, hUser, hDate, hTime, hFree, AppointmentStorage.create,
    bookedAppointment]

theorem handleBooking_of_taken (weekdayOf : String → String) (newId now : String)
    (s : Store) (form : BookingForm) (currentUser : User)
    (hUser : getCurrentUser s = some currentUser) (hDate : form.date ≠ "")
    (hTime : form.time ≠ "")
    (hTaken : isSlotAvailable weekdayOf s form.doctorId form.date form.time = false) :
    handleBookingSubmission weekdayOf newId now s form = (.slotUnavailable, s) := by
  simp [handleBookingSubmission, hUser, hDate, hTime, hTaken]

/-- A run of `handleBookingSubmission` either writes nothing and reports no booking, or
it had a logged-in user, a date, a time and a free slot and appended the new record. -/
theorem handleBooking_cases (weekdayOf : String → String) (newId now : String)
    (s : Store) (form : BookingForm) :
    ((handleBookingSubmission weekdayOf newId now s form).2 = s ∧
      ∀ apt, (handleBookingSubmission weekdayOf newId now s form).1 ≠ .booked apt) ∨
    ∃ currentUser, getCurrentUser s = some currentUser ∧ form.date ≠ "" ∧
      form.time ≠ "" ∧
      isSlotAvailable weekdayOf s form.doctorId form.date form.time = true ∧
      handleBookingSubmission weekdayOf newId now s form =
        (.booked (bookedAppointment newId now currentUser form),
          { s with appointments := some (AppointmentStorage.getAll s ++
              [bookedAppointment newId now currentUser form]) }) := by
  cases hUser : getCurrentUser s with
  | none => left; simp [handleBookingSubmission, hUser]
  | some currentUser =>
    by_cases hDate : form.date = ""
    · left; simp [handleBookingSubmission, hUser, hDate]
    by_cases hTime : form.time = ""
    · left; simp [handleBookingSubmission, hUser, hTime]
    cases hFree : isSlotAvailable weekdayOf s form.doctorId form.date form.time with
    | false =>
      left
      rw [handleBooking_of_taken weekdayOf newId now s form currentUser hUser hDate hTime
        hFree]
      simp
    | true =>
      right
      exact ⟨currentUser, rfl, hDate, hTime, rfl,
        handleBooking_of_free weekdayOf newId now s form currentUser hUser hDate hTime hFree⟩

/-- C2. If a booking of `(doctorId, date, time)` succeeds, a booking of the same
triple made next, by whichever user is then logged in and with whatever reason, is
rejected as slot-unavailable and leaves the store, hence the appointments
collection, unchanged. -/
theorem double_booking_rejected (weekdayOf : String → String)
    (newId now newId2 now2 : String) (s s1 : Store) (form : BookingForm)
    (apt : Appointment) (nextUser : User) (reason2 : String)
    (hBooked : handleBookingSubmission weekdayOf newId now s form = (.booked apt, s1)) :
    handleBookingSubmission weekdayOf newId2 now2 { s1 with currentUser := some nextUser }
        { form with reason := reason2 } =
      (.slotUnavailable, { s1 with currentUser := some nextUser }) ∧
    AppointmentStorage.getAll
        (handleBookingSubmission weekdayOf newId2 now2
          { s1 with currentUser := some nextUser } { form with reason := reason2 }).2 =
      AppointmentStorage.getAll s1 := by
  rcases handleBooking_cases weekdayOf newId now s form with h | ⟨u, hUser, hDate, hTime, hFree, h⟩
  · rw [hBooked] at h
    exact absurd rfl (h.2 apt)
  · rw [hBooked] at h
    simp only [Prod.mk.injEq, BookingOutcome.booked.injEq] at h
    obtain ⟨hapt, hs1⟩ := h
    have hTaken : isSlotAvailable weekdayOf { s1 with currentUser := some nextUser }
        form.doctorId form.date form.time = false := by
      rw [← Bool.not_eq_true, isSlotAvailable_eq_true_iff]
      rintro ⟨_, hall⟩
      have hmem : apt ∈ AppointmentStorage.getAll { s1 with currentUser := some nextUser } := by
        rw [hs1]
        simp [AppointmentStorage.getAll, hapt]
      have := hall apt hmem (by rw [hapt]; rfl) (by rw [hapt]; rfl) (by rw [hapt]; rfl)
      rw [hapt] at this
      simp [bookedAppointment] at this
    have hrun := handleBooking_of_taken weekdayOf newId2 now2
      { s1 with currentUser := some nextUser } { form with reason := reason2 } nextUser rfl
      hDate hTime hTaken
    rw [hrun]
    exact ⟨rfl, rfl⟩

/-- The sample booking succeeds, and the same slot requested next by the other
patient is rejected. -/
theorem double_booking_rejected_witness :
    handleBookingSubmission sampleWeekdayOf "a1" "t1" sampleStore sampleForm =
        (.booked (bookedAppointment "a1" "t1" samplePatient sampleForm),
          { sampleStore with
            appointments := some [bookedAppointment "a1" "t1" samplePatient sampleForm] }) ∧
      (handleBookingSubmission sampleWeekdayOf "a2" "t2"
          { sampleStore with
            appointments := some [bookedAppointment "a1" "t1" samplePatient sampleForm]
            currentUser := some otherPatient }
          { sampleForm with reason := "second opinion" } =
        (.slotUnavailable,
          { sampleStore with
            appointments := some [bookedAppointment "a1" "t1" samplePatient sampleForm]
            currentUser := some otherPatient }) ∧
      AppointmentStorage.getAll
          (handleBookingSubmission sampleWeekdayOf "a2" "t2"
            { sampleStore with
              appointments := some [bookedAppointment "a1" "t1" samplePatient sampleForm]
              currentUser := some otherPatient }
            { sampleForm with reason := "second opinion" }).2 =
        AppointmentStorage.getAll
          { sampleStore with
            appointments := some [bookedAppointment "a1" "t1" samplePatient sampleForm] }) :=
  ⟨by decide,
    double_booking_rejected sampleWeekdayOf "a1" "t1" "a2" "t2" sampleStore
      { sampleStore with
        appointments := some [bookedAppointment "a1" "t1" samplePatient sampleForm] }
      sampleForm (bookedAppointment "a1" "t1" samplePatient sampleForm) otherPatient
      "second opinion" (by decide)⟩

/-! ## Deleting a user -/

/-- C5. After `UserStorage.delete(id)` the appointments collection is the previous one
without the appointments whose doctorId or patientId is `id`, the others kept as they
were and in the same order, and the users collection is the previous one without the
users whose id is `id`, the others kept as they were and in the same order. -/
theorem delete_user_cascade (s : Store) (id : String) :
    AppointmentStorage.getAll (UserStorage.delete s id) =
        (AppointmentStorage.getAll s).filter
          (fun apt => decide (¬ (apt.doctorId = id ∨ apt.patientId = id))) ∧
      UserStorage.getAll (UserStorage.delete s id) =
        (UserStorage.getAll s).filter (fun user => decide (user.id ≠ id)) ∧
      (∀ apt, apt ∈ AppointmentStorage.getAll (UserStorage.delete s id) ↔
        apt ∈ AppointmentStorage.getAll s ∧ apt.doctorId ≠ id ∧ apt.patientId ≠ id) ∧
      (∀ user, user ∈ UserStorage.getAll (UserStorage.delete s id) ↔
        user ∈ UserStorage.getAll s ∧ user.id ≠ id) ∧
      (AppointmentStorage.getAll (UserStorage.delete s id)).Sublist
        (AppointmentStorage.getAll s) ∧
      (UserStorage.getAll (UserStorage.delete s id)).Sublist (UserStorage.getAll s) ∧
      (UserStorage.delete s id).currentUser = s.currentUser := by
  have hA : AppointmentStorage.getAll (UserStorage.delete s id) =
      (AppointmentStorage.getAll s).filter
        (fun apt => decide (¬ (apt.doctorId = id ∨ apt.patientId = id))) := by
    simp only [UserStorage.delete, AppointmentStorage.getAll]
    congr 1
    funext apt
    by_cases h1 : apt.doctorId = id <;> by_cases h2 : apt.patientId = id <;> simp [h1, h2]
  have hU : UserStorage.getAll (UserStorage.delete s id) =
      (UserStorage.getAll s).filter (fun user => decide (user.id ≠ id)) := by
    simp only [UserStorage.delete, UserStorage.getAll]
    congr 1
    funext user
    by_cases h1 : user.id = id <;> simp [h1]
  refine ⟨hA, hU, ?_, ?_, ?_, ?_, rfl⟩
  · intro apt
    rw [hA]
    simp [not_or]
  · intro user
    rw [hU]
    simp
  · rw [hA]
    exact List.filter_sublist _
  · rw [hU]
    exact List.filter_sublist _

/-! ## Slot uniqueness -/

theorem occupies_eq_true (doctorId date time : String) (apt : Appointment) :
    occupies doctorId date time apt = true ↔
      apt.doctorId = doctorId ∧ apt.date = date ∧ apt.time = time ∧
        apt.status ≠ "cancelled" := by
  simp [occupies, and_assoc]

theorem occupants_length_split (l1 l2 : List Appointment) (a : Appointment)
    (doctorId date time : String) :
    (occupants (l1 ++ a :: l2) doctorId date time).length =
      (occupants l1 doctorId date time).length +
        (if occupies doctorId date time a = true then 1 else 0) +
        (occupants l2 doctorId date time).length := by
  unfold occupants
  rw [List.filter_append, List.filter_cons, List.length_append]
  cases hc : occupies doctorId date time a
  · simp
  · simp
    omega

theorem occupants_eq_nil_iff (l : List Appointment) (doctorId date time : String) :
    occupants l doctorId date time = [] ↔
      ∀ apt ∈ l, apt.doctorId = doctorId → apt.date = date → apt.time = time →
        apt.status = "cancelled" := by
  unfold occupants
  rw [List.filter_eq_nil_iff]
  constructor
  · intro h apt hapt h1 h2 h3
    by_contra h4
    exact h apt hapt ((occupies_eq_true _ _ _ _).mpr ⟨h1, h2, h3, h4⟩)
  · intro h apt hapt hocc
    obtain ⟨h1, h2, h3, h4⟩ := (occupies_eq_true _ _ _ _).mp hocc
    exact h4 (h apt hapt h1 h2 h3)

theorem occupants_eq_nil_of_available (weekdayOf : String → String) (s : Store)
    (doctorId date time : String)
    (h : isSlotAvailable weekdayOf s doctorId date time = true) :
    occupants (AppointmentStorage.getAll s) doctorId date time = [] :=
  (occupants_eq_nil_iff _ _ _ _).mpr ((isSlotAvailable_eq_true_iff _ _ _ _ _).mp h).2

/-- Replacing one record keeps slot uniqueness when the new record only occupies a
triple that the old record occupied or that nobody occupied. -/
theorem slotUnique_replace (l1 l2 : List Appointment) (a a1 : Appointment)
    (h : SlotUnique (l1 ++ a :: l2))
    (hocc : ∀ doctorId date time, occupies doctorId date time a1 = true →
      occupies doctorId date time a = true ∨
        occupants (l1 ++ a :: l2) doctorId date time = []) :
    SlotUnique (l1 ++ a1 :: l2) := by
  intro doctorId date time
  have hold := h doctorId date time
  rw [occupants_length_split] at hold ⊢
  by_cases h1 : occupies doctorId date time a1 = true
  · rcases hocc doctorId date time h1 with h2 | h2
    · simpa [h1, h2] using hold
    · have hlen := congrArg List.length h2
      rw [occupants_length_split] at hlen
      simp only [List.length_nil] at hlen
      simp only [h1, if_true]
      omega
  · rw [if_neg h1]
    split at hold <;> omega

/-- Appending a record whose triple nobody occupies keeps slot uniqueness. -/
theorem slotUnique_append (l : List Appointment) (a : Appointment) (h : SlotUnique l)
    (hfree : occupants l a.doctorId a.date a.time = []) : SlotUnique (l ++ [a]) := by
  intro doctorId date time
  have hold := h doctorId date time
  rw [occupants_length_split]
  by_cases h1 : occupies doctorId date time a = true
  · obtain ⟨rfl, rfl, rfl, _⟩ := (occupies_eq_true _ _ _ _).mp h1
    rw [hfree]
    simp [occupants, h1]
  · rw [if_neg h1]
    simp only [occupants, List.filter_nil, List.length_nil]
    exact hold

/-- Removing records keeps slot uniqueness. -/
theorem slotUnique_filter (l : List Appointment) (p : Appointment → Bool)
    (h : SlotUnique l) : SlotUnique (l.filter p) := by
  intro doctorId date time
  refine Nat.le_trans ?_ (h doctorId date time)
  unfold occupants
  exact ((List.filter_sublist l).filter _).length_le

/-- Overwriting the status of the first record with a given id keeps slot uniqueness
when the new status is cancelled or the old one was not. -/
theorem update_status_preserves (s : Store) (id status : String)
    (h : SlotUnique (AppointmentStorage.getAll s))
    (hstatus : status = "cancelled" ∨
      ∀ a, AppointmentStorage.getById s id = some a → a.status ≠ "cancelled") :
    SlotUnique (AppointmentStorage.getAll
      (statusResult (AppointmentStorage.update s id { status := some status })).2) := by
  rcases update_cases s id { status := some status } with ⟨_, hu⟩ | ⟨a, l1, l2, hget, hl, _, _, hu⟩
  · rw [hu]
    exact h
  · rw [hu]
    rw [hl] at h
    show SlotUnique (l1 ++ AppointmentStorage.merge a { status := some status } :: l2)
    apply slotUnique_replace l1 l2 a _ h
    intro doctorId date time hocc
    obtain ⟨h1, h2, h3, h4⟩ := (occupies_eq_true _ _ _ _).mp hocc
    rcases hstatus with hc | hc
    · exact absurd hc h4
    · exact Or.inl ((occupies_eq_true _ _ _ _).mpr ⟨h1, h2, h3, hc a hget⟩)

theorem booking_preserves (weekdayOf : String → String) (newId now : String) (s : Store)
    (form : BookingForm) (h : SlotUnique (AppointmentStorage.getAll s)) :
    SlotUnique (AppointmentStorage.getAll
      (handleBookingSubmission weekdayOf newId now s form).2) := by
  rcases handleBooking_cases weekdayOf newId now s form with hs | ⟨u, _, _, _, hFree, hrun⟩
  · rw [hs.1]
    exact h
  · rw [hrun]
    exact slotUnique_append _ _ h
      (occupants_eq_nil_of_available weekdayOf s form.doctorId form.date form.time hFree)

/-- A run of `handleRescheduleSubmission` either writes nothing, or it had a date, a
time, an id that resolves and a free slot, and replaced the first record carrying
the id by the rescheduled record. -/
theorem handleReschedule_cases (weekdayOf : String → String) (s : Store)
    (form : RescheduleForm) :
    ((handleRescheduleSubmission weekdayOf s form).2 = s ∧
      ∀ a, (handleRescheduleSubmission weekdayOf s form).1 ≠ .rescheduled a) ∨
    ∃ a l1 l2, AppointmentStorage.getById s form.appointmentId = some a ∧
      AppointmentStorage.getAll s = l1 ++ a :: l2 ∧
      (∀ y ∈ l1, y.id ≠ form.appointmentId) ∧
      form.newDate ≠ "" ∧ form.newTime ≠ "" ∧
      isSlotAvailable weekdayOf s a.doctorId form.newDate form.newTime = true ∧
      handleRescheduleSubmission weekdayOf s form =
        (.rescheduled (rescheduledAppointment a form.newDate form.newTime),
          { s with
            appointments :=
              some (l1 ++ rescheduledAppointment a form.newDate form.newTime :: l2) }) := by
  by_cases hDate : form.newDate = ""
  · left; simp [handleRescheduleSubmission, hDate]
  by_cases hTime : form.newTime = ""
  · left; simp [handleRescheduleSubmission, hTime]
  cases hget : AppointmentStorage.getById s form.appointmentId with
  | none => left; simp [handleRescheduleSubmission, hDate, hTime, hget]
  | some a =>
    cases hFree : isSlotAvailable weekdayOf s a.doctorId form.newDate form.newTime with
    | false => left; simp [handleRescheduleSubmission, hDate, hTime, hget, hFree]
    | true =>
      right
      obtain ⟨l1, l2, hl, ha, hall⟩ := getById_split s form.appointmentId a hget
      refine ⟨a, l1, l2, rfl, hl, hall, hDate, hTime, hFree, ?_⟩
      have hu := update_of_split s form.appointmentId
        { date := some form.newDate, time := some form.newTime, status := some "pending" }
        a l1 l2 hl ha hall
      simp [handleRescheduleSubmission, hDate, hTime, hget, hFree, hu,
        AppointmentStorage.merge, rescheduledAppointment]

theorem reschedule_preserves (weekdayOf : String → String) (s : Store)
    (form : RescheduleForm) (h : SlotUnique (AppointmentStorage.getAll s)) :
    SlotUnique (AppointmentStorage.getAll
      (handleRescheduleSubmission weekdayOf s form).2) := by
  rcases handleReschedule_cases weekdayOf s form with
    hs | ⟨a, l1, l2, _, hl, _, _, _, hFree, hrun⟩
  · rw [hs.1]
    exact h
  · rw [hrun]
    show SlotUnique (l1 ++ rescheduledAppointment a form.newDate form.newTime :: l2)
    have hnil := occupants_eq_nil_of_available weekdayOf s a.doctorId form.newDate
      form.newTime hFree
    rw [hl] at h hnil
    apply slotUnique_replace l1 l2 a _ h
    intro doctorId date time hocc
    obtain ⟨h1, h2, h3, _⟩ := (occupies_eq_true _ _ _ _).mp hocc
    right
    have e1 : doctorId = a.doctorId := h1.symm
    have e2 : date = form.newDate := h2.symm
    have e3 : time = form.newTime := h3.symm
    rw [e1, e2, e3]
    exact hnil

theorem reusedSlotStore_unique : SlotUnique (AppointmentStorage.getAll reusedSlotStore) := by
  intro doctorId date time
  show (occupants [cancelledVisit, laterVisit] doctorId date time).length ≤ 1
  have hc : occupies doctorId date time cancelledVisit = false := by
    simp [occupies, cancelledVisit]
  simp only [occupants, List.filter_cons, hc, Bool.false_eq_true, if_false, List.filter_nil]
  split <;> simp

/-- C3. From a store in which every `(doctorId, date, time)` has at most one
non-cancelled appointment, the store left by `handleBookingSubmission` and the store
left by `handleRescheduleSubmission`, whether the request succeeds or is rejected,
again have at most one non-cancelled appointment per triple. Distinct appointment
ids are not needed. -/
theorem booking_and_reschedule_keep_slots_unique (weekdayOf : String → String)
    (newId now : String) (s : Store) (bookingForm : BookingForm)
    (rescheduleForm : RescheduleForm) (h : SlotUnique (AppointmentStorage.getAll s)) :
    SlotUnique (AppointmentStorage.getAll
        (handleBookingSubmission weekdayOf newId now s bookingForm).2) ∧
      SlotUnique (AppointmentStorage.getAll
        (handleRescheduleSubmission weekdayOf s rescheduleForm).2) :=
  ⟨booking_preserves weekdayOf newId now s bookingForm h,
    reschedule_preserves weekdayOf s rescheduleForm h⟩

/-- In the store with a cancelled and a pending appointment on the same slot, a
rejected booking of that slot and a successful reschedule of the pending appointment
both leave the slots unique. -/
theorem booking_and_reschedule_keep_slots_unique_witness :
    SlotUnique (AppointmentStorage.getAll reusedSlotStore) ∧
      (handleBookingSubmission sampleWeekdayOf "a3" "t3" reusedSlotStore sampleForm).1 =
        .slotUnavailable ∧
      (handleRescheduleSubmission sampleWeekdayOf reusedSlotStore sampleReschedule).1 =
        .rescheduled (rescheduledAppointment laterVisit "2030-01-08" "09:00") ∧
      SlotUnique (AppointmentStorage.getAll
        (handleBookingSubmission sampleWeekdayOf "a3" "t3" reusedSlotStore sampleForm).2) ∧
      SlotUnique (AppointmentStorage.getAll
        (handleRescheduleSubmission sampleWeekdayOf reusedSlotStore sampleReschedule).2) :=
  ⟨reusedSlotStore_unique, by decide, by decide,
    booking_and_reschedule_keep_slots_unique sampleWeekdayOf "a3" "t3" reusedSlotStore
      sampleForm sampleReschedule reusedSlotStore_unique⟩

/-- C4, as stated, fails: in the store holding a cancelled appointment `a1` and a
pending appointment `a2` on the same slot, slots are unique, and after
`approveAppointment('a1')` the slot has two non-cancelled appointments. -/
theorem approve_cancelled_breaks_uniqueness :
    SlotUnique (AppointmentStorage.getAll reusedSlotStore) ∧
      AppointmentStorage.getAll (approveAppointment reusedSlotStore "a1").2 =
        [withStatus cancelledVisit "confirmed", laterVisit] ∧
      ¬ SlotUnique (AppointmentStorage.getAll (approveAppointment reusedSlotStore "a1").2) := by
  refine ⟨reusedSlotStore_unique, by decide, ?_⟩
  intro h
  have h2 := h "d1" "2030-01-07" "10:00"
  revert h2
  decide

/-- C4, amended. From a store with unique slots, booking, rescheduling, cancelling,
declining and admin deletion, applied to any appointment id, leave the slots unique;
approving, completing and force-approving do so when the id does not resolve to a
cancelled appointment. -/
theorem operations_keep_slots_unique (weekdayOf : String → String) (newId now : String)
    (s : Store) (bookingForm : BookingForm) (rescheduleForm : RescheduleForm)
    (appointmentId : String) (confirmed : Bool)
    (h : SlotUnique (AppointmentStorage.getAll s)) :
    SlotUnique (AppointmentStorage.getAll
        (handleBookingSubmission weekdayOf newId now s bookingForm).2) ∧
      SlotUnique (AppointmentStorage.getAll
        (handleRescheduleSubmission weekdayOf s rescheduleForm).2) ∧
      SlotUnique (AppointmentStorage.getAll (cancelAppointment confirmed s appointmentId).2) ∧
      SlotUnique (AppointmentStorage.getAll (declineAppointment confirmed s appointmentId).2) ∧
      SlotUnique (AppointmentStorage.getAll (deleteAppointment confirmed s appointmentId)) ∧
      ((∀ a, AppointmentStorage.getById s appointmentId = some a → a.status ≠ "cancelled") →
        SlotUnique (AppointmentStorage.getAll (approveAppointment s appointmentId).2) ∧
        SlotUnique (AppointmentStorage.getAll (completeAppointment s appointmentId).2) ∧
        SlotUnique (AppointmentStorage.getAll
          (forceApproveAppointment s appointmentId).2)) := by
  refine ⟨booking_preserves weekdayOf newId now s bookingForm h,
    reschedule_preserves weekdayOf s rescheduleForm h, ?_, ?_, ?_, ?_⟩
  · cases confirmed
    · exact h
    · exact update_status_preserves s appointmentId "cancelled" h (Or.inl rfl)
  · cases confirmed
    · exact h
    · exact update_status_preserves s appointmentId "cancelled" h (Or.inl rfl)
  · cases confirmed
    · exact h
    · exact slotUnique_filter _ _ h
  · intro hlive
    exact ⟨update_status_preserves s appointmentId "confirmed" h (Or.inr hlive),
      update_status_preserves s appointmentId "completed" h (Or.inr hlive),
      update_status_preserves s appointmentId "confirmed" h (Or.inr hlive)⟩

/-- In the store with a cancelled appointment `a1` and a pending appointment `a2` on
the same slot, every operation applied to the pending `a2` leaves the slots unique. -/
theorem operations_keep_slots_unique_witness :
    SlotUnique (AppointmentStorage.getAll reusedSlotStore) ∧
      (∀ a, AppointmentStorage.getById reusedSlotStore "a2" = some a →
        a.status ≠ "cancelled") ∧
      SlotUnique (AppointmentStorage.getAll (cancelAppointment true reusedSlotStore "a2").2) ∧
      SlotUnique (AppointmentStorage.getAll (deleteAppointment true reusedSlotStore "a2")) ∧
      SlotUnique (AppointmentStorage.getAll (approveAppointment reusedSlotStore "a2").2) ∧
      SlotUnique (AppointmentStorage.getAll (completeAppointment reusedSlotStore "a2").2) :=
  have hlive : ∀ a, AppointmentStorage.getById reusedSlotStore "a2" = some a →
      a.status ≠ "cancelled" := by
    intro a ha
    have hres : AppointmentStorage.getById reusedSlotStore "a2" = some laterVisit := by
      decide
    rw [hres] at ha
    cases ha
    decide
  have hall := operations_keep_slots_unique sampleWeekdayOf "a3" "t3" reusedSlotStore
    sampleForm sampleReschedule "a2" true reusedSlotStore_unique
  ⟨reusedSlotStore_unique, hlive, hall.2.2.1, hall.2.2.2.2.1, (hall.2.2.2.2.2 hlive).1,
    (hall.2.2.2.2.2 hlive).2.1⟩

/-! ## Status handlers -/

theorem statusResult_overwrites (status : String) :
    OverwritesStatus
      (fun s id => statusResult (AppointmentStorage.update s id { status := some status }))
      status := by
  intro s id
  constructor
  · intro a hget
    obtain ⟨l1, l2, hl, ha, hall⟩ := getById_split s id a hget
    refine ⟨l1, l2, hl, hall, ?_⟩
    show statusResult (AppointmentStorage.update s id { status := some status }) = _
    rw [update_of_split s id { status := some status } a l1 l2 hl ha hall]
    rfl
  · intro hnone
    have hu := update_of_getById_none s id { status := some status } hnone
    refine ⟨hu, ?_⟩
    show statusResult (AppointmentStorage.update s id { status := some status }) = _
    rw [hu]
    rfl

/-- C8. Each of cancel, approve, decline, complete and forceApprove is a direct
overwrite of the status, with cancelled, confirmed, cancelled, completed and confirmed:
for an id that resolves only the status of that appointment changes, and for an id
that does not resolve `AppointmentStorage.update` returns `null`, the handler reports
failure and the store is unchanged. Cancel and decline do nothing when their
confirmation dialog is dismissed. -/
theorem status_handlers_overwrite :
    OverwritesStatus (cancelAppointment true) "cancelled" ∧
      OverwritesStatus approveAppointment "confirmed" ∧
      OverwritesStatus (declineAppointment true) "cancelled" ∧
      OverwritesStatus completeAppointment "completed" ∧
      OverwritesStatus forceApproveAppointment "confirmed" ∧
      ∀ s id, cancelAppointment false s id = (.dismissed, s) ∧
        declineAppointment false s id = (.dismissed, s) :=
  ⟨statusResult_overwrites "cancelled", statusResult_overwrites "confirmed",
    statusResult_overwrites "cancelled", statusResult_overwrites "completed",
    statusResult_overwrites "confirmed", fun _ _ => ⟨rfl, rfl⟩⟩

/-- Approving the pending appointment `a2` overwrites its status only, and approving
the unknown id `zz` fails and leaves the store as it was. -/
theorem status_handlers_overwrite_witness :
    AppointmentStorage.getById reusedSlotStore "a2" = some laterVisit ∧
      AppointmentStorage.getById reusedSlotStore "zz" = none ∧
      (∃ l1 l2, AppointmentStorage.getAll reusedSlotStore = l1 ++ laterVisit :: l2 ∧
        (∀ y ∈ l1, y.id ≠ "a2") ∧
        approveAppointment reusedSlotStore "a2" =
          (.updated (withStatus laterVisit "confirmed"),
            { reusedSlotStore with
              appointments := some (l1 ++ withStatus laterVisit "confirmed" :: l2) })) ∧
      (AppointmentStorage.update reusedSlotStore "zz" { status := some "confirmed" } =
          (none, reusedSlotStore) ∧
        approveAppointment reusedSlotStore "zz" = (.failed, reusedSlotStore)) :=
  ⟨by decide, by decide,
    (status_handlers_overwrite.2.1 reusedSlotStore "a2").1 laterVisit (by decide),
    (status_handlers_overwrite.2.1 reusedSlotStore "zz").2 (by decide)⟩

/-! ## Terminal statuses -/

/-- C9, as stated, fails: approving the cancelled appointment `a1` leaves it
confirmed, and rescheduling the completed appointment `a0` to a free slot leaves it
pending. -/
theorem terminal_status_left :
    (AppointmentStorage.getById reusedSlotStore "a1" = some cancelledVisit ∧
      cancelledVisit.status = "cancelled" ∧
      (AppointmentStorage.getById (approveAppointment reusedSlotStore "a1").2 "a1").map
        (fun apt => apt.status) = some "confirmed") ∧
    (AppointmentStorage.getById completedVisitStore "a0" = some completedVisit ∧
      completedVisit.status = "completed" ∧
      (AppointmentStorage.getById
        (handleRescheduleSubmission sampleWeekdayOf completedVisitStore reopenForm).2
        "a0").map (fun apt => apt.status) = some "pending") := by
  decide

/-- C9, amended. For an appointment whose status is completed or cancelled no card
offers a transition: the Reschedule, Cancel, Approve, Decline, Mark Complete and Force
Approve buttons are not rendered. The handlers do not check the status: called with
the id of such an appointment, approve and forceApprove set its status to confirmed,
complete sets it to completed, cancel and decline set it to cancelled, and a
reschedule to an available slot sets it to pending; the record stays the same only
when cancel or decline meets a cancelled appointment or complete a completed one. -/
theorem terminal_status_gated_by_cards (weekdayOf : String → String) (s : Store)
    (id : String) (a : Appointment) (form : RescheduleForm)
    (hget : AppointmentStorage.getById s id = some a)
    (hterminal : a.status = "completed" ∨ a.status = "cancelled") :
    (∀ isHistory, canModify isHistory a = false ∧ canCancel isHistory a = false ∧
      canApprove isHistory a = false ∧ canComplete isHistory a = false ∧
      canForceApprove a = false) ∧
    (approveAppointment s id).1 = .updated (withStatus a "confirmed") ∧
    (forceApproveAppointment s id).1 = .updated (withStatus a "confirmed") ∧
    (completeAppointment s id).1 = .updated (withStatus a "completed") ∧
    (cancelAppointment true s id).1 = .updated (withStatus a "cancelled") ∧
    (declineAppointment true s id).1 = .updated (withStatus a "cancelled") ∧
    (form.appointmentId = id → form.newDate ≠ "" → form.newTime ≠ "" →
      isSlotAvailable weekdayOf s a.doctorId form.newDate form.newTime = true →
      (handleRescheduleSubmission weekdayOf s form).1 =
        .rescheduled (rescheduledAppointment a form.newDate form.newTime)) ∧
    (a.status = "cancelled" → withStatus a "cancelled" = a) ∧
    (a.status = "completed" → withStatus a "completed" = a) := by
  have hrun : ∀ status,
      (statusResult (AppointmentStorage.update s id { status := some status })).1 =
        .updated (withStatus a status) := by
    intro status
    obtain ⟨l1, l2, _, _, h⟩ := ((statusResult_overwrites status) s id).1 a hget
    exact congrArg Prod.fst h
  refine ⟨?_, hrun "confirmed", hrun "confirmed", hrun "completed", hrun "cancelled",
    hrun "cancelled", ?_, ?_, ?_⟩
  · intro isHistory
    rcases hterminal with h | h <;>
      simp [canModify, canCancel, canApprove, canComplete, canForceApprove, h]
  · intro hid hDate hTime hFree
    subst hid
    rcases handleReschedule_cases weekdayOf s form with
      hs | ⟨b, l1, l2, hb, _, _, _, _, _, hrun2⟩
    · exfalso
      obtain ⟨l1, l2, hl, ha, hall⟩ := getById_split s form.appointmentId a hget
      have hu := update_of_split s form.appointmentId
        { date := some form.newDate, time := some form.newTime,
          status := some "pending" } a l1 l2 hl ha hall
      apply hs.2 (AppointmentStorage.merge a
        { date := some form.newDate, time := some form.newTime, status := some "pending" })
      simp [handleRescheduleSubmission, hDate, hTime, hget, hFree, hu]
    · rw [hget] at hb
      cases hb
      rw [hrun2]
  · intro h
    rw [← h]
    rfl
  · intro h
    rw [← h]
    rfl

/-- The completed appointment `a0`: no button is rendered for it, and the handlers
called with its id overwrite its status. -/
theorem terminal_status_gated_by_cards_witness :
    AppointmentStorage.getById completedVisitStore "a0" = some completedVisit ∧
      (completedVisit.status = "completed" ∨ completedVisit.status = "cancelled") ∧
      (∀ isHistory, canModify isHistory completedVisit = false ∧
        canCancel isHistory completedVisit = false ∧
        canApprove isHistory completedVisit = false ∧
        canComplete isHistory completedVisit = false ∧
        canForceApprove completedVisit = false) ∧
      (approveAppointment completedVisitStore "a0").1 =
        .updated (withStatus completedVisit "confirmed") ∧
      (handleRescheduleSubmission sampleWeekdayOf completedVisitStore reopenForm).1 =
        .rescheduled (rescheduledAppointment completedVisit "2030-01-07" "10:00") :=
  have h := terminal_status_gated_by_cards sampleWeekdayOf completedVisitStore "a0"
    completedVisit reopenForm (by decide) (by decide)
  ⟨by decide, by decide, h.1, h.2.1,
    h.2.2.2.2.2.2.1 (by decide) (by decide) (by decide) (by decide)⟩

/-! ## Upcoming and history -/

theorem unitsLt_asymm (a b : List Nat) (h : unitsLt a b = true) : unitsLt b a = false := by
  induction a generalizing b with
  | nil =>
    cases b with
    | nil => simp [unitsLt] at h
    | cons y ys => simp [unitsLt]
  | cons x xs ih =>
    cases b with
    | nil => simp [unitsLt] at h
    | cons y ys =>
      simp only [unitsLt, Bool.or_eq_true, decide_eq_true_eq, Bool.and_eq_true,
        beq_iff_eq] at h
      simp only [unitsLt, Bool.or_eq_false_iff, decide_eq_false_iff_not, Nat.not_lt,
        Bool.and_eq_false_imp, beq_iff_eq]
      rcases h with h | ⟨rfl, h⟩
      · exact ⟨Nat.le_of_lt h, fun hyx => absurd hyx (Nat.ne_of_gt h)⟩
      · exact ⟨Nat.le_refl _, fun _ => ih ys h⟩

theorem strLt_asymm (a b : String) (h : strLt a b = true) : strLt b a = false :=
  unitsLt_asymm _ _ h

theorem isUserAppointment_iff (userId role : String) (apt : Appointment) :
    AppointmentStorage.isUserAppointment userId role apt = true ↔
      participantId role apt = userId := by
  unfold AppointmentStorage.isUserAppointment participantId
  by_cases h : role = "patient" <;> simp [h]

theorem getUpcoming_eq (today : String) (s : Store) (userId role : String) :
    AppointmentStorage.getUpcoming today s userId role =
      listUpcoming today (AppointmentStorage.getAll s) userId role := by
  unfold AppointmentStorage.getUpcoming listUpcoming
  congr 1
  funext apt
  rw [Bool.eq_iff_iff]
  simp [isUserAppointment_iff, and_assoc]

theorem getHistory_eq (today : String) (s : Store) (userId role : String) :
    AppointmentStorage.getHistory today s userId role =
      listHistory today (AppointmentStorage.getAll s) userId role := by
  unfold AppointmentStorage.getHistory listHistory
  congr 1
  funext apt
  rw [Bool.eq_iff_iff]
  simp [isUserAppointment_iff, or_assoc]

theorem mem_listUpcoming (today : String) (l : List Appointment) (userId role : String)
    (apt : Appointment) :
    apt ∈ listUpcoming today l userId role ↔
      apt ∈ l ∧ participantId role apt = userId ∧ strGe apt.date today = true ∧
        apt.status ≠ "cancelled" := by
  simp [listUpcoming]

theorem mem_listHistory (today : String) (l : List Appointment) (userId role : String)
    (apt : Appointment) :
    apt ∈ listHistory today l userId role ↔
      apt ∈ l ∧ participantId role apt = userId ∧
        (strLt apt.date today = true ∨ apt.status = "completed" ∨
          apt.status = "cancelled") := by
  simp [listHistory]

/-- C10. For a fixed `today`, `getUpcoming(userId, role)` is the stored appointments,
in stored order, of which the user is the participant (patientId when the role is
patient, doctorId otherwise) with `date >= today` and status other than cancelled,
and `getHistory(userId, role)` is those of which the user is the participant with
`date < today` or status completed or cancelled. A pending appointment of the user
dated after today is in Upcoming and not in History; once it is cancelled, the
cancelled record is in History and not in Upcoming. -/
theorem upcoming_and_history (today : String) (s : Store) (userId role : String) :
    AppointmentStorage.getUpcoming today s userId role =
        listUpcoming today (AppointmentStorage.getAll s) userId role ∧
      AppointmentStorage.getHistory today s userId role =
        listHistory today (AppointmentStorage.getAll s) userId role ∧
      (∀ apt, apt ∈ AppointmentStorage.getUpcoming today s userId role ↔
        apt ∈ AppointmentStorage.getAll s ∧ participantId role apt = userId ∧
          strGe apt.date today = true ∧ apt.status ≠ "cancelled") ∧
      (∀ apt, apt ∈ AppointmentStorage.getHistory today s userId role ↔
        apt ∈ AppointmentStorage.getAll s ∧ participantId role apt = userId ∧
          (strLt apt.date today = true ∨ apt.status = "completed" ∨
            apt.status = "cancelled")) ∧
      (AppointmentStorage.getUpcoming today s userId role).Sublist
        (AppointmentStorage.getAll s) ∧
      (AppointmentStorage.getHistory today s userId role).Sublist
        (AppointmentStorage.getAll s) ∧
      (∀ apt ∈ AppointmentStorage.getAll s,
        participantId role apt = userId → strLt today apt.date = true →
        apt.status = "pending" →
        apt ∈ AppointmentStorage.getUpcoming today s userId role ∧
        apt ∉ AppointmentStorage.getHistory today s userId role) ∧
      ∀ apt, AppointmentStorage.getById s apt.id = some apt →
        participantId role apt = userId →
        withStatus apt "cancelled" ∈
          AppointmentStorage.getHistory today (cancelAppointment true s apt.id).2
            userId role ∧
        withStatus apt "cancelled" ∉
          AppointmentStorage.getUpcoming today (cancelAppointment true s apt.id).2
            userId role := by
  refine ⟨getUpcoming_eq today s userId role, getHistory_eq today s userId role, ?_, ?_,
    ?_, ?_, ?_, ?_⟩
  · intro apt
    rw [getUpcoming_eq, mem_listUpcoming]
  · intro apt
    rw [getHistory_eq, mem_listHistory]
  · exact List.filter_sublist _
  · exact List.filter_sublist _
  · intro apt hmem hpart hafter hpending
    have hnotbefore : strLt apt.date today = false := strLt_asymm _ _ hafter
    refine ⟨?_, ?_⟩
    · rw [getUpcoming_eq, mem_listUpcoming]
      exact ⟨hmem, hpart, by simp [strGe, hnotbefore], by simp [hpending]⟩
    · rw [getHistory_eq, mem_listHistory]
      rintro ⟨_, _, h | h | h⟩
      · rw [hnotbefore] at h
        cases h
      · rw [hpending] at h
        simp at h
      · rw [hpending] at h
        simp at h
  · intro apt hget hpart
    obtain ⟨l1, l2, hl, hrun⟩ :=
      ((statusResult_overwrites "cancelled") s apt.id).1 apt hget
    have hcancel : cancelAppointment true s apt.id =
        (.updated (withStatus apt "cancelled"),
          { s with appointments := some (l1 ++ withStatus apt "cancelled" :: l2) }) :=
      hrun.2
    refine ⟨?_, ?_⟩
    · rw [getHistory_eq, mem_listHistory, hcancel]
      refine ⟨?_, hpart, Or.inr (Or.inr rfl)⟩
      simp [AppointmentStorage.getAll]
    · rw [getUpcoming_eq, mem_listUpcoming]
      rintro ⟨_, _, _, h⟩
      exact h rfl

/-- With today 2030-01-01, the pending appointment `a2` of patient `p2`, dated
2030-01-07, is upcoming and not history; cancelled, it is history and not upcoming. -/
theorem upcoming_and_history_witness :
    AppointmentStorage.getById reusedSlotStore laterVisit.id = some laterVisit ∧
      participantId "patient" laterVisit = "p2" ∧
      strLt "2030-01-01" laterVisit.date = true ∧
      laterVisit.status = "pending" ∧
      laterVisit ∈ AppointmentStorage.getUpcoming "2030-01-01" reusedSlotStore "p2"
        "patient" ∧
      laterVisit ∉ AppointmentStorage.getHistory "2030-01-01" reusedSlotStore "p2"
        "patient" ∧
      withStatus laterVisit "cancelled" ∈
        AppointmentStorage.getHistory "2030-01-01"
          (cancelAppointment true reusedSlotStore laterVisit.id).2 "p2" "patient" ∧
      withStatus laterVisit "cancelled" ∉
        AppointmentStorage.getUpcoming "2030-01-01"
          (cancelAppointment true reusedSlotStore laterVisit.id).2 "p2" "patient" :=
  have h := upcoming_and_history "2030-01-01" reusedSlotStore "p2" "patient"
  have h1 := h.2.2.2.2.2.2.1 laterVisit (by decide) (by decide) (by decide) (by decide)
  have h2 := h.2.2.2.2.2.2.2 laterVisit (by decide) (by decide)
  ⟨by decide, by decide, by decide, by decide, h1.1, h1.2, h2.1, h2.2⟩

/-- C11. No omission: for a fixed `today`, every stored appointment of which the user
is the participant is in `getUpcoming(userId, role)` or in `getHistory(userId, role)`. -/
theorem upcoming_or_history (today : String) (s : Store) (userId role : String)
    (apt : Appointment) (hmem : apt ∈ AppointmentStorage.getAll s)
    (hpart : participantId role apt = userId) :
    apt ∈ AppointmentStorage.getUpcoming today s userId role ∨
      apt ∈ AppointmentStorage.getHistory today s userId role := by
  rw [getUpcoming_eq, getHistory_eq, mem_listUpcoming, mem_listHistory]
  cases hlt : strLt apt.date today with
  | true => exact Or.inr ⟨hmem, hpart, Or.inl rfl⟩
  | false =>
    by_cases hc : apt.status = "cancelled"
    · exact Or.inr ⟨hmem, hpart, Or.inr (Or.inr hc)⟩
    · exact Or.inl ⟨hmem, hpart, by simp [strGe, hlt], hc⟩

/-- With today 2030-01-01, the cancelled appointment `a1` of patient `p1`, dated after
today, is listed: it is in the history. -/
theorem upcoming_or_history_witness :
    cancelledVisit ∈ AppointmentStorage.getAll reusedSlotStore ∧
      participantId "patient" cancelledVisit = "p1" ∧
      (cancelledVisit ∈ AppointmentStorage.getUpcoming "2030-01-01" reusedSlotStore "p1"
          "patient" ∨
        cancelledVisit ∈ AppointmentStorage.getHistory "2030-01-01" reusedSlotStore "p1"
          "patient") :=
  ⟨by decide, by decide,
    upcoming_or_history "2030-01-01" reusedSlotStore "p1" "patient" cancelledVisit
      (by decide) (by decide)⟩

/-- C12, as stated, fails: the doctor card of the confirmed appointment `a5`, dated
today, offers Mark Complete, and once `completeAppointment('a5')` has run the
completed record is both in `getUpcoming` and in `getHistory` of the doctor. -/
theorem completed_listed_twice :
    canComplete false confirmedVisit = true ∧
      withStatus confirmedVisit "completed" ∈
        AppointmentStorage.getUpcoming "2030-01-07"
          (completeAppointment confirmedVisitStore "a5").2 "d1" "doctor" ∧
      withStatus confirmedVisit "completed" ∈
        AppointmentStorage.getHistory "2030-01-07"
          (completeAppointment confirmedVisitStore "a5").2 "d1" "doctor" := by
  decide

/-- C12, amended. For a fixed `today`, a stored appointment is both in
`getUpcoming(userId, role)` and in `getHistory(userId, role)` exactly when the user is
its participant, its date is today or later and its status is completed; an
appointment whose status is not completed, or whose date is before today, is never in
both. -/
theorem overlap_only_completed (today : String) (s : Store) (userId role : String)
    (apt : Appointment) :
    ((apt ∈ AppointmentStorage.getUpcoming today s userId role ∧
        apt ∈ AppointmentStorage.getHistory today s userId role) ↔
      apt ∈ AppointmentStorage.getAll s ∧ participantId role apt = userId ∧
        strGe apt.date today = true ∧ apt.status = "completed") ∧
    (apt.status ≠ "completed" ∨ strLt apt.date today = true →
      ¬ (apt ∈ AppointmentStorage.getUpcoming today s userId role ∧
        apt ∈ AppointmentStorage.getHistory today s userId role)) := by
  have key : (apt ∈ AppointmentStorage.getUpcoming today s userId role ∧
        apt ∈ AppointmentStorage.getHistory today s userId role) ↔
      apt ∈ AppointmentStorage.getAll s ∧ participantId role apt = userId ∧
        strGe apt.date today = true ∧ apt.status = "completed" := by
    rw [getUpcoming_eq, getHistory_eq, mem_listUpcoming, mem_listHistory]
    constructor
    · rintro ⟨⟨hmem, hpart, hge, hnc⟩, _, _, h | h | h⟩
      · simp [strGe, h] at hge
      · exact ⟨hmem, hpart, hge, h⟩
      · exact absurd h hnc
    · rintro ⟨hmem, hpart, hge, hc⟩
      exact ⟨⟨hmem, hpart, hge, by simp [hc]⟩, hmem, hpart, Or.inr (Or.inl hc)⟩
  refine ⟨key, ?_⟩
  rintro (h | h) hboth
  · exact h (key.mp hboth).2.2.2
  · have hge := (key.mp hboth).2.2.1
    simp [strGe, h] at hge

/-- With today 2030-01-01, the pending appointment `a2` of patient `p2` is not in both
lists. -/
theorem overlap_only_completed_witness :
    laterVisit.status ≠ "completed" ∧
      ¬ (laterVisit ∈ AppointmentStorage.getUpcoming "2030-01-01" reusedSlotStore "p2"
          "patient" ∧
        laterVisit ∈ AppointmentStorage.getHistory "2030-01-01" reusedSlotStore "p2"
          "patient") :=
  ⟨by decide,
    (overlap_only_completed "2030-01-01" reusedSlotStore "p2" "patient" laterVisit).2
      (Or.inl (by decide))⟩

/-! ## Lemmas on the user repository -/

theorem user_getById_split (s : Store) (id : String) (u : User)
    (h : UserStorage.getById s id = some u) :
    ∃ l1 l2, UserStorage.getAll s = l1 ++ u :: l2 ∧ u.id = id ∧ ∀ y ∈ l1, y.id ≠ id := by
  unfold UserStorage.getById at h
  obtain ⟨hu, l1, l2, hl, hall⟩ := List.find?_eq_some.mp h
  refine ⟨l1, l2, hl, by simpa using hu, ?_⟩
  intro y hy
  simpa using hall y hy

theorem user_getById_eq_none (s : Store) (id : String) :
    UserStorage.getById s id = none ↔ ∀ y ∈ UserStorage.getAll s, y.id ≠ id := by
  unfold UserStorage.getById
  simp [List.find?_eq_none]

theorem user_update_of_split (s : Store) (id : String) (updates : UserUpdates)
    (u : User) (l1 l2 : List User) (hl : UserStorage.getAll s = l1 ++ u :: l2)
    (hu : u.id = id) (hall : ∀ y ∈ l1, y.id ≠ id) :
    UserStorage.update s id updates =
      (some (UserStorage.merge u updates),
        { s with users := some (l1 ++ UserStorage.merge u updates :: l2) }) := by
  have hidx : findIndex (fun user : User => user.id == id) (l1 ++ u :: l2)
      = some l1.length :=
    findIndex_append_cons _ l1 u l2 (by simp [hu]) (fun y hy => by simpa using hall y hy)
  unfold UserStorage.update
  simp only [hl, hidx, modify_append_cons, getElem?_append_cons_length]

theorem user_update_of_getById_none (s : Store) (id : String) (updates : UserUpdates)
    (h : UserStorage.getById s id = none) : UserStorage.update s id updates = (none, s) := by
  have hnone : findIndex (fun user : User => user.id == id) (UserStorage.getAll s)
      = none := by
    rw [findIndex_eq_none]
    intro x hx
    simpa using (user_getById_eq_none s id).mp h x hx
  unfold UserStorage.update
  simp only [hnone]

/-- Every run of `UserStorage.update` is one of two: the id does not resolve and
nothing is written, or the first record carrying the id is replaced in place by its
merge with the updates. -/
theorem user_update_cases (s : Store) (id : String) (updates : UserUpdates) :
    (UserStorage.getById s id = none ∧ UserStorage.update s id updates = (none, s)) ∨
    ∃ u l1 l2, UserStorage.getById s id = some u ∧
      UserStorage.getAll s = l1 ++ u :: l2 ∧ u.id = id ∧ (∀ y ∈ l1, y.id ≠ id) ∧
      UserStorage.update s id updates =
        (some (UserStorage.merge u updates),
          { s with users := some (l1 ++ UserStorage.merge u updates :: l2) }) := by
  cases h : UserStorage.getById s id with
  | none => exact Or.inl ⟨rfl, user_update_of_getById_none s id updates h⟩
  | some u =>
    obtain ⟨l1, l2, hl, hu, hall⟩ := user_getById_split s id u h
    exact Or.inr ⟨u, l1, l2, rfl, hl, hu, hall,
      user_update_of_split s id updates u l1 l2 hl hu hall⟩

/-- C16. `UserStorage.update(id, fields)` on an id that resolves returns and stores
the old record with the named fields overwritten and every other field as it was,
in the place of the old record, every other user and the order being unchanged; on
an id that does not resolve it returns `null` and the store is unchanged. -/
theorem user_update_frame (s : Store) (id : String) (updates : UserUpdates) :
    (∀ old, UserStorage.getById s id = some old →
      ∃ l1 l2, UserStorage.getAll s = l1 ++ old :: l2 ∧ (∀ y ∈ l1, y.id ≠ id) ∧
        UserStorage.update s id updates =
          (some (UserStorage.merge old updates),
            { s with users := some (l1 ++ UserStorage.merge old updates :: l2) }) ∧
        UserStorage.getAll (UserStorage.update s id updates).2 =
          l1 ++ UserStorage.merge old updates :: l2) ∧
    (UserStorage.getById s id = none → UserStorage.update s id updates = (none, s)) ∧
    ∀ old : User,
      (UserStorage.merge old updates).id = updates.id.getD old.id ∧
      (UserStorage.merge old updates).name = updates.name.getD old.name ∧
      (UserStorage.merge old updates).email = updates.email.getD old.email ∧
      (UserStorage.merge old updates).passwordHash =
        updates.passwordHash.getD old.passwordHash ∧
      (UserStorage.merge old updates).role = updates.role.getD old.role ∧
      (UserStorage.merge old updates).approved = updates.approved.getD old.approved ∧
      (UserStorage.merge old updates).createdAt = updates.createdAt.getD old.createdAt ∧
      (UserStorage.merge old updates).specialty = updates.specialty.getD old.specialty ∧
      (UserStorage.merge old updates).location = updates.location.getD old.location ∧
      (UserStorage.merge old updates).bio = updates.bio.getD old.bio ∧
      (UserStorage.merge old updates).rating = updates.rating.getD old.rating ∧
      (UserStorage.merge old updates).availability =
        updates.availability.getD old.availability := by
  refine ⟨?_, user_update_of_getById_none s id updates, ?_⟩
  · intro old hget
    obtain ⟨l1, l2, hl, hu, hall⟩ := user_getById_split s id old hget
    have hrun := user_update_of_split s id updates old l1 l2 hl hu hall
    refine ⟨l1, l2, hl, hall, hrun, ?_⟩
    rw [hrun]
    rfl
  · intro old
    exact ⟨rfl, rfl, rfl, rfl, rfl, rfl, rfl, rfl, rfl, rfl, rfl, rfl⟩

/-- Approving the sample doctor in the sample store rewrites that record only, and an
update of the unknown id `zz` returns `null`. -/
theorem user_update_frame_witness :
    UserStorage.getById sampleStore "d1" = some sampleDoctor ∧
      UserStorage.getById sampleStore "zz" = none ∧
      (∃ l1 l2, UserStorage.getAll sampleStore = l1 ++ sampleDoctor :: l2 ∧
        (∀ y ∈ l1, y.id ≠ "d1") ∧
        UserStorage.update sampleStore "d1" { bio := some (some "On leave") } =
          (some (UserStorage.merge sampleDoctor { bio := some (some "On leave") }),
            { sampleStore with
              users := some
                (l1 ++ UserStorage.merge sampleDoctor { bio := some (some "On leave") }
                  :: l2) }) ∧
        UserStorage.getAll
            (UserStorage.update sampleStore "d1" { bio := some (some "On leave") }).2 =
          l1 ++ UserStorage.merge sampleDoctor { bio := some (some "On leave") } :: l2) ∧
      UserStorage.update sampleStore "zz" { bio := some (some "On leave") } =
        (none, sampleStore) :=
  ⟨by decide, by decide,
    (user_update_frame sampleStore "d1" { bio := some (some "On leave") }).1 sampleDoctor
      (by decide),
    (user_update_frame sampleStore "zz" { bio := some (some "On leave") }).2.1
      (by decide)⟩

/-! ## Id and role of a user -/

theorem update_keeps_idsAndRoles (s : Store) (id : String) (updates : UserUpdates)
    (hid : updates.id = none) (hrole : updates.role = none) :
    idsAndRoles (UserStorage.update s id updates).2 = idsAndRoles s := by
  rcases user_update_cases s id updates with ⟨_, hrun⟩ | ⟨u, l1, l2, _, hl, _, _, hrun⟩
  · rw [hrun]
  · rw [hrun]
    simp only [idsAndRoles, hl]
    simp [UserStorage.getAll, UserStorage.merge, hid, hrole]

theorem idsAndRoles_setCurrentUser (s : Store) (user : User) :
    idsAndRoles (SessionStorage.setCurrentUser s user) = idsAndRoles s := rfl

theorem approveDoctor_users (s : Store) (doctorId : String) :
    (approveDoctor s doctorId).2 =
      (UserStorage.update s doctorId { approved := some true }).2 := by
  unfold approveDoctor
  rcases h : UserStorage.update s doctorId { approved := some true } with ⟨_ | u, s1⟩ <;> rfl

theorem handleProfileUpdate_idsAndRoles (s : Store) (bio specialty location : String) :
    idsAndRoles (handleProfileUpdate s bio specialty location).2 = idsAndRoles s := by
  unfold handleProfileUpdate
  cases hcu : getCurrentUser s with
  | none => rfl
  | some currentUser =>
    have hkeep := update_keeps_idsAndRoles s currentUser.id
      { bio := some (some bio), specialty := some (some specialty),
        location := some (some location) } rfl rfl
    rcases h : UserStorage.update s currentUser.id
      { bio := some (some bio), specialty := some (some specialty),
        location := some (some location) } with ⟨_ | u, s1⟩
    · rw [h] at hkeep
      simp only [h]
      exact hkeep
    · rw [h] at hkeep
      simp only [h]
      exact hkeep

theorem saveAvailability_idsAndRoles (s : Store) :
    idsAndRoles (saveAvailability s).2 = idsAndRoles s := by
  unfold saveAvailability
  cases hcu : getCurrentUser s with
  | none => rfl
  | some currentUser =>
    have hkeep := update_keeps_idsAndRoles s currentUser.id
      { availability := some currentUser.availability } rfl rfl
    rcases h : UserStorage.update s currentUser.id
      { availability := some currentUser.availability } with ⟨_ | u, s1⟩
    · rw [h] at hkeep
      simp only [h]
      exact hkeep
    · rw [h] at hkeep
      simp only [h]
      exact hkeep

theorem rateDoctor_idsAndRoles (numRating : Option Rat) (s : Store) (doctorId : String) :
    idsAndRoles (rateDoctor numRating s doctorId) = idsAndRoles s := by
  unfold rateDoctor
  cases numRating with
  | none => rfl
  | some n =>
    by_cases hr : n < 1 ∨ n > 5
    · simp only [hr, if_true]
    · simp only [hr, if_false]
      cases UserStorage.getById s doctorId with
      | none => rfl
      | some doctor => exact update_keeps_idsAndRoles s doctorId _ rfl rfl

theorem updateAdminCredentials_idsAndRoles (newId now : String) (s : Store) :
    idsAndRoles (updateAdminCredentials newId now s) = idsAndRoles s ∨
      ((∀ u ∈ UserStorage.getAll s, u.role ≠ "admin") ∧
        idsAndRoles (updateAdminCredentials newId now s) =
          idsAndRoles s ++ [(newId, "admin")]) := by
  cases hfind : (UserStorage.getAll s).find? (fun user => user.role == "admin") with
  | some adminUser =>
    left
    have hrun : updateAdminCredentials newId now s =
        if adminUser.email != "admin@docbook.com" then
          (UserStorage.update s adminUser.id
            { email := some "admin@docbook.com"
              passwordHash := some (hashPassword "Admin123") }).2
        else s := by
      simp only [updateAdminCredentials, hfind]
    rw [hrun]
    split
    · exact update_keeps_idsAndRoles s adminUser.id
        { email := some "admin@docbook.com"
          passwordHash := some (hashPassword "Admin123") } rfl rfl
    · rfl
  | none =>
    right
    refine ⟨?_, ?_⟩
    · intro u hu
      have := List.find?_eq_none.mp hfind u hu
      simpa using this
    · have hrun : updateAdminCredentials newId now s =
          { s with users := some (UserStorage.getAll s ++
              [{ id := newId, name := "Admin User", email := "admin@docbook.com",
                 passwordHash := hashPassword "Admin123", role := "admin",
                 approved := true, createdAt := now }]) } := by
        simp only [updateAdminCredentials, hfind]
      rw [hrun]
      simp [idsAndRoles, UserStorage.getAll]

/-- C17. The operations that update a stored user leave the id and the role of every
stored user as they were: doctor approval, profile update, rating and availability
save keep the list of ids and roles, and the admin credential repair keeps it or,
when no admin is stored, appends the new admin to it. -/
theorem id_and_role_never_mutated (newId now : String) (s : Store) (doctorId : String)
    (bio specialty location : String) (numRating : Option Rat) :
    idsAndRoles (approveDoctor s doctorId).2 = idsAndRoles s ∧
      idsAndRoles (handleProfileUpdate s bio specialty location).2 = idsAndRoles s ∧
      idsAndRoles (rateDoctor numRating s doctorId) = idsAndRoles s ∧
      idsAndRoles (saveAvailability s).2 = idsAndRoles s ∧
      (idsAndRoles (updateAdminCredentials newId now s) = idsAndRoles s ∨
        ((∀ u ∈ UserStorage.getAll s, u.role ≠ "admin") ∧
          idsAndRoles (updateAdminCredentials newId now s) =
            idsAndRoles s ++ [(newId, "admin")])) := by
  refine ⟨?_, handleProfileUpdate_idsAndRoles s bio specialty location,
    rateDoctor_idsAndRoles numRating s doctorId, saveAvailability_idsAndRoles s,
    updateAdminCredentials_idsAndRoles newId now s⟩
  rw [approveDoctor_users]
  exact update_keeps_idsAndRoles s doctorId _ rfl rfl

/-! ## Registration -/

theorem getByEmail_eq_none (s : Store) (email : String) :
    UserStorage.getByEmail s email = none ↔
      ∀ u ∈ UserStorage.getAll s, u.email ≠ email := by
  unfold UserStorage.getByEmail
  simp [List.find?_eq_none]

theorem getByEmail_eq_some (s : Store) (email : String) (user : User)
    (h : UserStorage.getByEmail s email = some user) :
    user ∈ UserStorage.getAll s ∧ user.email = email := by
  unfold UserStorage.getByEmail at h
  exact ⟨List.mem_of_find?_eq_some h, by simpa using List.find?_some h⟩

theorem handleRegister_of_valid (newId now : String) (s : Store) (form : RegisterForm)
    (hvalid : ValidRegistration form) (hrole : form.role ≠ "admin")
    (hunused : UserStorage.getByEmail s form.email = none) :
    handleRegister newId now s form =
      (.registered (UserStorage.create newId now s (registrationData form)).1,
        (UserStorage.create newId now s (registrationData form)).2) := by
  obtain ⟨h1, h2, h3, h4, h5, h6⟩ := hvalid
  have h5' : ¬ (utf16Units form.password).length < 6 := by omega
  by_cases hd : form.role = "doctor"
  · obtain ⟨h7, h8⟩ := h6 hd
    have hbio : (if form.bio = "" then "" else form.bio) = form.bio := by
      by_cases hb : form.bio = "" <;> simp [hb]
    simp [handleRegister, registrationData, h1, h2, h3, h4, h5', hrole, hunused, hd, h7, h8,
      hbio]
  · simp [handleRegister, registrationData, h1, h2, h3, h4, h5', hrole, hunused, hd]

/-- A run of `handleRegister` either writes nothing and registers nobody, or the form
was valid, the role was not admin, the email was unused, and the user created from
the form was appended. -/
theorem handleRegister_cases (newId now : String) (s : Store) (form : RegisterForm) :
    ((handleRegister newId now s form).2 = s ∧
      ∀ u, (handleRegister newId now s form).1 ≠ .registered u) ∨
    (ValidRegistration form ∧ form.role ≠ "admin" ∧
      UserStorage.getByEmail s form.email = none ∧
      handleRegister newId now s form =
        (.registered (UserStorage.create newId now s (registrationData form)).1,
          (UserStorage.create newId now s (registrationData form)).2)) := by
  by_cases h1 : form.name = ""
  · left; simp [handleRegister, h1]
  by_cases h2 : form.email = ""
  · left; simp [handleRegister, h2]
  by_cases h3 : form.password = ""
  · left; simp [handleRegister, h3]
  by_cases h4 : form.role = ""
  · left; simp [handleRegister, h4]
  by_cases h5 : (utf16Units form.password).length < 6
  · left; simp [handleRegister, h1, h2, h3, h4, h5]
  by_cases hrole : form.role = "admin"
  · left; simp [handleRegister, h1, h2, h3, h4, h5, hrole]
  cases hunused : UserStorage.getByEmail s form.email with
  | some u => left; simp [handleRegister, h1, h2, h3, h4, h5, hrole, hunused]
  | none =>
    by_cases hd : form.role = "doctor"
    · by_cases h7 : form.specialty = "" ∨ form.location = ""
      · left
        rcases h7 with h7 | h7 <;>
          simp [handleRegister, h1, h2, h3, h4, h5, hrole, hunused, hd, h7]
      · right
        have hvalid : ValidRegistration form :=
          ⟨h1, h2, h3, h4, by omega, fun _ => not_or.mp h7⟩
        exact ⟨hvalid, hrole, rfl,
          handleRegister_of_valid newId now s form hvalid hrole hunused⟩
    · right
      have hvalid : ValidRegistration form :=
        ⟨h1, h2, h3, h4, by omega, fun h => absurd h hd⟩
      exact ⟨hvalid, hrole, rfl,
        handleRegister_of_valid newId now s form hvalid hrole hunused⟩

/-- C13. For a valid registration form with an unused email: with the role doctor a
user is stored with `approved` false, rating 0 and the default availability; with the
role patient a user is stored with `approved` true; with the role admin the
registration fails and the store is unchanged. The `approved` flag written by
`UserStorage.create` is `role === 'patient' || role === 'admin'`, whatever `approved`
the data carries. -/
theorem registration_approval (newId now : String) (s : Store) (form : RegisterForm)
    (hvalid : ValidRegistration form)
    (hunused : ∀ u ∈ UserStorage.getAll s, u.email ≠ form.email) :
    (form.role = "doctor" →
      ∃ newUser,
        handleRegister newId now s form =
          (.registered newUser,
            { s with users := some (UserStorage.getAll s ++ [newUser]) }) ∧
        newUser.role = "doctor" ∧ newUser.email = form.email ∧
        newUser.approved = false ∧ newUser.rating = some 0 ∧
        newUser.availability = some generateSampleAvailability) ∧
    (form.role = "patient" →
      ∃ newUser,
        handleRegister newId now s form =
          (.registered newUser,
            { s with users := some (UserStorage.getAll s ++ [newUser]) }) ∧
        newUser.role = "patient" ∧ newUser.email = form.email ∧
        newUser.approved = true) ∧
    (form.role = "admin" → handleRegister newId now s form = (.adminNotAllowed, s)) ∧
    ∀ (s1 : Store) (userData : UserData),
      (UserStorage.create newId now s1 userData).1.approved =
        (userData.role == "patient" || userData.role == "admin") := by
  have hnone := (getByEmail_eq_none s form.email).mpr hunused
  refine ⟨?_, ?_, ?_, fun _ _ => rfl⟩
  · intro hd
    have hrun := handleRegister_of_valid newId now s form hvalid (by simp [hd]) hnone
    refine ⟨(UserStorage.create newId now s (registrationData form)).1, hrun, ?_⟩
    simp [UserStorage.create, registrationData, hd]
  · intro hp
    have hrun := handleRegister_of_valid newId now s form hvalid (by simp [hp]) hnone
    refine ⟨(UserStorage.create newId now s (registrationData form)).1, hrun, ?_⟩
    simp [UserStorage.create, registrationData, hp]
  · intro ha
    obtain ⟨h1, h2, h3, h4, h5, _⟩ := hvalid
    have h5' : ¬ (utf16Units form.password).length < 6 := by omega
    simp [handleRegister, h1, h2, h3, h5', ha]

/-- The doctor form and the patient form are valid and their emails unused in the
sample store: the doctor is stored unapproved, with rating 0 and the default
availability. -/
theorem registration_approval_witness :
    ValidRegistration doctorForm ∧
      (∀ u ∈ UserStorage.getAll sampleStore, u.email ≠ doctorForm.email) ∧
      doctorForm.role = "doctor" ∧
      ∃ newUser,
        handleRegister "u9" "t9" sampleStore doctorForm =
          (.registered newUser,
            { sampleStore with
              users := some (UserStorage.getAll sampleStore ++ [newUser]) }) ∧
        newUser.role = "doctor" ∧ newUser.email = doctorForm.email ∧
        newUser.approved = false ∧ newUser.rating = some 0 ∧
        newUser.availability = some generateSampleAvailability :=
  have hvalid : ValidRegistration doctorForm := by
    unfold ValidRegistration
    decide
  have hunused : ∀ u ∈ UserStorage.getAll sampleStore, u.email ≠ doctorForm.email := by
    decide
  ⟨hvalid, hunused, rfl,
    (registration_approval "u9" "t9" sampleStore doctorForm hvalid hunused).1 rfl⟩

/-! ## Login -/

/-- C14. Login fails with NotFound when no stored user has the email; otherwise, for
the user that the email resolves to, it fails with InvalidCredential when the stored
hash differs from `hashPassword(password)`, else with PendingApproval when the role
is doctor and `approved` is false, and else succeeds and sets the session to that
record. On every failure the store, and with it the session, is unchanged. -/
theorem login_outcomes (s : Store) (email password : String) :
    ((∀ u ∈ UserStorage.getAll s, u.email ≠ email) →
      handleLogin s email password = (.notFound, s)) ∧
    ((∃ u ∈ UserStorage.getAll s, u.email = email) →
      ∃ user, UserStorage.getByEmail s email = some user ∧
        user ∈ UserStorage.getAll s ∧ user.email = email) ∧
    ∀ user, UserStorage.getByEmail s email = some user →
      (user.passwordHash ≠ hashPassword password →
        handleLogin s email password = (.invalidCredential, s)) ∧
      (user.passwordHash = hashPassword password → user.role = "doctor" →
        user.approved = false →
        handleLogin s email password = (.pendingApproval, s)) ∧
      (user.passwordHash = hashPassword password →
        ¬ (user.role = "doctor" ∧ user.approved = false) →
        handleLogin s email password =
          (.loggedIn user, { s with currentUser := some user })) := by
  refine ⟨?_, ?_, ?_⟩
  · intro h
    have hnone := (getByEmail_eq_none s email).mpr h
    simp [handleLogin, hnone]
  · rintro ⟨u, hu, he⟩
    cases hget : UserStorage.getByEmail s email with
    | none => exact absurd he ((getByEmail_eq_none s email).mp hget u hu)
    | some user =>
      obtain ⟨hm, hem⟩ := getByEmail_eq_some s email user hget
      exact ⟨user, rfl, hm, hem⟩
  · intro user hget
    refine ⟨?_, ?_, ?_⟩
    · intro hne
      simp [handleLogin, hget, hne]
    · intro heq hrole happ
      simp [handleLogin, hget, heq, hrole, happ]
    · intro heq hok
      have hcond : (user.role == "doctor" && !user.approved) = false := by
        by_cases hr : user.role = "doctor"
        · have : user.approved = true := by
            cases ha : user.approved with
            | true => rfl
            | false => exact absurd ⟨hr, ha⟩ hok
          simp [hr, this]
        · simp [hr]
      simp [handleLogin, hget, heq, hcond, SessionStorage.setCurrentUser]

set_option maxRecDepth 8000 in
/-- In the store with a patient and an unapproved doctor, both with the password
`password123`: the patient logs in, a wrong password is turned down, the doctor is
told to wait, and an unknown email is not found. -/
theorem login_outcomes_witness :
    UserStorage.getByEmail loginStore "mary@example.com" = some registeredPatient ∧
      UserStorage.getByEmail loginStore "emily@example.com" = some pendingDoctor ∧
      handleLogin loginStore "mary@example.com" "password123" =
        (.loggedIn registeredPatient,
          { loginStore with currentUser := some registeredPatient }) ∧
      handleLogin loginStore "mary@example.com" "password124" =
        (.invalidCredential, loginStore) ∧
      handleLogin loginStore "emily@example.com" "password123" =
        (.pendingApproval, loginStore) ∧
      handleLogin loginStore "nobody@example.com" "password123" =
        (.notFound, loginStore) :=
  ⟨by decide, by decide,
    ((login_outcomes loginStore "mary@example.com" "password123").2.2 registeredPatient
      (by decide)).2.2 (by decide) (by decide),
    ((login_outcomes loginStore "mary@example.com" "password124").2.2 registeredPatient
      (by decide)).1 (by decide),
    ((login_outcomes loginStore "emily@example.com" "password123").2.2 pendingDoctor
      (by decide)).2.1 (by decide) (by decide) (by decide),
    (login_outcomes loginStore "nobody@example.com" "password123").1 (by decide)⟩

/-! ## Email uniqueness -/

theorem emailsUnique_append (users : List User) (newUser : User)
    (h : EmailsUnique users) (hnew : ∀ u ∈ users, u.email ≠ newUser.email) :
    EmailsUnique (users ++ [newUser]) := by
  unfold EmailsUnique at h ⊢
  rw [List.map_append, List.nodup_append]
  refine ⟨h, by simp, ?_⟩
  intro e he hne
  simp only [List.map_cons, List.map_nil, List.mem_singleton] at hne
  obtain ⟨u, hu, rfl⟩ := List.mem_map.mp he
  exact hnew u hu hne

theorem create_email (newId now : String) (s : Store) (form : RegisterForm) :
    (UserStorage.create newId now s (registrationData form)).1.email = form.email := by
  unfold registrationData
  split <;> rfl

theorem create_users (newId now : String) (s : Store) (userData : UserData) :
    UserStorage.getAll (UserStorage.create newId now s userData).2 =
      UserStorage.getAll s ++ [(UserStorage.create newId now s userData).1] := rfl

/-- C15. In a store whose users have pairwise distinct emails, a registration with an
email that a stored user holds fails and leaves the store unchanged, and after a
registration, successful or not, the stored emails are again pairwise distinct; a
successful one appends the new user. -/
theorem registration_keeps_emails_unique (newId now : String) (s : Store)
    (form : RegisterForm) (h : EmailsUnique (UserStorage.getAll s)) :
    ((∃ u ∈ UserStorage.getAll s, u.email = form.email) →
      (handleRegister newId now s form).2 = s ∧
      (∀ u, (handleRegister newId now s form).1 ≠ .registered u) ∧
      (ValidRegistration form → form.role ≠ "admin" →
        handleRegister newId now s form = (.emailExists, s))) ∧
    (∀ newUser, (handleRegister newId now s form).1 = .registered newUser →
      UserStorage.getAll (handleRegister newId now s form).2 =
        UserStorage.getAll s ++ [newUser] ∧
      newUser.email = form.email ∧
      EmailsUnique (UserStorage.getAll (handleRegister newId now s form).2)) ∧
    EmailsUnique (UserStorage.getAll (handleRegister newId now s form).2) := by
  have hafter : EmailsUnique (UserStorage.getAll (handleRegister newId now s form).2) := by
    rcases handleRegister_cases newId now s form with hs | ⟨_, _, hunused, hrun⟩
    · rw [hs.1]
      exact h
    · rw [hrun, create_users]
      apply emailsUnique_append _ _ h
      intro u hu
      rw [create_email]
      exact (getByEmail_eq_none s form.email).mp hunused u hu
  refine ⟨?_, ?_, hafter⟩
  · rintro ⟨u, hu, he⟩
    have hsome : UserStorage.getByEmail s form.email ≠ none := by
      intro hnone
      exact (getByEmail_eq_none s form.email).mp hnone u hu he
    rcases handleRegister_cases newId now s form with hs | ⟨_, _, hunused, _⟩
    · refine ⟨hs.1, hs.2, ?_⟩
      intro hvalid hrole
      obtain ⟨h1, h2, h3, h4, h5, _⟩ := hvalid
      have h5' : ¬ (utf16Units form.password).length < 6 := by omega
      cases hget : UserStorage.getByEmail s form.email with
      | none => exact absurd hget hsome
      | some v => simp [handleRegister, h1, h2, h3, h4, h5', hrole, hget]
    · exact absurd hunused hsome
  · intro newUser hreg
    rcases handleRegister_cases newId now s form with hs | ⟨_, _, _, hrun⟩
    · exact absurd hreg (hs.2 newUser)
    · rw [hrun] at hreg
      simp only [RegisterOutcome.registered.injEq] at hreg
      refine ⟨?_, ?_, hafter⟩
      · rw [hrun, create_users, hreg]
      · rw [← hreg, create_email]

/-- In the sample store, whose three emails are distinct, the form with the sample
patient email is turned down, and the patient form is accepted and leaves four
distinct emails. -/
theorem registration_keeps_emails_unique_witness :
    EmailsUnique (UserStorage.getAll sampleStore) ∧
      handleRegister "u9" "t9" sampleStore takenEmailForm = (.emailExists, sampleStore) ∧
      EmailsUnique (UserStorage.getAll (handleRegister "u9" "t9" sampleStore patientForm).2) ∧
      (UserStorage.getAll (handleRegister "u9" "t9" sampleStore patientForm).2).length = 4 :=
  have hu : EmailsUnique (UserStorage.getAll sampleStore) := by
    unfold EmailsUnique
    decide
  have hvalid : ValidRegistration takenEmailForm := by
    unfold ValidRegistration
    decide
  ⟨hu,
    ((registration_keeps_emails_unique "u9" "t9" sampleStore takenEmailForm hu).1
      ⟨samplePatient, by decide, by decide⟩).2.2 hvalid (by decide),
    (registration_keeps_emails_unique "u9" "t9" sampleStore patientForm hu).2.2,
    by decide⟩

/-! ## Search -/

theorem filterThrowing_eq_some {α : Type} (p : α → Option Bool) (q : α → Bool)
    (l : List α) (h : ∀ x ∈ l, p x = some (q x)) :
    SearchUtils.filterThrowing p l = some (l.filter q) := by
  induction l with
  | nil => rfl
  | cons x xs ih =>
    have hx := h x (by simp)
    have hxs := ih fun y hy => h y (by simp [hy])
    cases hq : q x <;> simp [SearchUtils.filterThrowing, hx, hxs, hq]

theorem matchesAll_of_typed (toLowerCase : String → String)
    (query specialty location : String) (doctor : User)
    (hs : doctor.specialty ≠ none) (hl : doctor.location ≠ none) :
    SearchUtils.matchesAll toLowerCase query specialty location doctor =
      some (matchesSearch toLowerCase query specialty location doctor) := by
  obtain ⟨sp, hsp⟩ := Option.ne_none_iff_exists'.mp hs
  obtain ⟨loc, hloc⟩ := Option.ne_none_iff_exists'.mp hl
  simp only [SearchUtils.matchesAll, SearchUtils.matchesQuery, SearchUtils.matchesLocation,
    SearchUtils.matchesSpecialty, matchesSearch, containsIgnoringCase, hsp, hloc,
    Option.any_some]
  cases hq : (query == "") <;> cases hlo : (location == "") <;>
    cases h1 : includes (toLowerCase doctor.name) (toLowerCase query) <;>
    cases h2 : includes (toLowerCase sp) (toLowerCase query) <;>
    simp

theorem matchesAll_of_empty (toLowerCase : String → String) (doctor : User) :
    SearchUtils.matchesAll toLowerCase "" "" "" doctor = some true := by
  simp [SearchUtils.matchesAll, SearchUtils.matchesQuery, SearchUtils.matchesLocation,
    SearchUtils.matchesSpecialty]

/-- C18. On a store whose approved doctors carry a specialty and a location, which is
what the registration, the seed and the profile update write into the record of a
doctor, `searchDoctors` returns the approved doctors, in stored order, for which the
three predicates hold: the query is empty or a case-insensitive substring of the name, the
specialty or the location; the specialty is empty or equal to the specialty of the
doctor; the location is empty or a case-insensitive substring of the location of the
doctor. With the three filters empty it returns every approved doctor, and whatever
it returns is an approved doctor. -/
theorem searchDoctors_result (toLowerCase : String → String) (s : Store)
    (query specialty location : String)
    (htyped : ∀ d ∈ UserStorage.getApprovedDoctors s,
      d.specialty ≠ none ∧ d.location ≠ none) :
    SearchUtils.searchDoctors toLowerCase s query specialty location =
        some ((UserStorage.getApprovedDoctors s).filter
          (matchesSearch toLowerCase query specialty location)) ∧
      (∀ d, d ∈ (UserStorage.getApprovedDoctors s).filter
            (matchesSearch toLowerCase query specialty location) ↔
          d ∈ UserStorage.getAll s ∧ d.role = "doctor" ∧ d.approved = true ∧
            matchesSearch toLowerCase query specialty location d = true) ∧
      ((UserStorage.getApprovedDoctors s).filter
          (matchesSearch toLowerCase query specialty location)).Sublist
        (UserStorage.getAll s) ∧
      SearchUtils.searchDoctors toLowerCase s "" "" "" =
        some (UserStorage.getApprovedDoctors s) := by
  refine ⟨?_, ?_, ?_, ?_⟩
  · unfold SearchUtils.searchDoctors
    apply filterThrowing_eq_some
    intro d hd
    exact matchesAll_of_typed toLowerCase query specialty location d (htyped d hd).1
      (htyped d hd).2
  · intro d
    simp only [UserStorage.getApprovedDoctors, List.mem_filter, Bool.and_eq_true,
      beq_iff_eq]
    tauto
  · exact (List.filter_sublist _).trans (List.filter_sublist _)
  · unfold SearchUtils.searchDoctors
    rw [filterThrowing_eq_some _ (fun _ => true) _
      (fun d _ => matchesAll_of_empty toLowerCase d)]
    simp

set_option maxRecDepth 8000 in
/-- In the store with an approved cardiologist in New York, an unapproved doctor and a
patient, the query `york` finds the cardiologist and the query `chicago` finds
nobody, the doctor in Chicago not being approved. -/
theorem searchDoctors_result_witness :
    (∀ d ∈ UserStorage.getApprovedDoctors searchStore,
        d.specialty ≠ none ∧ d.location ≠ none) ∧
      SearchUtils.searchDoctors sampleToLowerCase searchStore "YORK" "Cardiology" "" =
        some [sampleDoctor] ∧
      SearchUtils.searchDoctors sampleToLowerCase searchStore "chicago" "" "" = some [] :=
  have htyped : ∀ d ∈ UserStorage.getApprovedDoctors searchStore,
      d.specialty ≠ none ∧ d.location ≠ none := by decide
  have h1 := (searchDoctors_result sampleToLowerCase searchStore "YORK" "Cardiology" ""
    htyped).1
  have h2 := (searchDoctors_result sampleToLowerCase searchStore "chicago" "" ""
    htyped).1
  ⟨htyped, h1.trans (by decide), h2.trans (by decide)⟩

/-! ## Toggling a slot -/

theorem toggleSlot_of_split (l1 l2 : List Slot) (x : Slot) (day time : String)
    (hday : x.day = day) (htime : x.time = time)
    (hall : ∀ y ∈ l1, ¬ (y.day = day ∧ y.time = time)) :
    toggleSlot (l1 ++ x :: l2) day time = l1 ++ flipped x :: l2 := by
  have hidx : findIndex (fun s : Slot => s.day == day && s.time == time) (l1 ++ x :: l2)
      = some l1.length :=
    findIndex_append_cons _ l1 x l2 (by simp [hday, htime])
      (fun y hy => by simpa using hall y hy)
  unfold toggleSlot
  simp only [hidx, modify_append_cons]
  rfl

theorem toggleSlot_of_absent (availability : List Slot) (day time : String)
    (hall : ∀ y ∈ availability, ¬ (y.day = day ∧ y.time = time)) :
    toggleSlot availability day time =
      availability ++ [{ day := day, time := time, available := true }] := by
  have hnone : findIndex (fun s : Slot => s.day == day && s.time == time) availability
      = none := by
    rw [findIndex_eq_none]
    intro y hy
    simpa using hall y hy
  unfold toggleSlot
  simp only [hnone]

/-- The availability either has no entry for `(day, time)`, or it splits at the first
such entry. -/
theorem slot_absent_or_split (availability : List Slot) (day time : String) :
    (∀ y ∈ availability, ¬ (y.day = day ∧ y.time = time)) ∨
    ∃ l1 x l2, availability = l1 ++ x :: l2 ∧ x.day = day ∧ x.time = time ∧
      ∀ y ∈ l1, ¬ (y.day = day ∧ y.time = time) := by
  cases h : findIndex (fun s : Slot => s.day == day && s.time == time) availability with
  | none =>
    left
    intro y hy
    simpa using (findIndex_eq_none _ _).mp h y hy
  | some i =>
    right
    obtain ⟨l1, x, l2, hl, _, hx, hall⟩ := findIndex_eq_some _ _ _ h
    simp only [Bool.and_eq_true, beq_iff_eq] at hx
    exact ⟨l1, x, l2, hl, hx.1, hx.2, fun y hy => by simpa using hall y hy⟩

theorem flipped_flipped (x : Slot) : flipped (flipped x) = x := by
  cases x
  simp [flipped]

/-- With at most one entry per `(day, time)`, an entry for `(day, time)` is the first
one. -/
theorem eq_first_of_slotsUnique (l1 l2 : List Slot) (x0 x : Slot) (day time : String)
    (hu : SlotsUnique (l1 ++ x0 :: l2)) (h0 : x0.day = day ∧ x0.time = time)
    (hall : ∀ y ∈ l1, ¬ (y.day = day ∧ y.time = time))
    (hx : x ∈ l1 ++ x0 :: l2) (hkey : x.day = day ∧ x.time = time) : x = x0 := by
  rcases List.mem_append.mp hx with h | h
  · exact absurd hkey (hall x h)
  · rcases List.mem_cons.mp h with h | h
    · exact h
    · exfalso
      unfold SlotsUnique at hu
      rw [List.map_append, List.map_cons, List.nodup_append] at hu
      have hnot := (List.nodup_cons.mp hu.2.1).1
      apply hnot
      refine List.mem_map.mpr ⟨x, h, ?_⟩
      rw [hkey.1, hkey.2, h0.1, h0.2]

/-- C19. For an availability list with at most one entry per `(day, time)`: when an
entry for `(day, time)` exists, `toggleSlot` negates its flag in place and changes
nothing else; when none exists, it appends `(day, time, true)`; the result again has
at most one entry per `(day, time)`; toggling twice gives back the list when the
entry existed, and otherwise the list followed by `(day, time, false)`, so every
entry that existed has its flag as before. -/
theorem toggleSlot_effect (availability : List Slot) (day time : String)
    (hu : SlotsUnique availability) :
    (∀ x ∈ availability, x.day = day → x.time = time →
      ∃ l1 l2, availability = l1 ++ x :: l2 ∧
        toggleSlot availability day time = l1 ++ flipped x :: l2) ∧
    ((∀ y ∈ availability, ¬ (y.day = day ∧ y.time = time)) →
      toggleSlot availability day time =
        availability ++ [{ day := day, time := time, available := true }]) ∧
    SlotsUnique (toggleSlot availability day time) ∧
    ((∃ x ∈ availability, x.day = day ∧ x.time = time) →
      toggleSlot (toggleSlot availability day time) day time = availability) ∧
    ((∀ y ∈ availability, ¬ (y.day = day ∧ y.time = time)) →
      toggleSlot (toggleSlot availability day time) day time =
        availability ++ [{ day := day, time := time, available := false }]) := by
  have habsent2 : (∀ y ∈ availability, ¬ (y.day = day ∧ y.time = time)) →
      toggleSlot (toggleSlot availability day time) day time =
        availability ++ [{ day := day, time := time, available := false }] := by
    intro hall
    rw [toggleSlot_of_absent availability day time hall,
      toggleSlot_of_split availability [] _ day time rfl rfl hall]
    rfl
  refine ⟨?_, toggleSlot_of_absent availability day time, ?_, ?_, habsent2⟩
  · intro x hx hday htime
    rcases slot_absent_or_split availability day time with hall | ⟨l1, x0, l2, hl, h0d, h0t, hall⟩
    · exact absurd ⟨hday, htime⟩ (hall x hx)
    · subst hl
      have hxeq := eq_first_of_slotsUnique l1 l2 x0 x day time hu ⟨h0d, h0t⟩ hall hx
        ⟨hday, htime⟩
      subst hxeq
      exact ⟨l1, l2, rfl, toggleSlot_of_split l1 l2 x day time hday htime hall⟩
  · rcases slot_absent_or_split availability day time with hall | ⟨l1, x0, l2, hl, h0d, h0t, hall⟩
    · rw [toggleSlot_of_absent availability day time hall]
      unfold SlotsUnique at hu ⊢
      rw [List.map_append, List.nodup_append]
      refine ⟨hu, by simp, ?_⟩
      intro k hk hk2
      simp only [List.map_cons, List.map_nil, List.mem_singleton] at hk2
      obtain ⟨y, hy, rfl⟩ := List.mem_map.mp hk
      simp only [Prod.mk.injEq] at hk2
      exact hall y hy hk2
    · subst hl
      rw [toggleSlot_of_split l1 l2 x0 day time h0d h0t hall]
      unfold SlotsUnique at hu ⊢
      simpa [flipped] using hu
  · rintro ⟨x, hx, hday, htime⟩
    rcases slot_absent_or_split availability day time with hall | ⟨l1, x0, l2, hl, h0d, h0t, hall⟩
    · exact absurd ⟨hday, htime⟩ (hall x hx)
    · subst hl
      rw [toggleSlot_of_split l1 l2 x0 day time h0d h0t hall,
        toggleSlot_of_split l1 l2 (flipped x0) day time h0d h0t hall, flipped_flipped]

/-- The default availability has one entry per `(day, time)`; toggling Monday 10:00
disables that entry and toggling it again restores the list, and toggling Saturday
09:00 appends an enabled entry. -/
theorem toggleSlot_effect_witness :
    SlotsUnique generateSampleAvailability ∧
      SlotsUnique (toggleSlot generateSampleAvailability "monday" "10:00") ∧
      toggleSlot (toggleSlot generateSampleAvailability "monday" "10:00") "monday" "10:00" =
        generateSampleAvailability ∧
      toggleSlot generateSampleAvailability "saturday" "09:00" =
        generateSampleAvailability ++
          [{ day := "saturday", time := "09:00", available := true }] :=
  have hu : SlotsUnique generateSampleAvailability := by
    unfold SlotsUnique
    decide
  have h := toggleSlot_effect generateSampleAvailability "monday" "10:00" hu
  have h2 := toggleSlot_effect generateSampleAvailability "saturday" "09:00" hu
  ⟨hu, h.2.2.1,
    h.2.2.2.1 ⟨{ day := "monday", time := "10:00", available := true }, by decide,
      rfl, rfl⟩,
    h2.2.1 (by decide)⟩

/-! ## Saving the availability -/

/-- C20 on the code: with the sample doctor logged in, `toggleAvailability('monday',
'10:00')` negates the flag in the local copy of the session user only; after
`saveAvailability()` the stored record of the doctor and the session snapshot both
still hold the Monday 10:00 entry enabled. `toggleAvailability` never writes to the
store. -/
theorem toggle_lost_on_save :
    (toggleAvailability doctorSessionStore "monday" "10:00").1.bind
        (fun user => user.availability) =
      some [⟨"monday", "10:00", false⟩, ⟨"tuesday", "09:00", true⟩] ∧
    (UserStorage.getById
        (saveAvailability (toggleAvailability doctorSessionStore "monday" "10:00").2).2
        "d1").bind (fun user => user.availability) =
      some [⟨"monday", "10:00", true⟩, ⟨"tuesday", "09:00", true⟩] ∧
    (getCurrentUser
        (saveAvailability (toggleAvailability doctorSessionStore "monday" "10:00").2).2).bind
        (fun user => user.availability) =
      some [⟨"monday", "10:00", true⟩, ⟨"tuesday", "09:00", true⟩] ∧
    ∀ (s : Store) (day time : String), (toggleAvailability s day time).2 = s := by
  refine ⟨by decide, by decide, by decide, ?_⟩
  intro s day time
  unfold toggleAvailability
  cases getCurrentUser s with
  | none => rfl
  | some currentUser =>
    cases h : currentUser.availability <;> simp [h]

/-! ## The hash of a password -/

theorem toInt32_step (hash : Int) (char : Nat) :
    toInt32 ((toInt32 (hash * 32) - hash) + char) = toInt32 (hash * 31 + char) := by
  unfold toInt32
  omega

theorem toInt32_congr (a : Int) (char : Nat) :
    toInt32 (toInt32 a * 31 + char) = toInt32 (a * 31 + char) := by
  unfold toInt32
  omega

theorem toInt32_range (x : Int) : -2147483648 ≤ toInt32 x ∧ toInt32 x ≤ 2147483647 := by
  unfold toInt32
  omega

theorem hash_fold (units : List Nat) (a : Int) :
    units.foldl
        (fun (hash : Int) (char : Nat) => toInt32 ((toInt32 (hash * 32) - hash) + char))
        (toInt32 a) =
      toInt32 (a * 31 ^ units.length + weightedSum units) := by
  induction units generalizing a with
  | nil => simp [weightedSum]
  | cons char rest ih =>
    rw [List.foldl_cons, toInt32_step, toInt32_congr, ih (a * 31 + char)]
    congr 1
    simp only [weightedSum, List.length_cons, pow_succ]
    ring

/-- C26. `hashPassword(p)` is the decimal representation of the signed 32-bit
wrap-around of the sum over `i` of `charCode(p[i]) * 31 ^ (n - 1 - i)`; the number
written lies between `-2^31` and `2^31 - 1`; the hash of the empty string is `0`. -/
theorem hashPassword_value (password : String) :
    hashPassword password = toString (toInt32 (weightedSum (utf16Units password))) ∧
      (-2 ^ 31 : Int) ≤ toInt32 (weightedSum (utf16Units password)) ∧
      toInt32 (weightedSum (utf16Units password)) ≤ 2 ^ 31 - 1 ∧
      hashPassword "" = "0" := by
  refine ⟨?_, ?_, ?_, by decide⟩
  · unfold hashPassword
    have h := hash_fold (utf16Units password) 0
    have h0 : toInt32 0 = 0 := by decide
    rw [h0] at h
    rw [h]
    simp
  · have := (toInt32_range (weightedSum (utf16Units password))).1
    norm_num
    exact this
  · have := (toInt32_range (weightedSum (utf16Units password))).2
    norm_num
    exact this

/-! ## Rounding to a double -/

theorem roundHalfEven_cases (q : Rat) :
    roundHalfEven q = ⌊q⌋ ∨ (roundHalfEven q = ⌊q⌋ + 1 ∧ (⌊q⌋ : Rat) < q) := by
  unfold roundHalfEven
  split_ifs with h1 h2 h3
  · exact Or.inl rfl
  · exact Or.inr ⟨rfl, by linarith⟩
  · exact Or.inl rfl
  · exact Or.inr ⟨rfl, by linarith [not_lt.mp h1]⟩

theorem roundHalfEven_le (q : Rat) (n : Int) (h : q ≤ n) : roundHalfEven q ≤ n := by
  have hfl : ⌊q⌋ ≤ n := by
    have : ((⌊q⌋ : Int) : Rat) ≤ n := le_trans (Int.floor_le q) h
    exact_mod_cast this
  rcases roundHalfEven_cases q with hr | ⟨hr, hlt⟩
  · rw [hr]; exact hfl
  · rw [hr]
    have : ((⌊q⌋ : Int) : Rat) < n := lt_of_lt_of_le hlt h
    have : ⌊q⌋ < n := by exact_mod_cast this
    omega

theorem le_roundHalfEven (q : Rat) (n : Int) (h : (n : Rat) ≤ q) : n ≤ roundHalfEven q := by
  have hfl : n ≤ ⌊q⌋ := Int.le_floor.mpr h
  rcases roundHalfEven_cases q with hr | ⟨hr, _⟩ <;> rw [hr] <;> omega

/-- A rational within a half of an integer is rounded to that integer. -/
theorem roundHalfEven_of_near (q : Rat) (n : Int) (h : |q - n| < 1 / 2) :
    roundHalfEven q = n := by
  rw [abs_lt] at h
  rcases lt_or_le q n with hlt | hge
  · have hfl : ⌊q⌋ = n - 1 := by
      rw [Int.floor_eq_iff]
      push_cast
      constructor <;> linarith
    unfold roundHalfEven
    rw [hfl]
    push_cast
    rw [if_neg (by linarith), if_pos (by linarith)]
    omega
  · have hfl : ⌊q⌋ = n := by
      rw [Int.floor_eq_iff]
      constructor <;> linarith
    unfold roundHalfEven
    rw [hfl, if_pos (by linarith)]

theorem ulpExponent_nonpos (x : Rat) (h0 : 0 ≤ x) (h : x ≤ 16) : ulpExponent x ≤ 0 := by
  unfold ulpExponent
  rw [abs_of_nonneg h0]
  apply max_le _ (by norm_num)
  rcases eq_or_lt_of_le h0 with h0 | h0
  · rw [← h0, Int.log_of_right_le_zero 2 (le_refl (0 : Rat))]
    norm_num
  · have h4 : Int.log 2 x ≤ Int.log 2 ((2 : Rat) ^ (4 : Int)) :=
      Int.log_mono_right h0 (by norm_num; exact h)
    have := Int.log_zpow (R := Rat) (b := 2) (by norm_num) 4
    simp only [Nat.cast_ofNat] at this
    rw [this] at h4
    omega

/-- In the binade of exponent `e`, above the subnormal numbers, the unit in the last
place is `2 ^ (e - 52)`. -/
theorem ulpExponent_of_binade (x : Rat) (e : Int) (hlow : (2 : Rat) ^ e ≤ |x|)
    (hhigh : |x| < 2 ^ (e + 1)) (hnormal : -1022 ≤ e) : ulpExponent x = e - 52 := by
  have hpos : 0 < |x| := lt_of_lt_of_le (zpow_pos (by norm_num) e) hlow
  have h1 : e ≤ Int.log 2 |x| := by
    have := (Int.zpow_le_iff_le_log (R := Rat) (b := 2) (by norm_num) hpos (x := e)).mp
    exact this (by simpa using hlow)
  have h2 : Int.log 2 |x| < e + 1 := by
    have := (Int.lt_zpow_iff_log_lt (R := Rat) (b := 2) (by norm_num) hpos (x := e + 1)).mp
    exact this (by simpa using hhigh)
  unfold ulpExponent
  omega

/-- The double nearest to a positive `x` of the binade of exponent `e`: the multiple
`n * 2 ^ (e - 52)` from which `x` is less than half a unit in the last place away. -/
theorem roundToDouble_of_near (x : Rat) (e n : Int) (hlow : (2 : Rat) ^ e ≤ x)
    (hhigh : x < 2 ^ (e + 1)) (hnormal : -1022 ≤ e)
    (hnear1 : (n : Rat) - 1 / 2 < x / 2 ^ (e - 52))
    (hnear2 : x / 2 ^ (e - 52) < n + 1 / 2) :
    roundToDouble x = n * 2 ^ (e - 52) := by
  have hpos : 0 < x := lt_of_lt_of_le (zpow_pos (by norm_num) e) hlow
  unfold roundToDouble
  rw [ulpExponent_of_binade x e (by rwa [abs_of_pos hpos]) (by rwa [abs_of_pos hpos])
    hnormal, roundHalfEven_of_near _ n (abs_lt.mpr ⟨by linarith, by linarith⟩)]

/-- A rational between 0 and a natural number of at most 16 is rounded to a double
between 0 and that number, the number being a double itself. -/
theorem roundToDouble_range (x : Rat) (c : Nat) (h0 : 0 ≤ x) (hc : x ≤ c) (h16 : c ≤ 16) :
    0 ≤ roundToDouble x ∧ roundToDouble x ≤ c := by
  have hx16 : x ≤ 16 := le_trans hc (by exact_mod_cast h16)
  have hk := ulpExponent_nonpos x h0 hx16
  unfold roundToDouble
  generalize ulpExponent x = k at hk
  have hp : (0 : Rat) < 2 ^ k := zpow_pos (by norm_num) k
  obtain ⟨m, rfl⟩ : ∃ m : Nat, k = -(m : Int) := ⟨k.natAbs, by omega⟩
  have hcm : (c : Rat) = ((c * 2 ^ m : Nat) : Int) * (2 : Rat) ^ (-(m : Int)) := by
    rw [zpow_neg, zpow_natCast]
    push_cast
    field_simp
  constructor
  · apply mul_nonneg _ hp.le
    have : (0 : Int) ≤ roundHalfEven (x / 2 ^ (-(m : Int))) :=
      le_roundHalfEven _ 0 (by simpa using div_nonneg h0 hp.le)
    exact_mod_cast this
  · rw [hcm]
    apply mul_le_mul_of_nonneg_right _ hp.le
    have : roundHalfEven (x / 2 ^ (-(m : Int))) ≤ ((c * 2 ^ m : Nat) : Int) := by
      apply roundHalfEven_le
      rw [div_le_iff₀ hp, ← hcm]
      exact hc
    exact_mod_cast this

/-- The mean of a rating between 0 and 5 and an input between 1 and 5, as double
arithmetic gives it, lies between 0 and 5. -/
theorem doubleMean_range (old input : Rat) (h0 : 0 ≤ old) (hmax : old ≤ 5)
    (h1 : 1 ≤ input) (h5 : input ≤ 5) :
    0 ≤ doubleMean old input ∧ doubleMean old input ≤ 5 := by
  obtain ⟨hs0, hs10⟩ := roundToDouble_range (old + input) 10 (by linarith)
    (by push_cast; linarith) (by norm_num)
  have h := roundToDouble_range (roundToDouble (old + input) / 2) 5 (by linarith)
    (by push_cast at hs10 ⊢; linarith) (by norm_num)
  simpa [doubleMean] using h

/-- The ratings 4 and 5 have the mean 4.5, a double. -/
theorem doubleMean_four_five : doubleMean 4 5 = 9 / 2 := by
  have h1 : roundToDouble (4 + 5) = 9 := by
    rw [roundToDouble_of_near (4 + 5) 3 (9 * 2 ^ 49) (by norm_num) (by norm_num)
      (by norm_num) (by norm_num) (by norm_num)]
    norm_num
  unfold doubleMean
  rw [h1, roundToDouble_of_near (9 / 2) 2 (9 * 2 ^ 49) (by norm_num) (by norm_num)
    (by norm_num) (by norm_num) (by norm_num)]
  norm_num

/-- The mean of 0 and 4 is 2 in double arithmetic as it is in exact arithmetic. -/
theorem doubleMean_zero_four : doubleMean 0 4 = 2 := by
  have h1 : roundToDouble (0 + 4) = 4 := by
    rw [roundToDouble_of_near (0 + 4) 2 (2 ^ 52) (by norm_num) (by norm_num)
      (by norm_num) (by norm_num) (by norm_num)]
    norm_num
  unfold doubleMean
  rw [h1, roundToDouble_of_near (4 / 2) 1 (2 ^ 52) (by norm_num) (by norm_num)
    (by norm_num) (by norm_num) (by norm_num)]
  norm_num

/-- The rounding shows: for the rating `1 + 2 ^ (-52)`, the double that follows 1, and
the input 4, the sum is rounded to 5 and the mean in double arithmetic is 2.5, which
is not the exact mean. -/
theorem doubleMean_is_rounded :
    doubleMean (1 + 2 ^ (-52 : Int)) 4 = 5 / 2 ∧
      ((1 + 2 ^ (-52 : Int)) + 4) / 2 ≠ (5 / 2 : Rat) := by
  have h1 : roundToDouble ((1 + 2 ^ (-52 : Int)) + 4) = 5 := by
    rw [roundToDouble_of_near ((1 + 2 ^ (-52 : Int)) + 4) 2 (5 * 2 ^ 50) (by norm_num)
      (by norm_num) (by norm_num) (by norm_num) (by norm_num)]
    norm_num
  unfold doubleMean
  rw [h1]
  constructor
  · rw [roundToDouble_of_near (5 / 2) 1 (5 * 2 ^ 50) (by norm_num) (by norm_num)
      (by norm_num) (by norm_num) (by norm_num)]
    norm_num
  · norm_num

/-! ## Rating a doctor -/

theorem rateDoctor_rejected (s : Store) (doctorId : String) :
    rateDoctor none s doctorId = s ∧
      ∀ input : Rat, input < 1 ∨ input > 5 → rateDoctor (some input) s doctorId = s := by
  refine ⟨rfl, ?_⟩
  intro input h
  simp [rateDoctor, h]

theorem rateDoctor_unknown (numRating : Option Rat) (s : Store) (doctorId : String)
    (h : UserStorage.getById s doctorId = none) : rateDoctor numRating s doctorId = s := by
  unfold rateDoctor
  cases numRating with
  | none => rfl
  | some n =>
    by_cases hr : n < 1 ∨ n > 5
    · simp only [hr, if_true]
    · simp only [hr, if_false, h]

theorem rateDoctor_accepted (s : Store) (doctorId : String) (doctor : User) (input : Rat)
    (hget : UserStorage.getById s doctorId = some doctor)
    (h1 : 1 ≤ input) (h5 : input ≤ 5) :
    ∃ l1 l2, UserStorage.getAll s = l1 ++ doctor :: l2 ∧ (∀ y ∈ l1, y.id ≠ doctorId) ∧
      rateDoctor (some input) s doctorId =
        { s with
          users := some
            (l1 ++ { doctor with rating := some (newRatingOf doctor input) } :: l2) } := by
  obtain ⟨l1, l2, hl, hid, hall⟩ := user_getById_split s doctorId doctor hget
  refine ⟨l1, l2, hl, hall, ?_⟩
  have hr : ¬ (input < 1 ∨ input > 5) := by
    rintro (h | h)
    · exact absurd h1 (not_le.mpr h)
    · exact absurd h5 (not_le.mpr h)
  have hu := user_update_of_split s doctorId
    { rating := some (some (newRatingOf doctor input)) } doctor l1 l2 hl hid hall
  unfold rateDoctor
  simp only [hr, if_false, hget]
  unfold newRatingOf doubleMean at hu
  rw [hu]
  rfl

/-- C23, as stated, fails: for the doctor `d1` whose stored rating is 0, as
registration leaves it, the input 4 sets the stored rating to 4, whereas
`(0 + 4) / 2` is 2, in exact arithmetic and in double arithmetic alike. -/
theorem first_rating_not_averaged :
    UserStorage.getById freshDoctorStore "d1" = some freshDoctor ∧
      freshDoctor.rating = some 0 ∧
      (UserStorage.getById (rateDoctor (some 4) freshDoctorStore "d1") "d1").bind
          (fun user => user.rating) = some 4 ∧
      ((0 : Rat) + 4) / 2 = 2 ∧ doubleMean 0 4 = 2 ∧ (2 : Rat) ≠ 4 := by
  refine ⟨by decide, by decide, by decide, by norm_num, doubleMean_zero_four, by norm_num⟩

/-- C23, amended. For a doctor that the id resolves to and an input between 1 and 5,
`rateDoctor` sets the stored rating of that doctor, when the stored rating `old` is
above 0, to `(old + input) / 2` as double arithmetic gives it, the sum being rounded
to the nearest double and then its half, and, when the stored rating is not above 0
or is missing, to the input; it changes no other field of any user. An input that is
not a number or lies outside 1 to 5 leaves the store unchanged. -/
theorem rateDoctor_effect (s : Store) (doctorId : String) (doctor : User) (input : Rat)
    (hget : UserStorage.getById s doctorId = some doctor)
    (h1 : 1 ≤ input) (h5 : input ≤ 5) :
    (∃ l1 l2, UserStorage.getAll s = l1 ++ doctor :: l2 ∧ (∀ y ∈ l1, y.id ≠ doctorId) ∧
      rateDoctor (some input) s doctorId =
        { s with
          users := some
            (l1 ++ { doctor with rating := some (newRatingOf doctor input) } :: l2) }) ∧
    (∀ old, doctor.rating = some old → 0 < old →
      newRatingOf doctor input = roundToDouble (roundToDouble (old + input) / 2)) ∧
    (∀ old, doctor.rating = some old → old ≤ 0 → newRatingOf doctor input = input) ∧
    (doctor.rating = none → newRatingOf doctor input = input) ∧
    rateDoctor none s doctorId = s ∧
    ∀ other : Rat, other < 1 ∨ other > 5 → rateDoctor (some other) s doctorId = s := by
  refine ⟨rateDoctor_accepted s doctorId doctor input hget h1 h5, ?_, ?_, ?_,
    (rateDoctor_rejected s doctorId).1, (rateDoctor_rejected s doctorId).2⟩
  · intro old hold hpos
    simp [newRatingOf, doubleMean, hold, hpos]
  · intro old hold hle
    simp [newRatingOf, hold, not_lt.mpr hle]
  · intro h
    simp [newRatingOf, h]

/-- For the doctor `d1` with the stored rating 4, the input 5 is accepted and the
rating written is 4.5, the mean of 4 and 5, which double arithmetic gives exactly. -/
theorem rateDoctor_effect_witness :
    UserStorage.getById ratedDoctorStore "d1" = some ratedDoctor ∧
      ratedDoctor.rating = some 4 ∧
      (∃ l1 l2, UserStorage.getAll ratedDoctorStore = l1 ++ ratedDoctor :: l2 ∧
        (∀ y ∈ l1, y.id ≠ "d1") ∧
        rateDoctor (some 5) ratedDoctorStore "d1" =
          { ratedDoctorStore with
            users := some
              (l1 ++ { ratedDoctor with rating := some (newRatingOf ratedDoctor 5) }
                :: l2) }) ∧
      newRatingOf ratedDoctor 5 = 9 / 2 :=
  have h := rateDoctor_effect ratedDoctorStore "d1" ratedDoctor 5 (by decide) (by decide)
    (by decide)
  ⟨by decide, rfl, h.1, (h.2.1 4 rfl (by decide)).trans doubleMean_four_five⟩

theorem newRatingOf_range (doctor : User) (input : Rat) (h1 : 1 ≤ input) (h5 : input ≤ 5)
    (hr : ∀ r, doctor.rating = some r → 0 ≤ r ∧ r ≤ 5) :
    0 ≤ newRatingOf doctor input ∧ newRatingOf doctor input ≤ 5 := by
  unfold newRatingOf
  cases hrat : doctor.rating with
  | none =>
    simp only [Option.getD_none, gt_iff_lt, lt_self_iff_false, if_false]
    exact ⟨le_trans (by norm_num) h1, h5⟩
  | some old =>
    obtain ⟨h0, hmax⟩ := hr old hrat
    simp only [Option.getD_some]
    split
    · exact doubleMean_range old input h0 hmax h1 h5
    · exact ⟨le_trans (by norm_num) h1, h5⟩

theorem rateDoctor_keeps_range (numRating : Option Rat) (s : Store) (doctorId : String)
    (h : RatingsInRange (UserStorage.getAll s)) :
    RatingsInRange (UserStorage.getAll (rateDoctor numRating s doctorId)) := by
  cases numRating with
  | none => exact h
  | some input =>
    by_cases hr : input < 1 ∨ input > 5
    · rw [(rateDoctor_rejected s doctorId).2 input hr]
      exact h
    · have h1 : 1 ≤ input := not_lt.mp fun hlt => hr (Or.inl hlt)
      have h5 : input ≤ 5 := not_lt.mp fun hgt => hr (Or.inr hgt)
      cases hget : UserStorage.getById s doctorId with
      | none =>
        rw [rateDoctor_unknown _ s doctorId hget]
        exact h
      | some doctor =>
        obtain ⟨l1, l2, hl, _, hrun⟩ := rateDoctor_accepted s doctorId doctor input hget h1 h5
        rw [hrun]
        rw [hl] at h
        show RatingsInRange (l1 ++ _ :: l2)
        intro u hu r hur
        rcases List.mem_append.mp hu with hu | hu
        · exact h u (by simp [hu]) r hur
        · rcases List.mem_cons.mp hu with hu | hu
          · subst hu
            simp only [Option.some.injEq] at hur
            subst hur
            exact newRatingOf_range doctor input h1 h5
              (fun r0 hr0 => h doctor (by simp) r0 hr0)
          · exact h u (by simp [hu]) r hur

/-- C24. A doctor created by `UserStorage.create` has the rating 0, in the record
returned, which is the record appended to the store; and when every stored rating lies
between 0 and 5, it does so again after any call of `rateDoctor`, whether the input is
accepted or turned down: the rated doctor gets the rating that double arithmetic
gives, which lies between 0 and 5, and every other user keeps the one it had. -/
theorem rating_stays_in_range (newId now : String) (numRating : Option Rat) (s : Store)
    (doctorId : String) :
    (∀ userData : UserData, userData.role = "doctor" →
      (UserStorage.create newId now s userData).1.rating = some 0 ∧
      UserStorage.getAll (UserStorage.create newId now s userData).2 =
        UserStorage.getAll s ++ [(UserStorage.create newId now s userData).1]) ∧
    (RatingsInRange (UserStorage.getAll s) →
      RatingsInRange (UserStorage.getAll (rateDoctor numRating s doctorId))) ∧
    ∀ doctor input, UserStorage.getById s doctorId = some doctor →
      (∀ r, doctor.rating = some r → 0 ≤ r ∧ r ≤ 5) → 1 ≤ input → input ≤ 5 →
      ∃ l1 l2, UserStorage.getAll s = l1 ++ doctor :: l2 ∧
        UserStorage.getAll (rateDoctor (some input) s doctorId) =
          l1 ++ { doctor with rating := some (newRatingOf doctor input) } :: l2 ∧
        newRatingOf doctor input =
          (if doctor.rating.getD 0 > 0 then
            roundToDouble (roundToDouble (doctor.rating.getD 0 + input) / 2)
          else input) ∧
        0 ≤ newRatingOf doctor input ∧ newRatingOf doctor input ≤ 5 := by
  refine ⟨?_, rateDoctor_keeps_range numRating s doctorId, ?_⟩
  · intro userData hrole
    exact ⟨by simp [UserStorage.create, hrole], create_users newId now s userData⟩
  · intro doctor input hget hr h1 h5
    obtain ⟨l1, l2, hl, _, hrun⟩ := rateDoctor_accepted s doctorId doctor input hget h1 h5
    refine ⟨l1, l2, hl, ?_, rfl, newRatingOf_range doctor input h1 h5 hr⟩
    rw [hrun]
    rfl

/-- In the store whose doctor is rated 4, the ratings are in range, and they are so
again after the input 5 for that doctor. -/
theorem rating_stays_in_range_witness :
    RatingsInRange (UserStorage.getAll ratedDoctorStore) ∧
      RatingsInRange (UserStorage.getAll (rateDoctor (some 5) ratedDoctorStore "d1")) ∧
      (UserStorage.create "u9" "t9" ratedDoctorStore (registrationData doctorForm)).1.rating =
        some 0 :=
  have hrange : RatingsInRange (UserStorage.getAll ratedDoctorStore) := by
    intro u hu r hur
    have hu2 : u = ratedDoctor ∨ u = samplePatient := by
      simpa [ratedDoctorStore, UserStorage.getAll] using hu
    rcases hu2 with rfl | rfl
    · have : r = 4 := by
        have h4 : ratedDoctor.rating = some 4 := rfl
        rw [h4] at hur
        exact (Option.some.inj hur).symm
      subst this
      decide
    · have hnone : samplePatient.rating = none := rfl
      rw [hnone] at hur
      cases hur
  have h := rating_stays_in_range "u9" "t9" (some 5) ratedDoctorStore "d1"
  ⟨hrange, h.2.1 hrange, (h.1 (registrationData doctorForm) (by decide)).1⟩

/-! ## Admin credential repair -/

theorem repair_of_no_admin (newId now : String) (s : Store)
    (h : (UserStorage.getAll s).find? (fun user => user.role == "admin") = none) :
    updateAdminCredentials newId now s =
      { s with users := some (UserStorage.getAll s ++
          [{ id := newId, name := "Admin User", email := "admin@docbook.com",
             passwordHash := hashPassword "Admin123", role := "admin",
             approved := true, createdAt := now }]) } := by
  simp only [updateAdminCredentials, h]

theorem repair_of_canonical (newId now : String) (s : Store) (adminUser : User)
    (h : (UserStorage.getAll s).find? (fun user => user.role == "admin") = some adminUser)
    (he : adminUser.email = "admin@docbook.com") :
    updateAdminCredentials newId now s = s := by
  simp [updateAdminCredentials, h, he]

theorem repair_of_other_email (newId now : String) (s : Store) (adminUser : User)
    (h : (UserStorage.getAll s).find? (fun user => user.role == "admin") = some adminUser)
    (he : adminUser.email ≠ "admin@docbook.com") :
    updateAdminCredentials newId now s =
      (UserStorage.update s adminUser.id
        { email := some "admin@docbook.com"
          passwordHash := some (hashPassword "Admin123") }).2 := by
  simp [updateAdminCredentials, h, he]

theorem initializeApp_of_initialized (seed : SeedValues) (newId now : String) (s : Store)
    (h : s.initialized = true) :
    initializeApp seed newId now s = updateAdminCredentials newId now s := by
  simp [initializeApp, h]

set_option maxRecDepth 8000 in
/-- C21, as stated, fails: an admin that already has the email `admin@docbook.com`
is left as it is, with a hash that is not the one of `Admin123`; and when a user
stored before the admin carries the id of the admin, the repair rewrites that user
and the admin keeps its other email. -/
theorem repair_leaves_stale_hash :
    (staleAdminStore.initialized = true ∧
      initializeApp sampleSeed "n1" "t1" staleAdminStore = staleAdminStore ∧
      ∀ u ∈ UserStorage.getAll (initializeApp sampleSeed "n1" "t1" staleAdminStore),
        ¬ (u.role = "admin" ∧ u.email = "admin@docbook.com" ∧
          u.passwordHash = hashPassword "Admin123")) ∧
    (sharedIdStore.initialized = true ∧
      ∀ u ∈ UserStorage.getAll (initializeApp sampleSeed "n1" "t1" sharedIdStore),
        ¬ (u.role = "admin" ∧ u.email = "admin@docbook.com")) := by
  decide

/-- C21, amended. For an already-initialized store whose user ids are pairwise
distinct, after the admin repair run by `initializeApp` the users collection holds a
user with the role admin and the email `admin@docbook.com`; its hash is the one of
`Admin123` when no admin was stored or the first stored admin had another email; and
when the first stored admin already had that email the store is left as it was. -/
theorem admin_repair_result (seed : SeedValues) (newId now : String) (s : Store)
    (hinit : s.initialized = true)
    (hids : ((UserStorage.getAll s).map fun user => user.id).Nodup) :
    (∃ admin ∈ UserStorage.getAll (initializeApp seed newId now s),
      admin.role = "admin" ∧ admin.email = "admin@docbook.com") ∧
    (((UserStorage.getAll s).find? (fun user => user.role == "admin") = none ∨
        ∃ a, (UserStorage.getAll s).find? (fun user => user.role == "admin") = some a ∧
          a.email ≠ "admin@docbook.com") →
      ∃ admin ∈ UserStorage.getAll (initializeApp seed newId now s),
        admin.role = "admin" ∧ admin.email = "admin@docbook.com" ∧
          admin.passwordHash = hashPassword "Admin123") ∧
    (∀ a, (UserStorage.getAll s).find? (fun user => user.role == "admin") = some a →
      a.email = "admin@docbook.com" → initializeApp seed newId now s = s) := by
  rw [initializeApp_of_initialized seed newId now s hinit]
  have hcreated : (UserStorage.getAll s).find? (fun user => user.role == "admin") = none →
      ∃ admin ∈ UserStorage.getAll (updateAdminCredentials newId now s),
        admin.role = "admin" ∧ admin.email = "admin@docbook.com" ∧
          admin.passwordHash = hashPassword "Admin123" := by
    intro hnone
    rw [repair_of_no_admin newId now s hnone]
    let created : User :=
      { id := newId, name := "Admin User", email := "admin@docbook.com",
        passwordHash := hashPassword "Admin123", role := "admin", approved := true,
        createdAt := now }
    exact ⟨created, by simp [UserStorage.getAll, created], rfl, rfl, rfl⟩
  have hfixed : ∀ a,
      (UserStorage.getAll s).find? (fun user => user.role == "admin") = some a →
      a.email ≠ "admin@docbook.com" →
      ∃ admin ∈ UserStorage.getAll (updateAdminCredentials newId now s),
        admin.role = "admin" ∧ admin.email = "admin@docbook.com" ∧
          admin.passwordHash = hashPassword "Admin123" := by
    intro a hfind he
    obtain ⟨hrole, l1, l2, hl, _⟩ := List.find?_eq_some.mp hfind
    have hrole2 : a.role = "admin" := by simpa using hrole
    have hall : ∀ y ∈ l1, y.id ≠ a.id := by
      intro y hy hyid
      rw [hl, List.map_append, List.map_cons, List.nodup_append] at hids
      exact hids.2.2 (List.mem_map.mpr ⟨y, hy, hyid⟩) (by simp)
    rw [repair_of_other_email newId now s a hfind he,
      user_update_of_split s a.id _ a l1 l2 hl rfl hall]
    refine ⟨UserStorage.merge a
      { email := some "admin@docbook.com"
        passwordHash := some (hashPassword "Admin123") }, ?_, ?_, rfl, rfl⟩
    · simp [UserStorage.getAll]
    · exact hrole2
  refine ⟨?_, ?_, ?_⟩
  · cases hfind : (UserStorage.getAll s).find? (fun user => user.role == "admin") with
    | none =>
      obtain ⟨admin, hm, h1, h2, _⟩ := hcreated hfind
      exact ⟨admin, hm, h1, h2⟩
    | some a =>
      by_cases he : a.email = "admin@docbook.com"
      · rw [repair_of_canonical newId now s a hfind he]
        exact ⟨a, List.mem_of_find?_eq_some hfind, by simpa using List.find?_some hfind, he⟩
      · obtain ⟨admin, hm, h1, h2, _⟩ := hfixed a hfind he
        exact ⟨admin, hm, h1, h2⟩
  · rintro (hnone | ⟨a, hfind, he⟩)
    · exact hcreated hnone
    · exact hfixed a hfind he
  · intro a hfind he
    exact repair_of_canonical newId now s a hfind he

set_option maxRecDepth 8000 in
/-- The store with the admin of an earlier seed alone: the repair gives it the email
`admin@docbook.com` and the hash of `Admin123`. -/
theorem admin_repair_result_witness :
    ({ oldAdminStore with users := some [oldAdmin] } : Store).initialized = true ∧
      ∃ admin ∈ UserStorage.getAll
          (initializeApp sampleSeed "n1" "t1" { oldAdminStore with users := some [oldAdmin] }),
        admin.role = "admin" ∧ admin.email = "admin@docbook.com" ∧
          admin.passwordHash = hashPassword "Admin123" :=
  ⟨rfl,
    (admin_repair_result sampleSeed "n1" "t1" { oldAdminStore with users := some [oldAdmin] }
      rfl (by decide)).2.1 (Or.inr ⟨oldAdmin, by decide, by decide⟩)⟩

set_option maxRecDepth 8000 in
/-- C30 on the code: in the initialized store with the admin of an earlier seed and a
patient registered with `admin@docbook.com`, the emails are pairwise distinct; the
repair writes `admin@docbook.com` into the admin record without looking for a holder
of that email, and two stored users have the same email afterwards. -/
theorem repair_duplicates_email :
    oldAdminStore.initialized = true ∧
      EmailsUnique (UserStorage.getAll oldAdminStore) ∧
      (UserStorage.getAll (updateAdminCredentials "n1" "t1" oldAdminStore)).map
          (fun user => user.email) = ["admin@docbook.com", "admin@docbook.com"] ∧
      ¬ EmailsUnique (UserStorage.getAll (updateAdminCredentials "n1" "t1" oldAdminStore)) := by
  unfold EmailsUnique
  decide

/-! ## Rescheduling whatever the status -/

theorem handleReschedule_of_free (weekdayOf : String → String) (s : Store)
    (form : RescheduleForm) (a : Appointment)
    (hget : AppointmentStorage.getById s form.appointmentId = some a)
    (hDate : form.newDate ≠ "") (hTime : form.newTime ≠ "")
    (hFree : isSlotAvailable weekdayOf s a.doctorId form.newDate form.newTime = true) :
    ∃ l1 l2, AppointmentStorage.getAll s = l1 ++ a :: l2 ∧
      (∀ y ∈ l1, y.id ≠ form.appointmentId) ∧
      handleRescheduleSubmission weekdayOf s form =
        (.rescheduled (rescheduledAppointment a form.newDate form.newTime),
          { s with
            appointments :=
              some (l1 ++ rescheduledAppointment a form.newDate form.newTime :: l2) }) := by
  obtain ⟨l1, l2, hl, ha, hall⟩ := getById_split s form.appointmentId a hget
  refine ⟨l1, l2, hl, hall, ?_⟩
  have hu := update_of_split s form.appointmentId
    { date := some form.newDate, time := some form.newTime, status := some "pending" }
    a l1 l2 hl ha hall
  simp [handleRescheduleSubmission, hDate, hTime, hget, hFree, hu,
    AppointmentStorage.merge, rescheduledAppointment]

/-! ## The slot of a cancelled appointment -/

theorem slotUnique_singleton (a : Appointment) : SlotUnique [a] := by
  intro doctorId date time
  unfold occupants
  rw [List.filter_cons]
  split <;> simp

/-- With unique slots, the appointments stored around a live appointment that sit on
its triple are cancelled. -/
theorem others_cancelled (l1 l2 : List Appointment) (a : Appointment)
    (hu : SlotUnique (l1 ++ a :: l2)) (hlive : a.status ≠ "cancelled") :
    ∀ apt ∈ l1 ++ l2, apt.doctorId = a.doctorId → apt.date = a.date → apt.time = a.time →
      apt.status = "cancelled" := by
  have hlen := hu a.doctorId a.date a.time
  rw [occupants_length_split] at hlen
  have hocc : occupies a.doctorId a.date a.time a = true :=
    (occupies_eq_true _ _ _ _).mpr ⟨rfl, rfl, rfl, hlive⟩
  simp only [hocc, if_true] at hlen
  have h1 : occupants l1 a.doctorId a.date a.time = [] :=
    List.eq_nil_of_length_eq_zero (by omega)
  have h2 : occupants l2 a.doctorId a.date a.time = [] :=
    List.eq_nil_of_length_eq_zero (by omega)
  intro apt hapt
  rcases List.mem_append.mp hapt with h | h
  · exact (occupants_eq_nil_iff _ _ _ _).mp h1 apt h
  · exact (occupants_eq_nil_iff _ _ _ _).mp h2 apt h

/-- After the status of the single live appointment of a triple is overwritten with
cancelled, the slot is available when the template of the doctor enables it. -/
theorem available_after_cancel (weekdayOf : String → String) (s : Store)
    (a : Appointment) (hu : SlotUnique (AppointmentStorage.getAll s))
    (htemplate : ∃ doctor availability,
      UserStorage.getById s a.doctorId = some doctor ∧
      doctor.availability = some availability ∧
      ∃ slot ∈ availability,
        slot.day = weekdayOf a.date ∧ slot.time = a.time ∧ slot.available = true)
    (hget : AppointmentStorage.getById s a.id = some a)
    (hlive : a.status ≠ "cancelled") (currentUser : Option User) :
    isSlotAvailable weekdayOf
      { (statusResult (AppointmentStorage.update s a.id { status := some "cancelled" })).2
        with currentUser := currentUser }
      a.doctorId a.date a.time = true := by
  obtain ⟨l1, l2, hl, _, hrun⟩ := ((statusResult_overwrites "cancelled") s a.id).1 a hget
  have hrun2 : statusResult
      (AppointmentStorage.update s a.id { status := some "cancelled" }) =
      (.updated (withStatus a "cancelled"),
        { s with appointments := some (l1 ++ withStatus a "cancelled" :: l2) }) := hrun
  rw [hrun2, isSlotAvailable_eq_true_iff]
  refine ⟨htemplate, ?_⟩
  rw [hl] at hu
  have hothers := others_cancelled l1 l2 a hu hlive
  intro apt hapt h1 h2 h3
  have hapt2 : apt ∈ l1 ++ withStatus a "cancelled" :: l2 := hapt
  rcases List.mem_append.mp hapt2 with h | h
  · exact hothers apt (by simp [h]) h1 h2 h3
  · rcases List.mem_cons.mp h with h | h
    · rw [h]
      rfl
    · exact hothers apt (by simp [h]) h1 h2 h3

/-! ## Registration followed by login -/

theorem getByEmail_append_new (s : Store) (users : List User) (newUser : User)
    (hunused : ∀ u ∈ users, u.email ≠ newUser.email) :
    UserStorage.getByEmail { s with users := some (users ++ [newUser]) } newUser.email =
      some newUser := by
  unfold UserStorage.getByEmail
  show (users ++ [newUser]).find? (fun user => user.email == newUser.email) = some newUser
  exact find_append_cons _ users newUser [] (by simp)
    (fun y hy => by simpa using hunused y hy)

theorem create_fields (newId now : String) (s : Store) (form : RegisterForm) :
    (UserStorage.create newId now s (registrationData form)).1.id = newId ∧
      (UserStorage.create newId now s (registrationData form)).1.role = form.role ∧
      (UserStorage.create newId now s (registrationData form)).1.passwordHash =
        hashPassword form.password ∧
      (UserStorage.create newId now s (registrationData form)).1.approved =
        (form.role == "patient" || form.role == "admin") := by
  unfold registrationData
  split <;> exact ⟨rfl, rfl, rfl, rfl⟩

/-- C29. For an accepted registration, that is a valid form with an unused email, the
id given by `generateId()` being one that no stored user has: with the role patient,
a login with the same email and password directly afterwards succeeds with the newly
stored user; with the role doctor it fails with pending approval, and after
`approveDoctor` is applied to the id of the new user it succeeds with the approved
record. Distinct emails of the stored users are not needed. -/
theorem register_then_login (newId now : String) (s : Store) (form : RegisterForm)
    (hvalid : ValidRegistration form)
    (hunused : ∀ u ∈ UserStorage.getAll s, u.email ≠ form.email)
    (hfresh : ∀ u ∈ UserStorage.getAll s, u.id ≠ newId) :
    (form.role = "patient" →
      ∃ newUser s1, handleRegister newId now s form = (.registered newUser, s1) ∧
        handleLogin s1 form.email form.password =
          (.loggedIn newUser, { s1 with currentUser := some newUser })) ∧
    (form.role = "doctor" →
      ∃ newUser s1, handleRegister newId now s form = (.registered newUser, s1) ∧
        handleLogin s1 form.email form.password = (.pendingApproval, s1) ∧
        ∃ approved s2, approveDoctor s1 newUser.id = (.updated approved, s2) ∧
          approved = { newUser with approved := true } ∧
          handleLogin s2 form.email form.password =
            (.loggedIn approved, { s2 with currentUser := some approved })) := by
  have hnone := (getByEmail_eq_none s form.email).mpr hunused
  obtain ⟨hid, hrole, hhash, happ⟩ := create_fields newId now s form
  have hemail := create_email newId now s form
  have hlookup : UserStorage.getByEmail
      (UserStorage.create newId now s (registrationData form)).2 form.email =
      some (UserStorage.create newId now s (registrationData form)).1 := by
    have h := getByEmail_append_new s (UserStorage.getAll s)
      (UserStorage.create newId now s (registrationData form)).1
      (fun u hu => by rw [hemail]; exact hunused u hu)
    rw [hemail] at h
    exact h
  constructor
  · intro hp
    have hrun := handleRegister_of_valid newId now s form hvalid (by simp [hp]) hnone
    refine ⟨_, _, hrun, ?_⟩
    have happ2 : (UserStorage.create newId now s (registrationData form)).1.approved
        = true := by
      rw [happ]
      simp [hp]
    simp [handleLogin, hlookup, hhash, happ2, SessionStorage.setCurrentUser]
  · intro hd
    have hrun := handleRegister_of_valid newId now s form hvalid (by simp [hd]) hnone
    have happ2 : (UserStorage.create newId now s (registrationData form)).1.approved
        = false := by
      rw [happ]
      simp [hd]
    have hrole2 : (UserStorage.create newId now s (registrationData form)).1.role
        = "doctor" := by
      rw [hrole, hd]
    refine ⟨_, _, hrun, ?_, ?_⟩
    · simp [handleLogin, hlookup, hhash, happ2, hrole2]
    · have hupd := user_update_of_split
        (UserStorage.create newId now s (registrationData form)).2
        (UserStorage.create newId now s (registrationData form)).1.id
        { approved := some true }
        (UserStorage.create newId now s (registrationData form)).1
        (UserStorage.getAll s) [] rfl rfl
        (fun y hy => by rw [hid]; exact hfresh y hy)
      have happrove : approveDoctor
          (UserStorage.create newId now s (registrationData form)).2
          (UserStorage.create newId now s (registrationData form)).1.id =
          (.updated (UserStorage.merge
              (UserStorage.create newId now s (registrationData form)).1
              { approved := some true }),
            { (UserStorage.create newId now s (registrationData form)).2 with
              users := some (UserStorage.getAll s ++
                [UserStorage.merge
                  (UserStorage.create newId now s (registrationData form)).1
                  { approved := some true }]) }) := by
        unfold approveDoctor
        rw [hupd]
      refine ⟨_, _, happrove, rfl, ?_⟩
      have hlookup2 := getByEmail_append_new
        (UserStorage.create newId now s (registrationData form)).2
        (UserStorage.getAll s)
        (UserStorage.merge (UserStorage.create newId now s (registrationData form)).1
          { approved := some true })
        (fun u hu => by
          show u.email ≠ (UserStorage.create newId now s (registrationData form)).1.email
          rw [hemail]
          exact hunused u hu)
      have hemail2 : (UserStorage.merge
          (UserStorage.create newId now s (registrationData form)).1
          { approved := some true }).email = form.email := hemail
      rw [hemail2] at hlookup2
      have hhash2 : (UserStorage.merge
          (UserStorage.create newId now s (registrationData form)).1
          { approved := some true }).passwordHash = hashPassword form.password := hhash
      have happ3 : (UserStorage.merge
          (UserStorage.create newId now s (registrationData form)).1
          { approved := some true }).approved = true := rfl
      simp [handleLogin, hlookup2, hhash2, happ3, SessionStorage.setCurrentUser]

set_option maxRecDepth 8000 in
/-- In the sample store, the patient form is registered and the patient logs in at
once; the doctor form is registered, the doctor is told to wait, and logs in after
the approval. -/
theorem register_then_login_witness :
    ValidRegistration patientForm ∧ ValidRegistration doctorForm ∧
      (∃ newUser s1,
        handleRegister "u9" "t9" sampleStore patientForm = (.registered newUser, s1) ∧
        handleLogin s1 patientForm.email patientForm.password =
          (.loggedIn newUser, { s1 with currentUser := some newUser })) ∧
      ∃ newUser s1,
        handleRegister "u9" "t9" sampleStore doctorForm = (.registered newUser, s1) ∧
        handleLogin s1 doctorForm.email doctorForm.password = (.pendingApproval, s1) ∧
        ∃ approved s2, approveDoctor s1 newUser.id = (.updated approved, s2) ∧
          approved = { newUser with approved := true } ∧
          handleLogin s2 doctorForm.email doctorForm.password =
            (.loggedIn approved, { s2 with currentUser := some approved }) :=
  have hvp : ValidRegistration patientForm := by
    unfold ValidRegistration
    decide
  have hvd : ValidRegistration doctorForm := by
    unfold ValidRegistration
    decide
  ⟨hvp, hvd,
    (register_then_login "u9" "t9" sampleStore patientForm hvp (by decide) (by decide)).1
      rfl,
    (register_then_login "u9" "t9" sampleStore doctorForm hvd (by decide) (by decide)).2
      rfl⟩

/-! ## The weekday that the host names -/

/-- In a host at UTC or east of it, the day named for a date is the weekday of that
date. -/
theorem hostWeekday_of_east (offsetMinutes : Int) (date : String)
    (h0 : 0 ≤ offsetMinutes) (h1 : offsetMinutes < 1440) :
    hostWeekday offsetMinutes date = weekdayOfDate date := by
  unfold hostWeekday weekdayOfDate
  cases parseCalendarDate date with
  | none => rfl
  | some ymd =>
    obtain ⟨year, month, day⟩ := ymd
    simp only
    congr 1
    omega

/-- In a host west of UTC, by less than a day, the day named for a date is the
weekday of the day before. -/
theorem hostWeekday_of_west (offsetMinutes : Int) (date : String) (year month day : Nat)
    (hdate : parseCalendarDate date = some (year, month, day))
    (h0 : -1440 ≤ offsetMinutes) (h1 : offsetMinutes < 0) :
    hostWeekday offsetMinutes date = weekdayName (daysSinceEpoch year month day - 1) := by
  unfold hostWeekday
  rw [hdate]
  simp only
  congr 1
  omega

/-- The empty string of an unset date field is given the name of an invalid date in
every zone. -/
theorem hostWeekday_empty (offsetMinutes : Int) :
    hostWeekday offsetMinutes "" = "invalid date" := rfl

/-- In a host at UTC or east of it, `isSlotAvailable` is true exactly under the three
conditions on the weekday of the date. -/
theorem isSlotAvailable_east_of_utc (offsetMinutes : Int) (s : Store)
    (doctorId date time : String) (h0 : 0 ≤ offsetMinutes) (h1 : offsetMinutes < 1440) :
    isSlotAvailable (hostWeekday offsetMinutes) s doctorId date time = true ↔
      SlotFree weekdayOfDate s doctorId date time := by
  rw [isSlotAvailable_eq_true_iff]
  unfold SlotFree
  rw [hostWeekday_of_east offsetMinutes date h0 h1]

set_option maxRecDepth 8000 in
/-- C1, where the code departs from it. After a first run, Dr. Wilson (id `s2`) has
the template of `generateSampleAvailability` and no appointment on Monday 2030-01-14:
the three conditions of the claim hold for that date and 10:00, the weekday of the
date being Monday. In a host in the zone of New York, `isSlotAvailable` names the
date Sunday and returns false; in a host at UTC it returns true. -/
theorem isSlotAvailable_names_previous_day :
    weekdayOfDate "2030-01-14" = "monday" ∧
      SlotFree weekdayOfDate firstRunStore "s2" "2030-01-14" "10:00" ∧
      hostWeekday newYorkOffset "2030-01-14" = "sunday" ∧
      isSlotAvailable (hostWeekday newYorkOffset) firstRunStore "s2" "2030-01-14" "10:00" =
        false ∧
      isSlotAvailable (hostWeekday 0) firstRunStore "s2" "2030-01-14" "10:00" = true := by
  refine ⟨by decide, ?_, by decide, by decide, by decide⟩
  exact (isSlotAvailable_eq_true_iff weekdayOfDate firstRunStore "s2" "2030-01-14"
    "10:00").mp (by decide)

/-! ## Stores as the code writes them -/

theorem generateSampleAvailability_wellFormed :
    ∀ slot ∈ generateSampleAvailability, slot.day ∈ weekdayNames ∧ slot.time ≠ "" := by
  decide

/-- The store of a first run has well-formed templates, whatever the host values. -/
theorem wellFormedTemplates_firstRun (seed : SeedValues) (newId now : String) :
    WellFormedTemplates (initializeApp seed newId now emptyStore) := by
  intro user huser slot hslot
  have huser2 : user ∈ sampleUsers seed := huser
  simp only [sampleUsers, List.mem_cons, List.mem_singleton, List.not_mem_nil,
    or_false] at huser2
  rcases huser2 with rfl | rfl | rfl | rfl | rfl
  · cases hslot
  · exact generateSampleAvailability_wellFormed slot hslot
  · exact generateSampleAvailability_wellFormed slot hslot
  · exact generateSampleAvailability_wellFormed slot hslot
  · cases hslot

/-- The store of a first run has well-formed appointments when `getDateString` gives
dates. -/
theorem wellFormedAppointments_firstRun (seed : SeedValues) (newId now : String)
    (h7 : seed.dateIn7Days ≠ "") (h14 : seed.dateIn14Days ≠ "") :
    WellFormedAppointments (initializeApp seed newId now emptyStore) := by
  intro apt hapt
  have hapt2 : apt ∈ sampleAppointments seed := hapt
  simp only [sampleAppointments, List.mem_cons, List.mem_singleton, List.not_mem_nil,
    or_false] at hapt2
  rcases hapt2 with rfl | rfl
  · exact ⟨h7, by simp⟩
  · exact ⟨h14, by simp⟩

/-- A registration keeps the templates well formed. -/
theorem wellFormedTemplates_register (newId now : String) (s : Store) (form : RegisterForm)
    (h : WellFormedTemplates s) :
    WellFormedTemplates (handleRegister newId now s form).2 := by
  rcases handleRegister_cases newId now s form with hs | ⟨_, _, _, hrun⟩
  · rw [hs.1]
    exact h
  · rw [hrun]
    intro user huser slot hslot
    rw [create_users] at huser
    rcases List.mem_append.mp huser with huser | huser
    · exact h user huser slot hslot
    · rw [List.mem_singleton] at huser
      subst huser
      by_cases hrole : form.role = "doctor"
      · have hav : (UserStorage.create newId now s (registrationData form)).1.availability =
            some generateSampleAvailability := by
          simp [UserStorage.create, registrationData, hrole]
        rw [hav] at hslot
        exact generateSampleAvailability_wellFormed slot hslot
      · have hav : (UserStorage.create newId now s (registrationData form)).1.availability =
            none := by
          simp [UserStorage.create, registrationData, hrole]
        rw [hav] at hslot
        cases hslot

/-- A booking keeps the appointments well formed. -/
theorem wellFormedAppointments_booking (weekdayOf : String → String) (newId now : String)
    (s : Store) (form : BookingForm) (h : WellFormedAppointments s) :
    WellFormedAppointments (handleBookingSubmission weekdayOf newId now s form).2 := by
  rcases handleBooking_cases weekdayOf newId now s form with
    hs | ⟨u, _, hDate, hTime, _, hrun⟩
  · rw [hs.1]
    exact h
  · rw [hrun]
    intro apt hapt
    have hapt2 : apt ∈ AppointmentStorage.getAll s ++ [bookedAppointment newId now u form] :=
      hapt
    rcases List.mem_append.mp hapt2 with hapt2 | hapt2
    · exact h apt hapt2
    · rw [List.mem_singleton] at hapt2
      subst hapt2
      exact ⟨hDate, hTime⟩

/-- A reschedule keeps the appointments well formed. -/
theorem wellFormedAppointments_reschedule (weekdayOf : String → String) (s : Store)
    (form : RescheduleForm) (h : WellFormedAppointments s) :
    WellFormedAppointments (handleRescheduleSubmission weekdayOf s form).2 := by
  rcases handleReschedule_cases weekdayOf s form with
    hs | ⟨a, l1, l2, _, hl, _, hDate, hTime, _, hrun⟩
  · rw [hs.1]
    exact h
  · rw [hrun]
    intro apt hapt
    have hapt2 : apt ∈ l1 ++ rescheduledAppointment a form.newDate form.newTime :: l2 := hapt
    unfold WellFormedAppointments at h
    rw [hl] at h
    rcases List.mem_append.mp hapt2 with hapt2 | hapt2
    · exact h apt (by simp [hapt2])
    · rcases List.mem_cons.mp hapt2 with hapt2 | hapt2
      · subst hapt2
        exact ⟨hDate, hTime⟩
      · exact h apt (by simp [hapt2])

/-- An overwrite of the status keeps the appointments well formed. -/
theorem wellFormedAppointments_status (s : Store) (id status : String)
    (h : WellFormedAppointments s) :
    WellFormedAppointments
      (AppointmentStorage.update s id { status := some status }).2 := by
  rcases update_cases s id { status := some status } with
    ⟨_, hrun⟩ | ⟨a, l1, l2, _, hl, _, _, hrun⟩
  · rw [hrun]
    exact h
  · rw [hrun]
    intro apt hapt
    have hapt2 : apt ∈ l1 ++ AppointmentStorage.merge a { status := some status } :: l2 :=
      hapt
    unfold WellFormedAppointments at h
    rw [hl] at h
    rcases List.mem_append.mp hapt2 with hapt2 | hapt2
    · exact h apt (by simp [hapt2])
    · rcases List.mem_cons.mp hapt2 with hapt2 | hapt2
      · subst hapt2
        exact h a (by simp)
      · exact h apt (by simp [hapt2])

/-- The doctors of a first run carry a specialty and a location. -/
theorem doctors_typed_firstRun (seed : SeedValues) (newId now : String) :
    ∀ d ∈ UserStorage.getDoctors (initializeApp seed newId now emptyStore),
      d.specialty ≠ none ∧ d.location ≠ none := by
  intro d hd
  have hd2 : d ∈ (sampleUsers seed).filter fun user => user.role == "doctor" := hd
  simp only [sampleUsers, List.mem_filter, List.mem_cons, List.mem_singleton,
    List.not_mem_nil, or_false, beq_iff_eq] at hd2
  obtain ⟨hmem, hrole⟩ := hd2
  rcases hmem with rfl | rfl | rfl | rfl | rfl
  · simp at hrole
  · simp
  · simp
  · simp
  · simp at hrole

/-- A registration keeps the doctors with a specialty and a location: the record of a
doctor is created from a form that passed the check of these two fields. -/
theorem doctors_typed_register (newId now : String) (s : Store) (form : RegisterForm)
    (h : ∀ d ∈ UserStorage.getDoctors s, d.specialty ≠ none ∧ d.location ≠ none) :
    ∀ d ∈ UserStorage.getDoctors (handleRegister newId now s form).2,
      d.specialty ≠ none ∧ d.location ≠ none := by
  rcases handleRegister_cases newId now s form with hs | ⟨_, _, _, hrun⟩
  · rw [hs.1]
    exact h
  · rw [hrun]
    intro d hd
    unfold UserStorage.getDoctors at hd
    rw [create_users, List.filter_append, List.mem_append] at hd
    rcases hd with hd | hd
    · exact h d hd
    · simp only [List.mem_filter, List.mem_singleton, beq_iff_eq] at hd
      obtain ⟨rfl, hrole⟩ := hd
      have hform : form.role = "doctor" := by
        by_cases hf : form.role = "doctor"
        · exact hf
        · simp [UserStorage.create, registrationData, hf] at hrole
      simp [UserStorage.create, registrationData, hform]

/-- On well-formed templates, and with a host that gives the empty date the name of an
invalid date, a slot is available only for a date and a time that are not empty. -/
theorem available_has_date_and_time (weekdayOf : String → String) (s : Store)
    (doctorId date time : String) (hhost : weekdayOf "" = "invalid date")
    (hwf : WellFormedTemplates s)
    (h : isSlotAvailable weekdayOf s doctorId date time = true) :
    date ≠ "" ∧ time ≠ "" := by
  obtain ⟨⟨doctor, availability, hget, hav, slot, hmem, hday, htime, _⟩, _⟩ :=
    (isSlotAvailable_eq_true_iff weekdayOf s doctorId date time).mp h
  obtain ⟨l1, l2, hl, _, _⟩ := user_getById_split s doctorId doctor hget
  have hslot := hwf doctor (by rw [hl]; simp) slot (by simp [hav, hmem])
  constructor
  · intro hdate
    have hname := hslot.1
    rw [hday, hdate, hhost] at hname
    revert hname
    decide
  · intro htime2
    exact hslot.2 (htime.trans htime2)

/-! ## Booking on a well-formed store -/

/-- C6. On a store whose templates are as the code writes them, in a host that gives
the empty date the name of an invalid date: when `isSlotAvailable` is true, a booking
by the logged-in user appends exactly one appointment, with the requested doctorId,
date and time, the session user id as patientId and status pending, and every stored
appointment stays as it was; when `isSlotAvailable` is false no booking is made and
the store, hence the appointments collection, is unchanged. -/
theorem booking_effect (weekdayOf : String → String) (newId now : String) (s : Store)
    (form : BookingForm) (hhost : weekdayOf "" = "invalid date")
    (hwf : WellFormedTemplates s) :
    (∀ currentUser, getCurrentUser s = some currentUser →
      isSlotAvailable weekdayOf s form.doctorId form.date form.time = true →
      ∃ apt,
        handleBookingSubmission weekdayOf newId now s form =
          (.booked apt,
            { s with appointments := some (AppointmentStorage.getAll s ++ [apt]) }) ∧
        AppointmentStorage.getAll (handleBookingSubmission weekdayOf newId now s form).2 =
          AppointmentStorage.getAll s ++ [apt] ∧
        apt.doctorId = form.doctorId ∧ apt.date = form.date ∧ apt.time = form.time ∧
        apt.patientId = currentUser.id ∧ apt.status = "pending") ∧
    (isSlotAvailable weekdayOf s form.doctorId form.date form.time = false →
      (handleBookingSubmission weekdayOf newId now s form).2 = s ∧
      AppointmentStorage.getAll (handleBookingSubmission weekdayOf newId now s form).2 =
        AppointmentStorage.getAll s ∧
      (∀ apt, (handleBookingSubmission weekdayOf newId now s form).1 ≠ .booked apt) ∧
      ∀ currentUser, getCurrentUser s = some currentUser → form.date ≠ "" →
        form.time ≠ "" →
        handleBookingSubmission weekdayOf newId now s form = (.slotUnavailable, s)) := by
  constructor
  · intro currentUser hUser hFree
    obtain ⟨hDate, hTime⟩ := available_has_date_and_time weekdayOf s form.doctorId
      form.date form.time hhost hwf hFree
    have h := handleBooking_of_free weekdayOf newId now s form currentUser hUser hDate
      hTime hFree
    refine ⟨bookedAppointment newId now currentUser form, h, ?_, rfl, rfl, rfl, rfl, rfl⟩
    rw [h]
    rfl
  · intro hTaken
    rcases handleBooking_cases weekdayOf newId now s form with h | ⟨u, _, _, _, hFree, _⟩
    · refine ⟨h.1, by rw [h.1], h.2, ?_⟩
      intro currentUser hUser hDate hTime
      exact handleBooking_of_taken weekdayOf newId now s form currentUser hUser hDate
        hTime hTaken
    · rw [hTaken] at hFree
      cases hFree

set_option maxRecDepth 8000 in
/-- The sample booking: the templates are well formed, the slot is free, and the
booking appends one pending appointment of the sample patient with the sample
doctor. -/
theorem booking_effect_witness :
    (hostWeekday 0) "" = "invalid date" ∧ WellFormedTemplates sampleStore ∧
      isSlotAvailable (hostWeekday 0) sampleStore
        sampleForm.doctorId sampleForm.date sampleForm.time = true ∧
      ∃ apt,
        handleBookingSubmission (hostWeekday 0) "a1" "t1" sampleStore sampleForm =
          (.booked apt,
            { sampleStore with
              appointments := some (AppointmentStorage.getAll sampleStore ++ [apt]) }) ∧
        AppointmentStorage.getAll
            (handleBookingSubmission (hostWeekday 0) "a1" "t1" sampleStore sampleForm).2 =
          AppointmentStorage.getAll sampleStore ++ [apt] ∧
        apt.doctorId = sampleForm.doctorId ∧ apt.date = sampleForm.date ∧
        apt.time = sampleForm.time ∧
        apt.patientId = samplePatient.id ∧ apt.status = "pending" :=
  ⟨by decide, by decide, by decide,
    (booking_effect (hostWeekday 0) "a1" "t1" sampleStore sampleForm (by decide)
      (by decide)).1 samplePatient rfl (by decide)⟩

/-! ## Rescheduling on a well-formed store -/

/-- C7. On a store whose templates are as the code writes them, in a host that gives
the empty date the name of an invalid date: for a pending appointment that the id
resolves to and a new date and time for which `isSlotAvailable` is true for its
doctor, rescheduling replaces that record in place by a record with the new date, the
new time and status pending, the same as before, and with the id, doctorId,
patientId, reason and createdAt it had; every other appointment and the order are
unchanged. When the new slot is not available nothing is rescheduled and the store,
hence the appointments collection, is unchanged. -/
theorem reschedule_effect (weekdayOf : String → String) (s : Store)
    (form : RescheduleForm) (a : Appointment)
    (hhost : weekdayOf "" = "invalid date") (hwf : WellFormedTemplates s)
    (hget : AppointmentStorage.getById s form.appointmentId = some a)
    (hpending : a.status = "pending") :
    (isSlotAvailable weekdayOf s a.doctorId form.newDate form.newTime = true →
      ∃ updated l1 l2,
        AppointmentStorage.getAll s = l1 ++ a :: l2 ∧
        (∀ y ∈ l1, y.id ≠ form.appointmentId) ∧
        handleRescheduleSubmission weekdayOf s form =
          (.rescheduled updated, { s with appointments := some (l1 ++ updated :: l2) }) ∧
        updated.date = form.newDate ∧ updated.time = form.newTime ∧
        updated.status = "pending" ∧ updated.status = a.status ∧
        updated.id = a.id ∧ updated.doctorId = a.doctorId ∧
        updated.patientId = a.patientId ∧ updated.reason = a.reason ∧
        updated.createdAt = a.createdAt) ∧
    (isSlotAvailable weekdayOf s a.doctorId form.newDate form.newTime = false →
      (handleRescheduleSubmission weekdayOf s form).2 = s ∧
      AppointmentStorage.getAll (handleRescheduleSubmission weekdayOf s form).2 =
        AppointmentStorage.getAll s ∧
      (∀ updated, (handleRescheduleSubmission weekdayOf s form).1 ≠ .rescheduled updated) ∧
      (form.newDate ≠ "" → form.newTime ≠ "" →
        handleRescheduleSubmission weekdayOf s form = (.slotUnavailable, s))) := by
  constructor
  · intro hFree
    obtain ⟨hDate, hTime⟩ := available_has_date_and_time weekdayOf s a.doctorId
      form.newDate form.newTime hhost hwf hFree
    obtain ⟨l1, l2, hl, hall, hrun⟩ :=
      handleReschedule_of_free weekdayOf s form a hget hDate hTime hFree
    exact ⟨rescheduledAppointment a form.newDate form.newTime, l1, l2, hl, hall, hrun,
      rfl, rfl, rfl, hpending.symm ▸ rfl, rfl, rfl, rfl, rfl, rfl⟩
  · intro hTaken
    rcases handleReschedule_cases weekdayOf s form with
      hs | ⟨b, _, _, hb, _, _, _, _, hFree, _⟩
    · refine ⟨hs.1, by rw [hs.1], hs.2, ?_⟩
      intro hDate hTime
      simp [handleRescheduleSubmission, hDate, hTime, hget, hTaken]
    · rw [hget] at hb
      cases hb
      rw [hTaken] at hFree
      cases hFree

set_option maxRecDepth 8000 in
/-- The pending appointment `a2` is moved to the free Tuesday slot. -/
theorem reschedule_effect_witness :
    (hostWeekday 0) "" = "invalid date" ∧ WellFormedTemplates reusedSlotStore ∧
      AppointmentStorage.getById reusedSlotStore sampleReschedule.appointmentId =
        some laterVisit ∧
      isSlotAvailable (hostWeekday 0) reusedSlotStore laterVisit.doctorId
        sampleReschedule.newDate sampleReschedule.newTime = true ∧
      ∃ updated l1 l2,
        AppointmentStorage.getAll reusedSlotStore = l1 ++ laterVisit :: l2 ∧
        (∀ y ∈ l1, y.id ≠ sampleReschedule.appointmentId) ∧
        handleRescheduleSubmission (hostWeekday 0) reusedSlotStore sampleReschedule =
          (.rescheduled updated,
            { reusedSlotStore with appointments := some (l1 ++ updated :: l2) }) ∧
        updated.date = sampleReschedule.newDate ∧ updated.time = sampleReschedule.newTime ∧
        updated.status = "pending" ∧ updated.status = laterVisit.status ∧
        updated.id = laterVisit.id ∧ updated.doctorId = laterVisit.doctorId ∧
        updated.patientId = laterVisit.patientId ∧ updated.reason = laterVisit.reason ∧
        updated.createdAt = laterVisit.createdAt :=
  ⟨by decide, by decide, by decide, by decide,
    (reschedule_effect (hostWeekday 0) reusedSlotStore sampleReschedule laterVisit
      (by decide) (by decide) (by decide) (by decide)).1 (by decide)⟩

/-- C25. The reschedule does not check the current status. On a store whose templates
are as the code writes them, in a host that gives the empty date the name of an
invalid date: for an appointment that the id resolves to, whatever its status,
confirmed, completed and cancelled among them, and a new date and time for which
`isSlotAvailable` is true for its doctor, `handleRescheduleSubmission` succeeds, puts
the new date and the new time into that record in place and sets its status to
pending, every other appointment staying as it was. -/
theorem reschedule_ignores_status (weekdayOf : String → String) (s : Store)
    (form : RescheduleForm) (a : Appointment)
    (hhost : weekdayOf "" = "invalid date") (hwf : WellFormedTemplates s)
    (hget : AppointmentStorage.getById s form.appointmentId = some a)
    (hFree : isSlotAvailable weekdayOf s a.doctorId form.newDate form.newTime = true) :
    ∃ updated l1 l2,
      AppointmentStorage.getAll s = l1 ++ a :: l2 ∧
      (∀ y ∈ l1, y.id ≠ form.appointmentId) ∧
      handleRescheduleSubmission weekdayOf s form =
        (.rescheduled updated, { s with appointments := some (l1 ++ updated :: l2) }) ∧
      updated = { a with date := form.newDate, time := form.newTime, status := "pending" } ∧
      updated.date = form.newDate ∧ updated.time = form.newTime ∧
      updated.status = "pending" := by
  obtain ⟨hDate, hTime⟩ := available_has_date_and_time weekdayOf s a.doctorId
    form.newDate form.newTime hhost hwf hFree
  obtain ⟨l1, l2, hl, hall, hrun⟩ :=
    handleReschedule_of_free weekdayOf s form a hget hDate hTime hFree
  exact ⟨rescheduledAppointment a form.newDate form.newTime, l1, l2, hl, hall, hrun, rfl,
    rfl, rfl, rfl⟩

set_option maxRecDepth 8000 in
/-- The cancelled appointment `a1` is moved to the free Tuesday slot and is pending
again. -/
theorem reschedule_ignores_status_witness :
    (hostWeekday 0) "" = "invalid date" ∧ WellFormedTemplates reusedSlotStore ∧
      AppointmentStorage.getById reusedSlotStore reviveForm.appointmentId =
        some cancelledVisit ∧
      cancelledVisit.status = "cancelled" ∧
      isSlotAvailable (hostWeekday 0) reusedSlotStore cancelledVisit.doctorId
        reviveForm.newDate reviveForm.newTime = true ∧
      ∃ updated l1 l2,
        AppointmentStorage.getAll reusedSlotStore = l1 ++ cancelledVisit :: l2 ∧
        (∀ y ∈ l1, y.id ≠ reviveForm.appointmentId) ∧
        handleRescheduleSubmission (hostWeekday 0) reusedSlotStore reviveForm =
          (.rescheduled updated,
            { reusedSlotStore with appointments := some (l1 ++ updated :: l2) }) ∧
        updated =
          { cancelledVisit with
            date := reviveForm.newDate, time := reviveForm.newTime, status := "pending" } ∧
        updated.date = reviveForm.newDate ∧ updated.time = reviveForm.newTime ∧
        updated.status = "pending" :=
  ⟨by decide, by decide, by decide, by decide, by decide,
    reschedule_ignores_status (hostWeekday 0) reusedSlotStore reviveForm cancelledVisit
      (by decide) (by decide) (by decide) (by decide)⟩

/-! ## An appointment blocks its own slot -/

theorem own_slot_taken (weekdayOf : String → String) (s : Store) (id : String)
    (a : Appointment) (hget : AppointmentStorage.getById s id = some a)
    (hlive : a.status ≠ "cancelled") :
    isSlotAvailable weekdayOf s a.doctorId a.date a.time = false := by
  rw [← Bool.not_eq_true, isSlotAvailable_eq_true_iff]
  rintro ⟨_, hall⟩
  obtain ⟨l1, l2, hl, _, _⟩ := getById_split s id a hget
  exact hlive (hall a (by rw [hl]; simp) rfl rfl rfl)

/-- C28. On a store whose appointments are as the code writes them, for a
non-cancelled appointment that the id resolves to, `isSlotAvailable` is false for its
own doctor, date and time, the conflict scan not excluding the appointment itself,
and a reschedule to its own date and time is rejected as slot-unavailable and leaves
the store, hence the appointments collection, unchanged. -/
theorem own_slot_blocks_reschedule (weekdayOf : String → String) (s : Store)
    (id : String) (a : Appointment) (hwf : WellFormedAppointments s)
    (hget : AppointmentStorage.getById s id = some a)
    (hlive : a.status ≠ "cancelled") :
    isSlotAvailable weekdayOf s a.doctorId a.date a.time = false ∧
      handleRescheduleSubmission weekdayOf s
          { appointmentId := id, newDate := a.date, newTime := a.time } =
        (.slotUnavailable, s) ∧
      AppointmentStorage.getAll (handleRescheduleSubmission weekdayOf s
          { appointmentId := id, newDate := a.date, newTime := a.time }).2 =
        AppointmentStorage.getAll s := by
  have htaken := own_slot_taken weekdayOf s id a hget hlive
  obtain ⟨l1, l2, hl, _, _⟩ := getById_split s id a hget
  obtain ⟨hDate, hTime⟩ := hwf a (by rw [hl]; simp)
  have hrun : handleRescheduleSubmission weekdayOf s
      { appointmentId := id, newDate := a.date, newTime := a.time } =
      (.slotUnavailable, s) := by
    simp [handleRescheduleSubmission, hDate, hTime, hget, htaken]
  exact ⟨htaken, hrun, by rw [hrun]⟩

set_option maxRecDepth 8000 in
/-- The pending appointment `a2`, on Monday 2030-01-07 at 10:00, cannot be
rescheduled to that date and time. -/
theorem own_slot_blocks_reschedule_witness :
    WellFormedAppointments pendingVisitStore ∧
      AppointmentStorage.getById pendingVisitStore "a2" = some laterVisit ∧
      laterVisit.status ≠ "cancelled" ∧
      isSlotAvailable (hostWeekday 0) pendingVisitStore laterVisit.doctorId
        laterVisit.date laterVisit.time = false ∧
      handleRescheduleSubmission (hostWeekday 0) pendingVisitStore
          { appointmentId := "a2", newDate := laterVisit.date, newTime := laterVisit.time } =
        (.slotUnavailable, pendingVisitStore) :=
  have h := own_slot_blocks_reschedule (hostWeekday 0) pendingVisitStore "a2" laterVisit
    (by decide) (by decide) (by decide)
  ⟨by decide, by decide, by decide, h.1, h.2.1⟩

/-! ## Cancelling frees the slot -/

/-- In terms of the day name that the host computes, cancelling frees the slot. In a
store with unique slots and appointments as the code writes them, in which the
template of the doctor enables the day that the host names for the date, and the
time, of a non-cancelled appointment that its id resolves to: after that appointment
is cancelled or declined `isSlotAvailable` is true for its doctor, date and time, and
a new booking of that slot by whoever is logged in succeeds. -/
theorem cancel_frees_slot_for_host_weekday (weekdayOf : String → String) (s : Store)
    (a : Appointment) (hu : SlotUnique (AppointmentStorage.getAll s))
    (hwf : WellFormedAppointments s)
    (htemplate : ∃ doctor availability,
      UserStorage.getById s a.doctorId = some doctor ∧
      doctor.availability = some availability ∧
      ∃ slot ∈ availability,
        slot.day = weekdayOf a.date ∧ slot.time = a.time ∧ slot.available = true)
    (hget : AppointmentStorage.getById s a.id = some a)
    (hlive : a.status ≠ "cancelled") :
    isSlotAvailable weekdayOf (cancelAppointment true s a.id).2
        a.doctorId a.date a.time = true ∧
      isSlotAvailable weekdayOf (declineAppointment true s a.id).2
        a.doctorId a.date a.time = true ∧
      ∀ (patient : User) (newId now reason : String),
        (∃ apt, (handleBookingSubmission weekdayOf newId now
            { (cancelAppointment true s a.id).2 with currentUser := some patient }
            { doctorId := a.doctorId, date := a.date, time := a.time, reason := reason }).1 =
          .booked apt ∧ apt.doctorId = a.doctorId ∧ apt.date = a.date ∧
            apt.time = a.time ∧ apt.patientId = patient.id ∧ apt.status = "pending") ∧
        ∃ apt, (handleBookingSubmission weekdayOf newId now
            { (declineAppointment true s a.id).2 with currentUser := some patient }
            { doctorId := a.doctorId, date := a.date, time := a.time, reason := reason }).1 =
          .booked apt ∧ apt.doctorId = a.doctorId ∧ apt.date = a.date ∧
            apt.time = a.time ∧ apt.patientId = patient.id ∧ apt.status = "pending" := by
  have hfree := available_after_cancel weekdayOf s a hu htemplate hget hlive
  obtain ⟨l1, l2, hl, _, _⟩ := getById_split s a.id a hget
  obtain ⟨hDate, hTime⟩ := hwf a (by rw [hl]; simp)
  have hbook : ∀ (patient : User) (newId now reason : String),
      ∃ apt, (handleBookingSubmission weekdayOf newId now
          { (statusResult
              (AppointmentStorage.update s a.id { status := some "cancelled" })).2
            with currentUser := some patient }
          { doctorId := a.doctorId, date := a.date, time := a.time, reason := reason }).1 =
        .booked apt ∧ apt.doctorId = a.doctorId ∧ apt.date = a.date ∧
          apt.time = a.time ∧ apt.patientId = patient.id ∧ apt.status = "pending" := by
    intro patient newId now reason
    have hrun := handleBooking_of_free weekdayOf newId now
      { (statusResult
          (AppointmentStorage.update s a.id { status := some "cancelled" })).2
        with currentUser := some patient }
      { doctorId := a.doctorId, date := a.date, time := a.time, reason := reason }
      patient rfl hDate hTime (hfree (some patient))
    rw [hrun]
    exact ⟨_, rfl, rfl, rfl, rfl, rfl, rfl⟩
  refine ⟨hfree _, hfree _, ?_⟩
  intro patient newId now reason
  exact ⟨hbook patient newId now reason, hbook patient newId now reason⟩

/-- In a host at UTC or east of it, cancelling frees the slot that the template
enables for the weekday of the date. -/
theorem cancel_frees_slot_east_of_utc (offsetMinutes : Int) (s : Store)
    (a : Appointment) (h0 : 0 ≤ offsetMinutes) (h1 : offsetMinutes < 1440)
    (hu : SlotUnique (AppointmentStorage.getAll s)) (hwf : WellFormedAppointments s)
    (htemplate : ∃ doctor availability,
      UserStorage.getById s a.doctorId = some doctor ∧
      doctor.availability = some availability ∧
      ∃ slot ∈ availability,
        slot.day = weekdayOfDate a.date ∧ slot.time = a.time ∧ slot.available = true)
    (hget : AppointmentStorage.getById s a.id = some a)
    (hlive : a.status ≠ "cancelled") :
    isSlotAvailable (hostWeekday offsetMinutes) (cancelAppointment true s a.id).2
        a.doctorId a.date a.time = true ∧
      isSlotAvailable (hostWeekday offsetMinutes) (declineAppointment true s a.id).2
        a.doctorId a.date a.time = true ∧
      ∀ (patient : User) (newId now reason : String),
        ∃ apt, (handleBookingSubmission (hostWeekday offsetMinutes) newId now
            { (cancelAppointment true s a.id).2 with currentUser := some patient }
            { doctorId := a.doctorId, date := a.date, time := a.time, reason := reason }).1 =
          .booked apt ∧ apt.doctorId = a.doctorId ∧ apt.date = a.date ∧
            apt.time = a.time ∧ apt.patientId = patient.id ∧ apt.status = "pending" := by
  have h := cancel_frees_slot_for_host_weekday (hostWeekday offsetMinutes) s a hu hwf
    (by rw [hostWeekday_of_east offsetMinutes a.date h0 h1]; exact htemplate) hget hlive
  exact ⟨h.1, h.2.1, fun patient newId now reason => (h.2.2 patient newId now reason).1⟩

theorem firstRunStore_slotUnique :
    SlotUnique (AppointmentStorage.getAll firstRunStore) := by
  have h := slotUnique_append [seededVisit]
    { id := "s7", doctorId := "s3", patientId := "s1", date := "2030-01-14",
      time := "14:30", status := "pending", reason := "Skin consultation",
      createdAt := "t0" }
    (slotUnique_singleton seededVisit) (by decide)
  have hall : AppointmentStorage.getAll firstRunStore =
      [seededVisit] ++
        [{ id := "s7", doctorId := "s3", patientId := "s1", date := "2030-01-14",
           time := "14:30", status := "pending", reason := "Skin consultation",
           createdAt := "t0" }] := by
    decide
  rw [hall]
  exact h

set_option maxRecDepth 8000 in
/-- C27, where the code departs from it. After a first run on a Monday, the seeded
appointment `s6` with Dr. Wilson (id `s2`) is the single non-cancelled appointment on
Monday 2030-01-07 at 10:00, slots are unique, and the template of Dr. Wilson enables
Monday at 10:00. The seeded patient logs in and cancels `s6`. In a host in the zone of
New York `isSlotAvailable` is then false for that slot, the date being named Sunday,
and the booking of the slot by the patient is turned down as slot-unavailable; the
same holds after the doctor declines `s6`. In a host at UTC the slot is available and
the booking succeeds. -/
theorem freed_monday_slot_stays_unavailable :
    SlotUnique (AppointmentStorage.getAll patientSessionStore) ∧
      occupants (AppointmentStorage.getAll patientSessionStore) "s2" "2030-01-07" "10:00" =
        [seededVisit] ∧
      AppointmentStorage.getById patientSessionStore "s6" = some seededVisit ∧
      weekdayOfDate "2030-01-07" = "monday" ∧
      (UserStorage.getById patientSessionStore "s2").bind (fun doctor => doctor.availability) =
        some generateSampleAvailability ∧
      ({ day := "monday", time := "10:00", available := true } : Slot) ∈
        generateSampleAvailability ∧
      (cancelAppointment true patientSessionStore "s6").1 =
        .updated { seededVisit with status := "cancelled" } ∧
      hostWeekday newYorkOffset "2030-01-07" = "sunday" ∧
      isSlotAvailable (hostWeekday newYorkOffset)
        (cancelAppointment true patientSessionStore "s6").2 "s2" "2030-01-07" "10:00" =
          false ∧
      (handleBookingSubmission (hostWeekday newYorkOffset) "n2" "t2"
        (cancelAppointment true patientSessionStore "s6").2 mondayForm).1 =
          .slotUnavailable ∧
      isSlotAvailable (hostWeekday newYorkOffset)
        (declineAppointment true patientSessionStore "s6").2 "s2" "2030-01-07" "10:00" =
          false ∧
      (handleBookingSubmission (hostWeekday newYorkOffset) "n2" "t2"
        (declineAppointment true patientSessionStore "s6").2 mondayForm).1 =
          .slotUnavailable ∧
      isSlotAvailable (hostWeekday 0)
        (cancelAppointment true patientSessionStore "s6").2 "s2" "2030-01-07" "10:00" =
          true ∧
      ∃ apt, (handleBookingSubmission (hostWeekday 0) "n2" "t2"
        (cancelAppointment true patientSessionStore "s6").2 mondayForm).1 = .booked apt := by
  refine ⟨firstRunStore_slotUnique, by decide, by decide, by decide, by decide, by decide,
    by decide, by decide, by decide, by decide, by decide, by decide, by decide, ?_⟩
  let created : Appointment :=
    { id := "n2", doctorId := "s2", patientId := "s1", date := "2030-01-07",
      time := "10:00", status := "pending", reason := "General consultation",
      createdAt := "t2" }
  exact ⟨created, by decide⟩

end DocBook
